import Mathlib

/-!
# Remnant item finder: reconstruction engine

A shallow embedding of `src/backend/backend.go` (tree assembly, item/event classification,
property and zone extraction, instance location, character resolution) together with the
properties of the specification that concern it.

Conventions of the embedding
* Go `int32` values are `Int`; no arithmetic is performed on them by the embedded code.
* A Go `interface{}` holding a decoded property is a `Value`; `Option Value` is used where
  the code tests an interface against `nil`.
* A pointer `&zones[i]` into the slice handed to `buildTree` is the index `i`.
* A Go slice that the code tests against `nil` is an `Option (List _)`.
* Run-time failures are explicit: `Fail.error` is a returned `error`, `Fail.panic` a failed
  type assertion or an out-of-range index, `Fail.fatal` a call of `log.Fatal`.
-/

namespace Refinder

/-! ## Generic record model -/

/-- Modelled from the spec: the value types of the save-archive decoder (package `remnant`,
whose sources are not part of the repository), as the tagged union `Value` of the data
model and the type assertions of `backend.go` name them. -/
inductive Value where
  /-- Go `int32`. -/
  | int32 (n : Int)
  /-- Go `uint64`. -/
  | uint64 (n : Nat)
  /-- Go `bool`. -/
  | bool (b : Bool)
  /-- Go `string`. -/
  | str (s : String)
  /-- The decoder type `remnant.EnumProperty` with its `EnumValue`. -/
  | enum (enumValue : String)
  /-- The decoder type `remnant.StructProperty` with its `Value`. -/
  | struct (value : Value)
  /-- Go `map[string]interface{}`. -/
  | map (entries : List (String × Value))
  /-- The decoder type `remnant.ArrayStructProperty`; the list holds `Items[i].Value`. -/
  | array (items : List Value)
  /-- The decoder type `remnant.TextData` with its `Data`. -/
  | textData (data : String)
  /-- The decoder type `remnant.TextPropertyData` with its `SourceString`. -/
  | textPropertyData (sourceString : String)
  /-- The decoder type `remnant.TextProperty` with its `Data`. -/
  | text (data : Value)
  /-- The decoder type `remnant.ObjectProperty` with its `ClassName`. -/
  | object (className : String)
  /-- The decoder type `remnant.Variables` with its `Properties`. -/
  | variables (properties : List (String × Value))
  /-- Any other dynamic type. -/
  | other

/-- Ways in which the embedded Go code can fail. -/
inductive Fail where
  /-- A returned `error` with its message. -/
  | error (msg : String)
  /-- A run-time panic: failed type assertion or index out of range. -/
  | panic
  /-- The process was ended by `log.Fatal`. -/
  | fatal
  deriving DecidableEq, Repr

/-- Indexing a Go map: the value stored under `key`, if any. -/
def lookup : List (String × Value) → String → Option Value
  | [], _ => none
  | (k, v) :: rest, key => if k = key then some v else lookup rest key

/-- Type assertion `x.(int32)` in its panicking form. -/
def asInt32 : Option Value → Except Fail Int
  | some (.int32 n) => .ok n
  | _ => .error .panic

/-- Type assertion `x.(uint64)` in its panicking form. -/
def asUInt64 : Option Value → Except Fail Nat
  | some (.uint64 n) => .ok n
  | _ => .error .panic

/-- Type assertion `x.(string)` in its panicking form. -/
def asString : Option Value → Except Fail String
  | some (.str s) => .ok s
  | _ => .error .panic

/-- Type assertion `x.(map[string]interface{})` in its panicking form. -/
def asMap : Option Value → Except Fail (List (String × Value))
  | some (.map m) => .ok m
  | _ => .error .panic

/-- Type assertion `x.(remnant.StructProperty).Value` in its panicking form. -/
def asStruct : Option Value → Except Fail Value
  | some (.struct v) => .ok v
  | _ => .error .panic

/-- Type assertion `x.(remnant.ArrayStructProperty).Items` in its panicking form. -/
def asArray : Option Value → Except Fail (List Value)
  | some (.array xs) => .ok xs
  | _ => .error .panic

/-- Type assertion `x.(remnant.EnumProperty).EnumValue` in its panicking form. -/
def asEnum : Option Value → Except Fail String
  | some (.enum e) => .ok e
  | _ => .error .panic

/-- Indexing a slice `xs[i]`, which panics when `i` is out of range. -/
def index {α : Type} (xs : List α) (i : Nat) : Except Fail α :=
  match xs[i]? with
  | some x => .ok x
  | none => .error .panic

/-- Worker of `stringsSplit`: `cur` is the current segment, reversed. -/
def splitAux (sep : Char) : List Char → List Char → List (List Char)
  | [], cur => [cur.reverse]
  | c :: cs, cur =>
    if c = sep then cur.reverse :: splitAux sep cs [] else splitAux sep cs (c :: cur)

/-- Go `strings.Split(s, sep)` for a separator of one character. -/
def stringsSplit (s : String) (sep : Char) : List String :=
  (splitAux sep s.toList []).map String.mk

/-! ## Domain types (`backend.go`, lines 20-93) -/

structure ItemProperties where
  ZoneID : Int
  ID : Int
  ParentQuestID : Int

structure ItemComponents where
  LootSpawns : Option Value
  Zone : Option Value
  POI : Option Value
  Rewards : Option (List Value)
  QuestObjectives : Option (List Value)

structure ItemData where
  Name : String
  Properties : ItemProperties
  Components : ItemComponents
  OwnedByCharacter : Bool
  Quantity : Int

structure ZoneLinkInfo where
  ZoneID : Int
  Label : String
  /-- The field `Type` of the source (a reserved word here). -/
  Type_ : String
  DestinationLink : String
  DestinationZone : String
  NameID : String

structure PersistenceKey where
  ContainerKey : String
  PersistentID : Nat
  deriving DecidableEq

structure LootSpawn where
  ID : Nat
  RewardID : Nat
  /-- The field `Type` of the source (a reserved word here). -/
  Type_ : String
  ActorBP : String
  Quantity : Int
  PersistenceKey : PersistenceKey
  OwnedByCharacter : Bool
  deriving DecidableEq

structure Event where
  Name : String
  Rewards : Option (List LootSpawn)
  deriving DecidableEq

/-- A zone node. `Children` holds pointers into the slice given to `buildTree`, each
pointer `&zones[i]` being the index `i`. -/
structure ZoneActor where
  ID : Int
  ParentZoneID : Int
  QuestID : Int
  Label : String
  ZoneLinks : List ZoneLinkInfo
  Events : List Event
  Items : List ItemData
  Children : List Nat

/-! ## Tree assembly (`buildTree`, lines 95-120) -/

/-- The map `zoneMap` after the first loop of `buildTree`: every zone's index stored under
its `ID`, later zones overwriting earlier ones. -/
def mkZoneMap (zones : List ZoneActor) : Int → Option Nat :=
  (List.range zones.length).foldl
    (fun m i =>
      match zones[i]? with
      | some z => fun key => if key = z.ID then some i else m key
      | none => m)
    (fun _ => none)

/-- The inner loop of `buildTree` computing `hasLinks`. -/
def hasLinks (links : List ZoneLinkInfo) : Bool :=
  links.any (fun link => link.DestinationLink != "None" || link.DestinationZone != "None")

/-- The statement `parent.Children = append(parent.Children, &zones[c])` for the zone at
index `k`. -/
def appendChild : List ZoneActor → Nat → Nat → List ZoneActor
  | [], _, _ => []
  | z :: zs, 0, c => { z with Children := z.Children ++ [c] } :: zs
  | z :: zs, k + 1, c => z :: appendChild zs k c

/-- One iteration of the second loop of `buildTree`; the state is the slice and `root`. -/
def buildTreeStep (zoneMap : Int → Option Nat) (st : List ZoneActor × Option Nat) (i : Nat) :
    List ZoneActor × Option Nat :=
  match st.1[i]? with
  | none => st
  | some z =>
    if z.ParentZoneID = 0 then
      if hasLinks z.ZoneLinks then (st.1, some i) else st
    else
      match zoneMap z.ParentZoneID with
      | some k => (appendChild st.1 k i, st.2)
      | none => st

/-- The function `buildTree`: the slice after the call, and the returned pointer `root`
(`none` is `nil`). -/
def buildTree (zones : List ZoneActor) : List ZoneActor × Option Nat :=
  (List.range zones.length).foldl (buildTreeStep (mkZoneMap zones)) (zones, none)

/-- The `Children` of the zone at index `k` of a slice. -/
def childrenOf (zs : List ZoneActor) (k : Nat) : List Nat :=
  match zs[k]? with
  | some z => z.Children
  | none => []

/-! ## Item/event classification (`processItems`, lines 229-306) -/

/-- Lines 234-244 of `processItems`: the zone id compared with the zone's `ID`. -/
def currentZoneID (item : ItemData) : Except Fail Int :=
  match item.Components.Zone with
  | none => .ok item.Properties.ZoneID
  | some (.map componentZoneMap) =>
    match lookup componentZoneMap "ZoneID" with
    | some (.int32 n) => .ok n
    | _ => .error (.error "could not parse zoneID")
  | some _ => .error (.error "could not parse zone")

/-- Lines 249-254 of `processItems`: the loop over the loot spawns, which overwrites the
`Name` and the `Quantity` of the local copy `item`. -/
def lootSpawnLoop : List Value → ItemData → Except Fail ItemData
  | [], item => .ok item
  | itemProp :: rest, item => do
    let itemProps ← asMap (some itemProp)
    let spawnEntry ← asStruct (lookup itemProps "SpawnEntry")
    let spawnPropertyProps ← asMap (some spawnEntry)
    let actorBP ← asString (lookup spawnPropertyProps "ActorBP")
    let name ← index (stringsSplit actorBP '.') 1
    let quantity ← asInt32 (lookup spawnPropertyProps "Quantity")
    lootSpawnLoop rest { item with Name := name, Quantity := quantity }

/-- Lines 256-259 of `processItems`: the ownership flag is raised on a name match. -/
def markOwned (characterItems : List String) (item : ItemData) : ItemData :=
  if characterItems.contains item.Name then { item with OwnedByCharacter := true } else item

/-- Lines 271-295 of `processItems`: the `LootSpawn` built from one spawn of a reward. -/
def rewardSpawn (characterItems : List String) (rewardIdx idx : Nat) (item : Value) :
    Except Fail LootSpawn := do
  let itemValue ← asMap (some item)
  let spawnEntry ← asStruct (lookup itemValue "SpawnEntry")
  let spawnProperties ← asMap (some spawnEntry)
  let key ← asStruct (lookup itemValue "Key")
  let keyProperties ← asMap (some key)
  let actorBP0 ← asString (lookup spawnProperties "ActorBP")
  let actorBPSplit := stringsSplit actorBP0 '.'
  let actorBP1 ← if actorBPSplit.length > 1 then index actorBPSplit 1 else .ok actorBP0
  let actorBP := if actorBP1.utf8ByteSize < 2 then "Unknown Event Reward" else actorBP1
  let type ← asEnum (lookup spawnProperties "Type")
  let quantity ← asInt32 (lookup spawnProperties "Quantity")
  let containerKey ← asString (lookup keyProperties "ContainerKey")
  let persistentID ← asUInt64 (lookup keyProperties "PersistentID")
  .ok { ID := idx, RewardID := rewardIdx, Type_ := type, ActorBP := actorBP,
        Quantity := quantity,
        PersistenceKey := { ContainerKey := containerKey, PersistentID := persistentID },
        OwnedByCharacter := characterItems.contains actorBP }

/-- Lines 270-296 of `processItems`: the loop over the spawns of one reward; `idx` is the
index of the next spawn. -/
def spawnsLoop (characterItems : List String) (rewardIdx : Nat) :
    List Value → Nat → List LootSpawn → Except Fail (List LootSpawn)
  | [], _, lootSpawns => .ok lootSpawns
  | item :: rest, idx, lootSpawns => do
    let spawn ← rewardSpawn characterItems rewardIdx idx item
    spawnsLoop characterItems rewardIdx rest (idx + 1) (lootSpawns ++ [spawn])

/-- Lines 265-297 of `processItems`: the loop over the reward components; `rewardIdx` is
the index of the next reward. -/
def rewardsLoop (characterItems : List String) :
    List Value → Nat → List LootSpawn → Except Fail (List LootSpawn)
  | [], _, lootSpawns => .ok lootSpawns
  | reward :: rest, rewardIdx, lootSpawns => do
    let rewardMap ← asMap (some reward)
    match lookup rewardMap "Spawns" with
    | none => rewardsLoop characterItems rest (rewardIdx + 1) lootSpawns
    | some spawns =>
      let itemSpawns ← asArray (some spawns)
      let lootSpawns ← spawnsLoop characterItems rewardIdx itemSpawns 0 lootSpawns
      rewardsLoop characterItems rest (rewardIdx + 1) lootSpawns

/-- Lines 261-299 of `processItems`: the event built from a record without loot spawns. -/
def mkEvent (characterItems : List String) (item : ItemData) : Except Fail Event :=
  match item.Components.Rewards with
  | none => .ok { Name := item.Name, Rewards := none }
  | some rewards => do
    let lootSpawns ← rewardsLoop characterItems rewards 0 []
    .ok { Name := item.Name, Rewards := some lootSpawns }

/-- The loop of `processItems` (lines 233-303) with its two accumulators. -/
def processItemsLoop (zone : ZoneActor) (characterItems : List String) :
    List ItemData → List ItemData → List Event → Except Fail (List ItemData × List Event)
  | [], resultItems, resultEvents => .ok (resultItems, resultEvents)
  | item :: rest, resultItems, resultEvents => do
    let zoneID ← currentZoneID item
    if zoneID = zone.ID then
      match item.Components.LootSpawns with
      | some lootSpawns =>
        let spawns ← asArray (some lootSpawns)
        let item ← lootSpawnLoop spawns item
        processItemsLoop zone characterItems rest
          (resultItems ++ [markOwned characterItems item]) resultEvents
      | none =>
        let currentEvent ← mkEvent characterItems item
        processItemsLoop zone characterItems rest resultItems (resultEvents ++ [currentEvent])
    else
      processItemsLoop zone characterItems rest resultItems resultEvents

/-- The function `processItems`. -/
def processItems (items : List ItemData) (zone : ZoneActor) (characterItems : List String) :
    Except Fail (List ItemData × List Event) :=
  processItemsLoop zone characterItems items [] []

/-! ## Session reconstruction (`findAdventure`, lines 395-407) -/

/-- Lines 395-405 of `findAdventure`: every zone receives its items and events; an error
of `processItems` ends the process through `log.Fatal`. -/
def assignItems (items : List ItemData) (characterItems : List String) :
    List ZoneActor → Except Fail (List ZoneActor)
  | [] => .ok []
  | actor :: rest =>
    match processItems items actor characterItems with
    | .error .panic => .error .panic
    | .error _ => .error .fatal
    | .ok (zoneItems, events) => do
      let rest ← assignItems items characterItems rest
      .ok ({ actor with Items := zoneItems, Events := events } :: rest)

/-- Lines 395-407 of `findAdventure`: the zones are populated and the tree is built. -/
def findAdventureTree (items : List ItemData) (zoneActors : List ZoneActor)
    (characterItems : List String) : Except Fail (List ZoneActor × Option Nat) := do
  let zoneActors ← assignItems items characterItems zoneActors
  .ok (buildTree zoneActors)

/-! ## Vocabulary of the specification -/

/-- A root candidate in the words of the specification's testable property: a parentless
zone with at least one link one of whose destination fields is not `"None"`. -/
def RootCandidate (z : ZoneActor) : Prop :=
  z.ParentZoneID = 0 ∧
    ∃ link ∈ z.ZoneLinks, link.DestinationLink ≠ "None" ∨ link.DestinationZone ≠ "None"

/-- A root candidate in the words of the specification's invariant: a parentless zone with
at least one link both of whose destination fields are not `"None"`. -/
def StrictCandidate (z : ZoneActor) : Prop :=
  z.ParentZoneID = 0 ∧
    ∃ link ∈ z.ZoneLinks, link.DestinationLink ≠ "None" ∧ link.DestinationZone ≠ "None"

/-- The zone at index `c` is pointed to by the `Children` of the zone at index `p`. -/
def IsChild (zs : List ZoneActor) (p c : Nat) : Prop :=
  c ∈ childrenOf zs p

/-- A zone without links, items, events and children. -/
def bareZone (id parent : Int) : ZoneActor :=
  { ID := id, ParentZoneID := parent, QuestID := 0, Label := "", ZoneLinks := [],
    Events := [], Items := [], Children := [] }

/-- A link with the given destination fields. -/
def linkTo (destinationLink destinationZone : String) : ZoneLinkInfo :=
  { ZoneID := 0, Label := "", Type_ := "", DestinationLink := destinationLink,
    DestinationZone := destinationZone, NameID := "" }

/-- A zone whose single link has the given destination fields. -/
def linkedZone (id parent : Int) (destinationLink destinationZone : String) : ZoneActor :=
  { bareZone id parent with ZoneLinks := [linkTo destinationLink destinationZone] }

/-! ## Loop states of `buildTree` -/

/-- The zone map after the first `m` iterations of the first loop of `buildTree`. -/
def zoneMapTo (zones : List ZoneActor) (m : Nat) : Int → Option Nat :=
  (List.range m).foldl
    (fun mp i =>
      match zones[i]? with
      | some z => fun key => if key = z.ID then some i else mp key
      | none => mp)
    (fun _ => none)

/-- The index whose `Children` receives the zone at index `i`, if any. -/
def target (zones : List ZoneActor) (i : Nat) : Option Nat :=
  match zones[i]? with
  | some z => if z.ParentZoneID = 0 then none else mkZoneMap zones z.ParentZoneID
  | none => none

/-- The pointers appended to the `Children` of index `k` by the first `m` iterations. -/
def addedTo (zones : List ZoneActor) (m k : Nat) : List Nat :=
  (List.range m).filter (fun i => decide (target zones i = some k))

/-- Whether the zone at index `i` is assigned to `root` by its iteration. -/
def isCand (zones : List ZoneActor) (i : Nat) : Bool :=
  match zones[i]? with
  | some z => decide (z.ParentZoneID = 0) && hasLinks z.ZoneLinks
  | none => false

/-- The value of `root` after the first `m` iterations. -/
def rootTo (zones : List ZoneActor) : Nat → Option Nat
  | 0 => none
  | m + 1 => if isCand zones m then some m else rootTo zones m

/-- The state of the second loop of `buildTree` after its first `m` iterations. -/
def buildTreeTo (zones : List ZoneActor) (m : Nat) : List ZoneActor × Option Nat :=
  (List.range m).foldl (buildTreeStep (mkZoneMap zones)) (zones, none)

/-! ## Per-record view of `processItems` -/

/-- Whether the zone id of a record resolves to the `ID` of the zone. -/
def assigned (zone : ZoneActor) (item : ItemData) : Bool :=
  match currentZoneID item with
  | .ok zoneID => decide (zoneID = zone.ID)
  | .error _ => false

/-- What one record contributes to the two results of `processItems`: the body of the loop
(lines 234-302) run on empty accumulators. -/
def contribution (zone : ZoneActor) (characterItems : List String) (item : ItemData) :
    Except Fail (List ItemData × List Event) :=
  match currentZoneID item with
  | .error e => .error e
  | .ok zoneID =>
    if zoneID = zone.ID then
      match item.Components.LootSpawns with
      | some lootSpawns =>
        match asArray (some lootSpawns) with
        | .error e => .error e
        | .ok spawns =>
          match lootSpawnLoop spawns item with
          | .error e => .error e
          | .ok item => .ok ([markOwned characterItems item], [])
      | none =>
        match mkEvent characterItems item with
        | .error e => .error e
        | .ok currentEvent => .ok ([], [currentEvent])
    else .ok ([], [])

/-! ## Component extraction (`getItemComponents`, lines 200-227) -/

/-- Modelled from the spec: a component of a decoded record (decoder package `remnant`, not
part of the sources), `{ key, properties }` in the data model of the specification. -/
structure Component where
  ComponentKey : String
  Properties : List (String × Value)

/-- Modelled from the spec: a decoded record (decoder package `remnant`, not part of the
sources), with the fields that `backend.go` reads on the sub-records of an actor or of a
character blob. -/
structure UObject where
  Properties : List (String × Value)
  Components : List Component
  /-- The field `LoadedData.Name`. -/
  LoadedDataName : String := ""

/-- Go `strings.HasPrefix(s, pre)`. -/
def stringsHasPrefix (s pre : String) : Bool :=
  pre.toList.isPrefixOf s.toList

/-- The body of the inner loop of `getItemComponents` (lines 204-222) for one component. -/
def getItemComponentsStep (itemComponents : ItemComponents) (comp : Component) :
    ItemComponents :=
  let c1 :=
    if comp.ComponentKey = "Loot" then
      match lookup comp.Properties "Spawns" with
      | some compPropValue => { itemComponents with LootSpawns := some compPropValue }
      | none => itemComponents
    else itemComponents
  let c2 :=
    if comp.ComponentKey = "Zone" then { c1 with Zone := some (.map comp.Properties) } else c1
  let c3 :=
    if comp.ComponentKey = "POI" then { c2 with POI := some (.map comp.Properties) } else c2
  let c4 :=
    if stringsHasPrefix comp.ComponentKey "Reward_" then
      { c3 with Rewards := some (c3.Rewards.getD [] ++ [.map comp.Properties]) }
    else c3
  if stringsHasPrefix comp.ComponentKey "QuestObjective_" then
    { c4 with QuestObjectives := some (c4.QuestObjectives.getD [] ++ [.map comp.Properties]) }
  else c4

/-- The function `getItemComponents`. -/
def getItemComponents (objects : List UObject) : ItemComponents :=
  objects.foldl (fun itemComponents obj => obj.Components.foldl getItemComponentsStep itemComponents)
    { LootSpawns := none, Zone := none, POI := none, Rewards := none, QuestObjectives := none }

/-! ## Concrete records used by the scenarios -/

/-- The record that `findAdventure` builds (lines 374-378) from a class name, the item
properties and the sub-records of an actor. -/
def mkItemData (name : String) (properties : ItemProperties) (objects : List UObject) :
    ItemData :=
  { Name := name, Properties := properties, Components := getItemComponents objects,
    OwnedByCharacter := false, Quantity := 0 }

/-- A spawn entry with the given actor blueprint and quantity. -/
def spawnOf (actorBP : String) (quantity : Int) : Value :=
  .map [("SpawnEntry", .struct (.map [("ActorBP", .str actorBP), ("Quantity", .int32 quantity)]))]

/-- A sub-record with a single `Loot` component holding the given `Spawns` array. -/
def lootObject (spawns : List Value) : UObject :=
  { Properties := [],
    Components := [{ ComponentKey := "Loot", Properties := [("Spawns", .array spawns)] }] }

/-- The item record of the scenario: zone id 2, one loot spawn `Pkg.Sword` of quantity 1. -/
def swordRecord : ItemData :=
  mkItemData "Item_Sword_C" { ZoneID := 2, ID := 7, ParentQuestID := 0 }
    [lootObject [spawnOf "Pkg.Sword" 1]]

/-- A record of zone 2 whose `Loot` component has a `Spawns` array without entries. -/
def emptyLootRecord : ItemData :=
  mkItemData "Quest_Event_C" { ZoneID := 2, ID := 8, ParentQuestID := 0 } [lootObject []]

/-- A record of zone 2 without components. -/
def plainRecord : ItemData :=
  mkItemData "Quest_Event_C" { ZoneID := 2, ID := 9, ParentQuestID := 0 } []

/-- The sword record with its ownership flag already raised. -/
def staleOwnedRecord : ItemData :=
  { swordRecord with OwnedByCharacter := true }

/-- A reward spawn with the given actor blueprint. -/
def rewardSpawnOf (actorBP : String) : Value :=
  .map [("SpawnEntry", .struct (.map [("ActorBP", .str actorBP), ("Quantity", .int32 1),
          ("Type", .enum "ELootType::Item")])),
        ("Key", .struct (.map [("ContainerKey", .str "Quest"), ("PersistentID", .uint64 4)]))]

/-- A record of zone 2 with one reward component holding one spawn `Pkg.Ring`. -/
def rewardRecord : ItemData :=
  mkItemData "Quest_Event_C" { ZoneID := 2, ID := 10, ParentQuestID := 0 }
    [{ Properties := [],
       Components := [{ ComponentKey := "Reward_0",
                        Properties := [("Spawns", .array [rewardSpawnOf "Pkg.Ring"])] }] }]

/-! ## String helpers of the Go standard library -/

/-- Go `strings.HasSuffix(s, suf)`. -/
def stringsHasSuffix (s suf : String) : Bool :=
  suf.toList.isSuffixOf s.toList

/-- Go `strings.TrimPrefix(s, pre)`. -/
def stringsTrimPrefix (s pre : String) : String :=
  if stringsHasPrefix s pre then String.mk (s.toList.drop pre.toList.length) else s

/-- Go `strings.TrimSuffix(s, suf)`. -/
def stringsTrimSuffix (s suf : String) : String :=
  if stringsHasSuffix s suf then String.mk (s.toList.take (s.toList.length - suf.toList.length))
  else s

/-! ## Property extraction (`getItemProperties`, lines 169-198) -/

/-- The pattern `if v, ok := m[key]; ok { x, ok = v.(int32); if !ok { return error } }` of
`getItemProperties`: the value when present, `current` when absent, the error `msg` when
present with another variant. -/
def optionalInt32 (msg : String) (current : Int) : Option Value → Except Fail Int
  | none => .ok current
  | some (.int32 n) => .ok n
  | some _ => .error (.error msg)

/-- The function `getItemProperties`. -/
def getItemProperties : List UObject → Except Fail ItemProperties
  | [] => .ok { ZoneID := 0, ID := 0, ParentQuestID := 0 }
  | obj :: rest =>
    if obj.Properties.length = 0 then getItemProperties rest
    else do
      let zoneID ← optionalInt32 "could not parse zoneID" 0 (lookup obj.Properties "ZoneID")
      let id ←
        match lookup obj.Properties "ID" with
        | some (.int32 n) => .ok n
        | _ => .error (.error "could not parse ID")
      let parentQuestID ←
        optionalInt32 "could not parse ParentQuestID" 0 (lookup obj.Properties "ParentQuestID")
      .ok { ZoneID := zoneID, ID := id, ParentQuestID := parentQuestID }

/-! ## Zone extraction (`getTextPropertyValue`, `getZoneActor`, lines 122-167) -/

/-- The function `getTextPropertyValue`, applied to the `Data` of the text property. -/
def getTextPropertyValue : Value → String
  | .textData data => data
  | .textPropertyData sourceString => sourceString
  | _ => ""

/-- Type assertion `x.(remnant.TextProperty)` in its panicking form; the result is the
`Data` of the text property. -/
def asText : Option Value → Except Fail Value
  | some (.text data) => .ok data
  | _ => .error .panic

/-- Non-panicking assertion `if n, ok := x.(int32); ok { field = n }`. -/
def int32Or (current : Int) : Option Value → Int
  | some (.int32 n) => n
  | _ => current

/-- Lines 154-162 of `getZoneActor`: the link decoded from one entry of `ZoneLinks`. -/
def zoneLinkOf (zoneLink : Value) : Except Fail ZoneLinkInfo := do
  let zoneLinkValue ← asMap (some zoneLink)
  let zoneID ← asInt32 (lookup zoneLinkValue "ZoneID")
  let destinationLink ← asString (lookup zoneLinkValue "DestinationLink")
  let destinationZone ← asString (lookup zoneLinkValue "DestinationZone")
  let nameID ← asString (lookup zoneLinkValue "NameID")
  let label ← asText (lookup zoneLinkValue "Label")
  let type ← asEnum (lookup zoneLinkValue "Type")
  .ok { ZoneID := zoneID, Label := getTextPropertyValue label, Type_ := type,
        DestinationLink := destinationLink, DestinationZone := destinationZone,
        NameID := nameID }

/-- Lines 153-163 of `getZoneActor`: the loop appending the decoded links. -/
def zoneLinksLoop : List Value → List ZoneLinkInfo → Except Fail (List ZoneLinkInfo)
  | [], zoneLinks => .ok zoneLinks
  | zoneLink :: rest, zoneLinks => do
    let link ← zoneLinkOf zoneLink
    zoneLinksLoop rest (zoneLinks ++ [link])

/-- The loop of `getZoneActor` (lines 136-164) on the accumulated `zoneInfo`. -/
def getZoneActorLoop : List UObject → ZoneActor → Except Fail ZoneActor
  | [], zoneInfo => .ok zoneInfo
  | obj :: rest, zoneInfo =>
    if obj.Properties.length = 0 then getZoneActorLoop rest zoneInfo
    else do
      let id := int32Or zoneInfo.ID (lookup obj.Properties "ID")
      let parentZoneID := int32Or zoneInfo.ParentZoneID (lookup obj.Properties "ParentZoneID")
      let questID := int32Or zoneInfo.QuestID (lookup obj.Properties "QuestID")
      let label ← asText (lookup obj.Properties "Label")
      let items ← asArray (lookup obj.Properties "ZoneLinks")
      let zoneLinks ← zoneLinksLoop items zoneInfo.ZoneLinks
      getZoneActorLoop rest
        { zoneInfo with ID := id, ParentZoneID := parentZoneID, QuestID := questID,
                        Label := getTextPropertyValue label, ZoneLinks := zoneLinks }

/-- The function `getZoneActor`; the only failure is a panic, the Go function has no
`error` result. -/
def getZoneActor (objects : List UObject) : Except Fail ZoneActor :=
  getZoneActorLoop objects
    { ID := 0, ParentZoneID := 0, QuestID := 0, Label := "", ZoneLinks := [], Events := [],
      Items := [], Children := [] }

/-- A record of zone 2 without loot whose `Zone` component has the given properties. -/
def zoneComponentRecord (topZoneID : Int) (zoneProperties : List (String × Value)) : ItemData :=
  mkItemData "Quest_Event_C" { ZoneID := topZoneID, ID := 11, ParentQuestID := 0 }
    [{ Properties := [],
       Components := [{ ComponentKey := "Zone", Properties := zoneProperties }] }]

/-! ## Spawn entries -/

/-- The properties of the `SpawnEntry` struct of a spawn entry. -/
def spawnEntryProps (spawn : Value) : Option (List (String × Value)) :=
  match spawn with
  | .map itemProps =>
    match lookup itemProps "SpawnEntry" with
    | some (.struct (.map spawnProps)) => some spawnProps
    | _ => none
  | _ => none

/-- The `ActorBP` string of a spawn entry. -/
def spawnActorBP (spawn : Value) : Option String :=
  match spawnEntryProps spawn with
  | some spawnProps =>
    match lookup spawnProps "ActorBP" with
    | some (.str actorBP) => some actorBP
    | _ => none
  | none => none

/-- The `Quantity` of a spawn entry. -/
def spawnQuantity (spawn : Value) : Option Int :=
  match spawnEntryProps spawn with
  | some spawnProps =>
    match lookup spawnProps "Quantity" with
    | some (.int32 quantity) => some quantity
    | _ => none
  | none => none

/-- The segment after the first `"."` of a string: the characters between the first
`"."` and the next one (or the end). -/
def segmentAfterFirstDot (s : String) : String :=
  String.mk (((s.toList.dropWhile (fun c => c != '.')).drop 1).takeWhile (fun c => c != '.'))

/-- The normalized reward name in the words of the specification: the segment after the
first `"."` when the blueprint string contains a `"."`, the whole string otherwise,
replaced by the literal `Unknown Event Reward` when it is shorter than 2 (in bytes, as
Go's `len` counts). -/
def normalizedRewardName (actorBP : String) : String :=
  let name := if '.' ∈ actorBP.toList then segmentAfterFirstDot actorBP else actorBP
  if name.utf8ByteSize < 2 then "Unknown Event Reward" else name

/-- A record of zone 2 with the given loot spawns. -/
def lootRecord (spawns : List Value) : ItemData :=
  mkItemData "Item_C" { ZoneID := 2, ID := 12, ParentQuestID := 0 } [lootObject spawns]

/-- The reward `s` is named after the spawn entry `spawn`: its `ActorBP` is the normalized
name of the `ActorBP` string of the spawn. -/
def NamedAfter (spawn : Value) (s : LootSpawn) : Prop :=
  ∃ actorBP, spawnActorBP spawn = some actorBP ∧ s.ActorBP = normalizedRewardName actorBP

/-- The rewards `part` are those of the reward component `reward`: none when the component
has no `Spawns` property, otherwise one per entry of the `Spawns` array, in order, each
named after its entry. -/
def RewardsOf (reward : Value) (part : List LootSpawn) : Prop :=
  ∃ rewardMap, reward = .map rewardMap ∧
    ((lookup rewardMap "Spawns" = none ∧ part = []) ∨
      ∃ spawns, lookup rewardMap "Spawns" = some (.array spawns) ∧
        List.Forall₂ NamedAfter spawns part)

/-- A record of zone 2 with the given reward components. -/
def rewardsRecord (rewards : List Component) : ItemData :=
  mkItemData "Quest_Event_C" { ZoneID := 2, ID := 13, ParentQuestID := 0 }
    [{ Properties := [], Components := rewards }]

/-- A reward with the given `ActorBP` in `rewardSpawnOf`'s shape, as `processItems` emits
it. -/
def lootSpawnNamed (id rewardID : Nat) (actorBP : String) : LootSpawn :=
  { ID := id, RewardID := rewardID, Type_ := "ELootType::Item", ActorBP := actorBP,
    Quantity := 1, PersistenceKey := { ContainerKey := "Quest", PersistentID := 4 },
    OwnedByCharacter := false }

/-- A zone sub-record with the given `ID` property, an empty label and no links. -/
def zoneObject (id : Value) : UObject :=
  { Properties := [("ID", id), ("Label", .text (.textData "")), ("ZoneLinks", .array [])],
    Components := [] }

/-! ## Instance location (`findAdventure`, lines 308-356) -/

/-- Modelled from the spec: an actor of a decoded persistence container (decoder package
`remnant`, not part of the sources), with its class name `DynamicData.ClassPath.Name` and
the sub-records `Archive.Objects`. -/
structure Actor where
  ClassPathName : String
  Archive : List UObject

/-- Modelled from the spec: the value of a property of a top-level record (decoder package
`remnant`, not part of the sources): an ordinary value, or a struct property holding a
decoded nested container. -/
inductive SaveValue where
  /-- An ordinary value. -/
  | value (v : Value)
  /-- A `remnant.StructProperty` whose `Value` is a `remnant.PersistenceContainer`, with its
  `Actors`. -/
  | persistenceContainer (actors : List Actor)
  /-- A `remnant.StructProperty` whose `Value` is a `remnant.PersistenceBlob`, with its
  `Archive.Objects`. -/
  | persistenceBlob (objects : List UObject)

/-- Modelled from the spec: a top-level record of a decoded save archive (an element of
`Data.Objects`; decoder package `remnant`, not part of the sources), with its class name
`LoadedData.Name` and its properties. -/
structure SaveObject where
  LoadedDataName : String
  Properties : List (String × SaveValue)

/-- Indexing the property map of a top-level record. -/
def lookupSave : List (String × SaveValue) → String → Option SaveValue
  | [], _ => none
  | (k, v) :: rest, key => if k = key then some v else lookupSave rest key

/-- Assertion `x.(remnant.StructProperty).Value.(remnant.PersistenceContainer).Actors` in
its panicking form. -/
def asContainer : Option SaveValue → Except Fail (List Actor)
  | some (.persistenceContainer actors) => .ok actors
  | _ => .error .panic

/-- The marker suffix of the key of the persistent level. -/
def persistentLevelSuffix : String := "Main.Main:PersistentLevel"

/-- Lines 311-316 of `findAdventure`: whether the `Key` property of a record ends with the
marker; the assertion `propValue.(string)` panics on a `Key` of another variant. -/
def hasPersistentLevelKey (properties : List (String × SaveValue)) : Except Fail Bool :=
  match lookupSave properties "Key" with
  | none => .ok false
  | some (.value (.str key)) => .ok (stringsHasSuffix key persistentLevelSuffix)
  | some _ => .error .panic

/-- Lines 309-325 of `findAdventure`: the record `adventureObject`. -/
def findAdventureObject : List SaveObject → Except Fail SaveObject
  | [] => .error (.error "could not find base properties")
  | obj :: rest => do
    if (← hasPersistentLevelKey obj.Properties) then .ok obj else findAdventureObject rest

/-- Lines 327-337 of `findAdventure`: the actor `adventureActor`. -/
def findAdventureActor (adventureObject : SaveObject) : Except Fail Actor := do
  let actors ← asContainer (lookupSave adventureObject.Properties "Blob")
  match actors.find? (fun actorValue =>
      stringsHasPrefix actorValue.ClassPathName "Quest_AdventureMode_") with
  | some adventureActor =>
    if adventureActor.Archive.length = 0 then
      .error (.error "could not find adventure actors")
    else .ok adventureActor
  | none => .error (.error "could not find adventure actors")

/-- Lines 339-345 of `findAdventure`: the variable `id` after the loop; every failed
assertion leaves it 0. -/
def adventureID : List UObject → Int
  | [] => 0
  | obj :: rest =>
    match lookup obj.Properties "ID" with
    | some (.int32 id) => id
    | _ => adventureID rest

/-- The key prefix `fmt.Sprintf("/Game/Quest_%d_Container", id)`. -/
def containerKey (id : Int) : String :=
  "/Game/Quest_" ++ toString id ++ "_Container"

/-- Lines 347-354 of `findAdventure`: the record `adventureContainerObject` (`none` is the
zero record); there is no `break`, the last matching record is kept. -/
def findAdventureContainerObject (id : Int) :
    List SaveObject → Option SaveObject → Except Fail (Option SaveObject)
  | [], found => .ok found
  | obj :: rest, found =>
    match lookupSave obj.Properties "Key" with
    | none => findAdventureContainerObject id rest found
    | some (.value (.str key)) =>
      if stringsHasPrefix key (containerKey id) then
        findAdventureContainerObject id rest (some obj)
      else findAdventureContainerObject id rest found
    | some _ => .error .panic

/-- Lines 347-356 of `findAdventure`: the actors of the session container of `id`. -/
def containerActors (objects : List SaveObject) (id : Int) : Except Fail (List Actor) := do
  match (← findAdventureContainerObject id objects none) with
  | some adventureContainerObject =>
    asContainer (lookupSave adventureContainerObject.Properties "Blob")
  | none => .error .panic

/-- Lines 308-356 of `findAdventure`: the adventure actor and the actors of its session
container. -/
def findAdventureActors (objects : List SaveObject) : Except Fail (Actor × List Actor) := do
  let adventureObject ← findAdventureObject objects
  let adventureActor ← findAdventureActor adventureObject
  let actors ← containerActors objects (adventureID adventureActor.Archive)
  .ok (adventureActor, actors)

/-- A top-level record with the given `Key` and `Blob` container. -/
def keyedContainer (key : String) (actors : List Actor) : SaveObject :=
  { LoadedDataName := "PersistenceContainer",
    Properties := [("Key", .value (.str key)), ("Blob", .persistenceContainer actors)] }

/-- An adventure-mode actor whose only sub-record has the given properties. -/
def adventureActorWith (properties : List (String × Value)) : Actor :=
  { ClassPathName := "Quest_AdventureMode_Jungle_C",
    Archive := [{ Properties := properties, Components := [] }] }

/-- The record has no `Key` property, or a string `Key` that does not end with the marker
of the persistent level. -/
def NoLevelKey (obj : SaveObject) : Prop :=
  lookupSave obj.Properties "Key" = none ∨
    ∃ key, lookupSave obj.Properties "Key" = some (.value (.str key)) ∧
      stringsHasSuffix key persistentLevelSuffix = false

/-- A top-level record whose `Key` property is an integer. -/
def intKeyObject : SaveObject :=
  { LoadedDataName := "Other", Properties := [("Key", .value (.int32 5))] }

/-! ## Character and inventory resolution (`refreshProfile`, lines 434-497) -/

structure CharacterData where
  ID : Int
  Archetype : String
  Items : List String
  /-- The field `Type` of the source (a reserved word here). -/
  Type_ : String

/-- The function `getArchetypeName`. -/
def getArchetypeName (archetype : String) : String :=
  stringsTrimSuffix (stringsTrimPrefix archetype "Archetype_") "_UI_C"

/-- The ordinary value held by a property of a top-level record, if it is one. -/
def plain : Option SaveValue → Option Value
  | some (.value v) => some v
  | _ => none

/-- Assertion `x.(remnant.StructProperty).Value.(remnant.PersistenceBlob).Archive.Objects`
in its panicking form. -/
def asBlob : Option SaveValue → Except Fail (List UObject)
  | some (.persistenceBlob objects) => .ok objects
  | _ => .error .panic

/-- Type assertion `x.(remnant.ObjectProperty).ClassName` in its panicking form. -/
def asObject : Option Value → Except Fail String
  | some (.object className) => .ok className
  | _ => .error .panic

/-- The class name of the profile record. -/
def profileClass : String := "BP_RemnantSaveGameProfile_C"

/-- Lines 451-463 of `refreshProfile`: the variable `activeCharacterID` after the first
loop, or the returned error. -/
def activeCharacter : List SaveObject → Except Fail Int
  | [] => .ok (-1)
  | obj :: rest =>
    if obj.LoadedDataName = profileClass then
      match lookupSave obj.Properties "ActiveCharacterIndex" with
      | none => activeCharacter rest
      | some (.value (.int32 activeCharacterID)) => .ok activeCharacterID
      | some _ => .error (.error "could not parse active character")
    else activeCharacter rest

/-- Lines 485-487 of `refreshProfile`: the item names of one inventory. -/
def inventoryItems : List Value → List String → Except Fail (List String)
  | [], items => .ok items
  | item :: rest, items => do
    let itemValue ← asMap (some item)
    let className ← asObject (lookup itemValue "ItemBP")
    let name ← index (stringsSplit className '.') 1
    inventoryItems rest (items ++ [name])

/-- Lines 483-489 of `refreshProfile`: the loop over the components of the player. -/
def componentItems : List Component → List String → Except Fail (List String)
  | [], items => .ok items
  | comp :: rest, items =>
    if comp.ComponentKey = "Inventory" then do
      let inventory ← asArray (lookup comp.Properties "Items")
      let items ← inventoryItems inventory items
      componentItems rest items
    else componentItems rest items

/-- Lines 481-492 of `refreshProfile`: the loop over the sub-records of the character,
which ends at the first master player record. -/
def characterItems : List UObject → Except Fail (List String)
  | [] => .ok []
  | characterDataObj :: rest =>
    if characterDataObj.LoadedDataName = "Character_Master_Player_C" then
      componentItems characterDataObj.Components []
    else characterItems rest

/-- Lines 470-492 of `refreshProfile`: the character decoded from a saved-character
record. -/
def characterOf (obj : SaveObject) : Except Fail CharacterData := do
  let id := int32Or 0 (plain (lookupSave obj.Properties "ID"))
  let type :=
    match plain (lookupSave obj.Properties "CharacterType") with
    | some (.enum enumValue) => enumValue
    | _ => "ERemnantCharacterType::Standard"
  let archetype ← asString (plain (lookupSave obj.Properties "Archetype"))
  let primary ← index (stringsSplit archetype '.') 1
  let secondaryArchetype ← asString (plain (lookupSave obj.Properties "SecondaryArchetype"))
  let secondary ← index (stringsSplit secondaryArchetype '.') 1
  let objects ← asBlob (lookupSave obj.Properties "CharacterData")
  let items ← characterItems objects
  .ok { ID := id,
        Archetype := getArchetypeName primary ++ " / " ++ getArchetypeName secondary,
        Items := items, Type_ := type }

/-- Lines 465-494 of `refreshProfile`: the map `charactersData`, a later character
replacing an earlier one with the same `ID`. -/
def charactersLoop :
    List SaveObject → (Int → Option CharacterData) → Except Fail (Int → Option CharacterData)
  | [], charactersData => .ok charactersData
  | obj :: rest, charactersData =>
    if obj.LoadedDataName = "SavedCharacter" then do
      let characterData ← characterOf obj
      charactersLoop rest
        (fun id => if id = characterData.ID then some characterData else charactersData id)
    else charactersLoop rest charactersData

/-- The function `refreshProfile` on the decoded archive (lines 451-496); reading and
decoding the file (lines 441-449) come before. -/
def refreshProfile (objects : List SaveObject) :
    Except Fail ((Int → Option CharacterData) × Int) := do
  let activeCharacterID ← activeCharacter objects
  let charactersData ← charactersLoop objects (fun _ => none)
  .ok (charactersData, activeCharacterID)

/-- A profile record with the given properties. -/
def profileObject (properties : List (String × SaveValue)) : SaveObject :=
  { LoadedDataName := profileClass, Properties := properties }

/-- A saved character with the given `ID`, archetypes `Hunter` and `Medic`, and an
inventory holding the item `Pkg.Sword`. -/
def savedCharacter (id : Int) : SaveObject :=
  { LoadedDataName := "SavedCharacter",
    Properties :=
      [("ID", .value (.int32 id)),
       ("Archetype", .value (.str "Pkg.Archetype_Hunter_UI_C")),
       ("SecondaryArchetype", .value (.str "Pkg.Archetype_Medic_UI_C")),
       ("CharacterData", .persistenceBlob
          [{ Properties := [],
             Components := [{ ComponentKey := "Inventory",
                              Properties := [("Items", .array
                                [.map [("ItemBP", .object "Pkg.Sword")]])] }],
             LoadedDataName := "Character_Master_Player_C" }])] }

/-- The emitted item `x` is built from the record `item` by the loot-spawn loop and the
ownership test. -/
def ItemOf (characterItems : List String) (item x : ItemData) : Prop :=
  ∃ spawns item', item.Components.LootSpawns = some (.array spawns) ∧
    lootSpawnLoop spawns item = .ok item' ∧ x = markOwned characterItems item'

/-- The rewards `parts`, one list per reward component, are ordered by reward component and
then by spawn: the entry `j` of the list `i` is built from the spawn `j` of the reward
component `i`, with `ID` `j` and `RewardID` `i`. -/
def RewardsInOrder (characterItems : List String) (rewards : List Value)
    (parts : List (List LootSpawn)) : Prop :=
  parts.length = rewards.length ∧
    ∀ i part, parts[i]? = some part →
      ∃ rewardMap, rewards[i]? = some (.map rewardMap) ∧
        ((lookup rewardMap "Spawns" = none ∧ part = []) ∨
          ∃ spawns, lookup rewardMap "Spawns" = some (.array spawns) ∧
            part.length = spawns.length ∧
            ∀ j s, part[j]? = some s →
              s.ID = j ∧ s.RewardID = i ∧
              ∃ spawn, spawns[j]? = some spawn ∧
                rewardSpawn characterItems i j spawn = .ok s)

/-! ## The console copy of `processItems` (`src/main.go`, lines 337-408)

The console program declares its own types. `ItemProperties`, `ItemComponents`, `ItemData`,
`ZoneLinkInfo` and `PersistenceKey` have the fields of the backend's types (which only add
JSON tags), so they are shared here; `LootSpawn`, `Event` and `ZoneActor` differ. -/

namespace Console

/-- The console `LootSpawn`: it has no `ID` and no `RewardID` field. -/
structure LootSpawn where
  /-- The field `Type` of the source (a reserved word here). -/
  Type_ : String
  ActorBP : String
  Quantity : Int
  PersistenceKey : PersistenceKey
  OwnedByCharacter : Bool
  deriving DecidableEq

structure Event where
  Name : String
  Rewards : Option (List LootSpawn)
  deriving DecidableEq

structure ZoneActor where
  ID : Int
  ParentZoneID : Int
  QuestID : Int
  Label : String
  ZoneLinks : List ZoneLinkInfo
  Events : List Event
  Items : List ItemData
  Children : List Nat

/-- Lines 342-353 of the console `processItems`: the zone id of a record. -/
def currentZoneID (item : ItemData) : Except Fail Int :=
  match item.Components.Zone with
  | none => .ok item.Properties.ZoneID
  | some (.map componentZoneMap) =>
    match lookup componentZoneMap "ZoneID" with
    | some (.int32 n) => .ok n
    | _ => .error (.error "could not parse zoneID")
  | some _ => .error (.error "could not parse zone")

/-- Lines 358-363 of the console `processItems`: the loop over the loot spawns. -/
def lootSpawnLoop : List Value → ItemData → Except Fail ItemData
  | [], item => .ok item
  | itemProp :: rest, item => do
    let itemProps ← asMap (some itemProp)
    let spawnEntry ← asStruct (lookup itemProps "SpawnEntry")
    let spawnPropertyProps ← asMap (some spawnEntry)
    let actorBP ← asString (lookup spawnPropertyProps "ActorBP")
    let name ← index (stringsSplit actorBP '.') 1
    let quantity ← asInt32 (lookup spawnPropertyProps "Quantity")
    lootSpawnLoop rest { item with Name := name, Quantity := quantity }

/-- Lines 365-367 of the console `processItems`: the ownership flag. -/
def markOwned (characterItems : List String) (item : ItemData) : ItemData :=
  if characterItems.contains item.Name then { item with OwnedByCharacter := true } else item

/-- Lines 380-400 of the console `processItems`: the `LootSpawn` built from one spawn of a
reward. There is no fallback name for a short blueprint name. -/
def rewardSpawn (characterItems : List String) (item : Value) : Except Fail LootSpawn := do
  let itemValue ← asMap (some item)
  let spawnEntry ← asStruct (lookup itemValue "SpawnEntry")
  let spawnProperties ← asMap (some spawnEntry)
  let key ← asStruct (lookup itemValue "Key")
  let keyProperties ← asMap (some key)
  let actorBP0 ← asString (lookup spawnProperties "ActorBP")
  let actorBPSplit := stringsSplit actorBP0 '.'
  let actorBP ← if actorBPSplit.length > 1 then index actorBPSplit 1 else .ok actorBP0
  let type ← asEnum (lookup spawnProperties "Type")
  let quantity ← asInt32 (lookup spawnProperties "Quantity")
  let containerKey ← asString (lookup keyProperties "ContainerKey")
  let persistentID ← asUInt64 (lookup keyProperties "PersistentID")
  .ok { Type_ := type, ActorBP := actorBP, Quantity := quantity,
        PersistenceKey := { ContainerKey := containerKey, PersistentID := persistentID },
        OwnedByCharacter := characterItems.contains actorBP }

/-- Lines 379-401 of the console `processItems`: the loop over the spawns of one reward. -/
def spawnsLoop (characterItems : List String) :
    List Value → List LootSpawn → Except Fail (List LootSpawn)
  | [], lootSpawns => .ok lootSpawns
  | item :: rest, lootSpawns => do
    let spawn ← rewardSpawn characterItems item
    spawnsLoop characterItems rest (lootSpawns ++ [spawn])

/-- Lines 374-402 of the console `processItems`: the loop over the reward components. -/
def rewardsLoop (characterItems : List String) :
    List Value → List LootSpawn → Except Fail (List LootSpawn)
  | [], lootSpawns => .ok lootSpawns
  | reward :: rest, lootSpawns => do
    let rewardMap ← asMap (some reward)
    match lookup rewardMap "Spawns" with
    | none => rewardsLoop characterItems rest lootSpawns
    | some spawns =>
      let itemSpawns ← asArray (some spawns)
      let lootSpawns ← spawnsLoop characterItems itemSpawns lootSpawns
      rewardsLoop characterItems rest lootSpawns

/-- Lines 370-404 of the console `processItems`: the event built from a record without
loot spawns. -/
def mkEvent (characterItems : List String) (item : ItemData) : Except Fail Event :=
  match item.Components.Rewards with
  | none => .ok { Name := item.Name, Rewards := none }
  | some rewards => do
    let lootSpawns ← rewardsLoop characterItems rewards []
    .ok { Name := item.Name, Rewards := some lootSpawns }

/-- The loop of the console `processItems` (lines 341-406) with its two accumulators. -/
def processItemsLoop (zone : ZoneActor) (characterItems : List String) :
    List ItemData → List ItemData → List Event → Except Fail (List ItemData × List Event)
  | [], resultItems, resultEvents => .ok (resultItems, resultEvents)
  | item :: rest, resultItems, resultEvents => do
    let zoneID ← currentZoneID item
    if zoneID = zone.ID then
      match item.Components.LootSpawns with
      | some lootSpawns =>
        let spawns ← asArray (some lootSpawns)
        let item ← lootSpawnLoop spawns item
        processItemsLoop zone characterItems rest
          (resultItems ++ [markOwned characterItems item]) resultEvents
      | none =>
        let currentEvent ← mkEvent characterItems item
        processItemsLoop zone characterItems rest resultItems (resultEvents ++ [currentEvent])
    else
      processItemsLoop zone characterItems rest resultItems resultEvents

/-- The console function `processItems`. -/
def processItems (items : List ItemData) (zone : ZoneActor) (characterItems : List String) :
    Except Fail (List ItemData × List Event) :=
  processItemsLoop zone characterItems items [] []

/-- A console zone with the given `ID` and nothing else. -/
def bareZone (id : Int) : ZoneActor :=
  { ID := id, ParentZoneID := 0, QuestID := 0, Label := "", ZoneLinks := [], Events := [],
    Items := [], Children := [] }

end Console

/-- Two results agree: both are the same failure, or both are values related by `R`. -/
def Agree {α β : Type} (R : α → β → Prop) : Except Fail α → Except Fail β → Prop
  | .ok a, .ok b => R a b
  | .error e, .error e' => e = e'
  | _, _ => False

/-- A console reward and a backend reward are the same up to the backend's `ID` and
`RewardID` fields and its fallback name: `Type`, `Quantity` and `PersistenceKey` are equal;
`ActorBP` and `OwnedByCharacter` are equal when the console name has at least 2 bytes, and
otherwise the backend's name is `Unknown Event Reward` with the ownership flag of that
name. -/
def SameReward (characterItems : List String) (c : Console.LootSpawn) (b : LootSpawn) : Prop :=
  b.Type_ = c.Type_ ∧ b.Quantity = c.Quantity ∧ b.PersistenceKey = c.PersistenceKey ∧
    (2 ≤ c.ActorBP.utf8ByteSize →
      b.ActorBP = c.ActorBP ∧ b.OwnedByCharacter = c.OwnedByCharacter) ∧
    (c.ActorBP.utf8ByteSize < 2 →
      b.ActorBP = "Unknown Event Reward" ∧
        b.OwnedByCharacter = characterItems.contains "Unknown Event Reward")

/-- A console event and a backend event are the same: equal names, and rewards that are
both absent or pairwise the same, in order. -/
def SameEvent (characterItems : List String) (c : Console.Event) (b : Event) : Prop :=
  b.Name = c.Name ∧
    match c.Rewards, b.Rewards with
    | none, none => True
    | some cs, some bs => List.Forall₂ (SameReward characterItems) cs bs
    | _, _ => False

/-- Two results of `processItems` are the same: equal items, pairwise the same events. -/
def SameResult (characterItems : List String)
    (c : List ItemData × List Console.Event) (b : List ItemData × List Event) : Prop :=
  c.1 = b.1 ∧ List.Forall₂ (SameEvent characterItems) c.2 b.2

/-! ## Session reconstruction (`findAdventure`, lines 308-418) -/

/-- The type `ZoneInfo`. -/
structure ZoneInfo where
  /-- The slice `zoneActors` that the pointer `ZoneActor` points into (not a field of the
  source). -/
  Zones : List ZoneActor
  /-- The field `ZoneActor`: `none` is the nil pointer, `some i` the pointer `&zones[i]`. -/
  ZoneActor : Option Nat
  Biome : String
  BloodMoon : Bool

/-- The zero value `ZoneInfo{}`. -/
def emptyZoneInfo : ZoneInfo :=
  { Zones := [], ZoneActor := none, Biome := "", BloodMoon := false }

/-- Lines 358-380 of `findAdventure`: the loop filling `zoneActors` and `items`; an error
of `getItemProperties` is printed and the actor skipped. -/
def extractLoop :
    List Actor → List ZoneActor → List ItemData → Except Fail (List ZoneActor × List ItemData)
  | [], zoneActors, items => .ok (zoneActors, items)
  | actor :: rest, zoneActors, items =>
    if stringsHasPrefix actor.ClassPathName "Quest_Global_" then
      extractLoop rest zoneActors items
    else if actor.ClassPathName = "ZoneActor" then do
      let zoneActor ← getZoneActor actor.Archive
      extractLoop rest (zoneActors ++ [zoneActor]) items
    else
      match getItemProperties actor.Archive with
      | .error (.error _) => extractLoop rest zoneActors items
      | .error e => .error e
      | .ok itemProperties =>
        extractLoop rest zoneActors
          (items ++ [mkItemData actor.ClassPathName itemProperties actor.Archive])

/-- Assertion `x.(remnant.Variables)` in its panicking form, giving the `Properties`. -/
def asVariables : Option Value → Except Fail (List (String × Value))
  | some (.variables properties) => .ok properties
  | _ => .error .panic

/-- Assertion `x.(bool)` in its panicking form. -/
def asBool : Option Value → Except Fail Bool
  | some (.bool b) => .ok b
  | _ => .error .panic

/-- Lines 384-392 of `findAdventure`: the inner loop over the components of one sub-record;
the `break` leaves this loop only. -/
def bloodMoonComponents : List Component → Bool → Except Fail Bool
  | [], bloodMoon => .ok bloodMoon
  | archiveComp :: rest, bloodMoon =>
    if archiveComp.ComponentKey = "Variables" then do
      let vars ← asVariables (lookup archiveComp.Properties "Variables")
      match lookup vars "IsBloodMoon" with
      | some v => asBool (some v)
      | none => bloodMoonComponents rest bloodMoon
    else bloodMoonComponents rest bloodMoon

/-- Lines 382-393 of `findAdventure`: the variable `bloodMoon` after the loops. -/
def bloodMoonLoop : List UObject → Bool → Except Fail Bool
  | [], bloodMoon => .ok bloodMoon
  | archiveObj :: rest, bloodMoon => do
    let bloodMoon ← bloodMoonComponents archiveObj.Components bloodMoon
    bloodMoonLoop rest bloodMoon

/-- The function `findAdventure` on the decoded records `result.Data.Objects`. The Go
function returns a pair `(ZoneInfo, error)`: the result here is that pair, `none` being the
nil error, and the two `return ZoneInfo{}, fmt.Errorf(...)` statements (lines 325 and 336)
give the empty `ZoneInfo`. `biomeNames` is the table `remnant.BiomeNames` of the decoder
package, as the function giving the name under a key and `""` for an absent key. -/
def findAdventure (biomeNames : String → String) (objects : List SaveObject)
    (characterItems : List String) : Except Fail (ZoneInfo × Option String) :=
  match findAdventureActors objects with
  | .error (.error msg) => .ok (emptyZoneInfo, some msg)
  | .error e => .error e
  | .ok (adventureActor, actors) => do
    let (zoneActors, items) ← extractLoop actors [] []
    let bloodMoon ← bloodMoonLoop adventureActor.Archive false
    let (zones, tree) ← findAdventureTree items zoneActors characterItems
    let biome := stringsTrimSuffix
      (stringsTrimPrefix adventureActor.ClassPathName "Quest_AdventureMode_") "_C"
    .ok ({ Zones := zones, ZoneActor := tree, Biome := biomeNames biome,
           BloodMoon := bloodMoon }, none)

/-! ## The files and the watch loop (`refreshSaveFile`, `refreshProfile`, `Start`) -/

/-- Modelled from the spec: what the program reads from outside. `archive fullPath` is the
result of `remnant.ReadData` followed by `remnant.ReadSaveArchive` on the file (decoder
package `remnant`, not part of the sources): the records `Data.Objects`, or the error that
either call returns; `biomeNames` is the decoder's table `remnant.BiomeNames`. -/
structure World where
  archive : String → Except String (List SaveObject)
  biomeNames : String → String

/-- The function `refreshSaveFile` (lines 420-432): an error of reading or decoding ends
the process through `log.Fatal`. -/
def refreshSaveFile (world : World) (fullPath : String) (characterData : CharacterData) :
    Except Fail (ZoneInfo × Option String) :=
  match world.archive fullPath with
  | .error _ => .error .fatal
  | .ok objects => findAdventure world.biomeNames objects characterData.Items

/-- The function `refreshProfile` on a path (lines 440-496): the Go triple
`(map, int32, error)`, the nil map being `none`. Every error return is `nil, 0, err`. -/
def refreshProfileFile (world : World) (fullPath : String) :
    Except Fail (Option (Int → Option CharacterData) × Int × Option String) :=
  match world.archive fullPath with
  | .error msg => .ok (none, 0, some msg)
  | .ok objects =>
    match refreshProfile objects with
    | .error (.error msg) => .ok (none, 0, some msg)
    | .error e => .error e
    | .ok (charactersData, activeCharacterID) => .ok (some charactersData, activeCharacterID, none)

/-- Go `filepath.Base(path)` with the separator `/`: the last element of the path, after
removing trailing separators. -/
def filepathBase (path : String) : String :=
  if path = "" then "."
  else
    let stripped := path.toList.reverse.dropWhile (fun c => c = '/')
    let last := stripped.takeWhile (fun c => c ≠ '/')
    if last.isEmpty then "/" else String.mk last.reverse

/-- Go `path.Join(a, b)` for two non-empty elements that are already clean, where it is the
concatenation with one slash. -/
def pathJoin (a b : String) : String :=
  a ++ "/" ++ b

/-- The digits loop of `strconv.ParseUint` in base 10. -/
def parseDigits : List Char → Nat → Option Nat
  | [], n => some n
  | c :: cs, n =>
    if c.isDigit then parseDigits cs (n * 10 + (c.toNat - '0'.toNat)) else none

/-- Go `strconv.ParseInt(s, 10, 32)`: an optional sign followed by at least one decimal
digit and nothing else, with a value in the `int32` range; otherwise an error. -/
def strconvParseInt (s : String) : Except Fail Int :=
  let signed : Bool × List Char :=
    match s.toList with
    | '+' :: cs => (false, cs)
    | '-' :: cs => (true, cs)
    | cs => (false, cs)
  if signed.2.isEmpty then .error (.error "invalid syntax")
  else
    match parseDigits signed.2 0 with
    | none => .error (.error "invalid syntax")
    | some un =>
      let n : Int := if signed.1 then -(un : Int) else (un : Int)
      if -2147483648 ≤ n ∧ n ≤ 2147483647 then .ok n
      else .error (.error "value out of range")

/-- Line 594 of `Start`: the character id parsed from the name of a notification, namely
`strconv.ParseInt(strings.Split(strings.Split(event.Name, "_")[1], ".")[0], 10, 32)`. -/
def parseCharacterID (name : String) : Except Fail Int := do
  let second ← index (stringsSplit name '_') 1
  let first ← index (stringsSplit second '.') 0
  strconvParseInt first

/-- The type `CharacterObject`, the payload of a published update. -/
structure CharacterObject where
  Character : CharacterData
  Zone : ZoneInfo

/-- The variables `characters`, `activeCharacterID` and `characterZones` of `Start`;
`characters` is `none` when it is the nil map. -/
structure State where
  characters : Option (Int → Option CharacterData)
  activeCharacterID : Int
  characterZones : Int → Option ZoneInfo

/-- The expression `characters[id]`: the zero value for an absent key or the nil map. -/
def characterAt (characters : Option (Int → Option CharacterData)) (id : Int) :
    CharacterData :=
  match characters with
  | some m => (m id).getD { ID := 0, Archetype := "", Items := [], Type_ := "" }
  | none => { ID := 0, Archetype := "", Items := [], Type_ := "" }

/-- The expression `characterZones[id]`: the zero value for an absent key. -/
def zoneAt (characterZones : Int → Option ZoneInfo) (id : Int) : ZoneInfo :=
  (characterZones id).getD emptyZoneInfo

/-- The assignment `characterZones[id] = zone`. -/
def setZone (characterZones : Int → Option ZoneInfo) (id : Int) (zone : ZoneInfo) :
    Int → Option ZoneInfo :=
  fun k => if k = id then some zone else characterZones k

/-- A notification of the watcher: its `Name` and whether it has the operations `Write`
and `Create`. -/
structure Notification where
  Name : String
  HasWrite : Bool
  HasCreate : Bool

/-- One iteration of the watch loop: the state after it, the update passed to
`sendCharacter` if any, and the error passed to `log.Println` if any. -/
structure Step where
  state : State
  emitted : Option CharacterObject
  logged : Option String

/-- The update `CharacterObject{characters[activeCharacterID], characterZones[activeCharacterID]}`. -/
def activeObject (s : State) : CharacterObject :=
  { Character := characterAt s.characters s.activeCharacterID,
    Zone := zoneAt s.characterZones s.activeCharacterID }

/-- Lines 577-592 of `Start`: the branch for `profile.sav`. -/
def handleProfile (world : World) (s : State) (fullPath : String) : Except Fail Step := do
  let (characters, activeCharacterID, err) ← refreshProfileFile world fullPath
  let s1 : State := { s with characters := characters, activeCharacterID := activeCharacterID }
  match err with
  | some msg => .ok { state := s1, emitted := none, logged := some msg }
  | none =>
    let (zone, err) ←
      refreshSaveFile world fullPath (characterAt s1.characters s1.activeCharacterID)
    let s2 : State :=
      { s1 with characterZones := setZone s1.characterZones s1.activeCharacterID zone }
    match err with
    | some msg => .ok { state := s2, emitted := none, logged := some msg }
    | none => .ok { state := s2, emitted := some (activeObject s2), logged := none }

/-- Lines 593-612 of `Start`: the branch for a file name starting with `save_`. -/
def handleSave (world : World) (s : State) (name fullPath : String) : Except Fail Step :=
  match parseCharacterID name with
  | .error (.error msg) => .ok { state := s, emitted := none, logged := some msg }
  | .error e => .error e
  | .ok characterID => do
    let (zone, err) ← refreshSaveFile world fullPath (characterAt s.characters characterID)
    let s1 : State := { s with characterZones := setZone s.characterZones characterID zone }
    match err with
    | some msg => .ok { state := s1, emitted := none, logged := some msg }
    | none =>
      if characterID = s1.activeCharacterID then
        .ok { state := s1, emitted := some (activeObject s1), logged := none }
      else .ok { state := s1, emitted := none, logged := none }

/-- Lines 569-613 of `Start`: the handling of one notification by the watch loop. The
failure `fatal` is the end of the process through `log.Fatal`. -/
def handleEvent (world : World) (s : State) (event : Notification) : Except Fail Step :=
  if event.HasWrite || event.HasCreate then
    if !stringsHasSuffix event.Name ".sav" then
      .ok { state := s, emitted := none, logged := none }
    else
      let fullPath := event.Name
      let fileName := filepathBase event.Name
      if fileName = "profile.sav" then handleProfile world s fullPath
      else if stringsHasPrefix fileName "save_" then handleSave world s event.Name fullPath
      else .ok { state := s, emitted := none, logged := none }
  else .ok { state := s, emitted := none, logged := none }

/-- Lines 530-552 of `Start`: the bootstrap pass in the folder `basePath`, every error
being fatal. -/
def bootstrap (world : World) (basePath : String) : Except Fail Step := do
  let (characters, activeCharacterID, err) ←
    refreshProfileFile world (pathJoin basePath "profile.sav")
  match err with
  | some _ => .error .fatal
  | none =>
    let fullPath := pathJoin basePath ("save_" ++ toString activeCharacterID ++ ".sav")
    let (zone, err) ← refreshSaveFile world fullPath (characterAt characters activeCharacterID)
    let s : State :=
      { characters := characters, activeCharacterID := activeCharacterID,
        characterZones := setZone (fun _ => none) activeCharacterID zone }
    match err with
    | some _ => .error .fatal
    | none => .ok { state := s, emitted := some (activeObject s), logged := none }

/-! ## Concrete files used by the scenarios of the watch loop -/

/-- The records of a save file with one session: the persistent level holds the adventure
actor of `ID` 4, and the container of quest 4 holds the zone 2 and the item `Pkg.Sword` of
that zone. -/
def sessionArchive : List SaveObject :=
  [keyedContainer "/Game/Maps/Main.Main:PersistentLevel"
      [adventureActorWith [("ID", .int32 4)]],
    keyedContainer "/Game/Quest_4_Container"
      [{ ClassPathName := "ZoneActor", Archive := [zoneObject (.int32 2)] },
        { ClassPathName := "Item_Sword_C",
          Archive := [{ Properties := [("ZoneID", .int32 2), ("ID", .int32 7)],
                        Components := [] },
                      lootObject [spawnOf "Pkg.Sword" 1]] }]]

/-- The records of `sessionArchive` with one more actor in the container of quest 4: an
event whose `Zone` component has no `ZoneID` property. -/
def brokenZoneArchive : List SaveObject :=
  [keyedContainer "/Game/Maps/Main.Main:PersistentLevel"
      [adventureActorWith [("ID", .int32 4)]],
    keyedContainer "/Game/Quest_4_Container"
      [{ ClassPathName := "ZoneActor", Archive := [zoneObject (.int32 2)] },
        { ClassPathName := "Quest_Event_C",
          Archive := [{ Properties := [("ID", .int32 8)],
                        Components := [{ ComponentKey := "Zone", Properties := [] }] }] }]]

/-- The records of a profile file: the active character is 0 and the roster holds the
characters 0, 3 and 5. -/
def profileArchive : List SaveObject :=
  [profileObject [("ActiveCharacterIndex", .value (.int32 0))],
    savedCharacter 0, savedCharacter 3, savedCharacter 5]

/-- A world with the files of three folders; every other path cannot be read. -/
def sampleWorld : World :=
  { archive := fun fullPath =>
      if fullPath = "/saves/profile.sav" then .ok profileArchive
      else if fullPath = "/saves/save_0.sav" then .ok sessionArchive
      else if fullPath = "/saves/save_3.sav" then .ok sessionArchive
      else if fullPath = "/saves/save_4.sav" then .ok brokenZoneArchive
      else if fullPath = "/saves/save_5.sav" then .ok []
      else if fullPath = "/data_7.x/save_3.sav" then .ok sessionArchive
      else if fullPath = "/home/john_doe/save_3.sav" then .ok sessionArchive
      else .error "open: no such file",
    biomeNames := fun key => if key = "Jungle" then "Yaesha" else "" }

/-- The character that `refreshProfile` decodes from `savedCharacter id`. -/
def sampleCharacter (id : Int) : CharacterData :=
  { ID := id, Archetype := "Hunter / Medic", Items := ["Sword"],
    Type_ := "ERemnantCharacterType::Standard" }

/-- The roster decoded from `profileArchive`. -/
def sampleRoster : Int → Option CharacterData :=
  fun id => if id = 5 then some (sampleCharacter 5)
    else if id = 3 then some (sampleCharacter 3)
    else if id = 0 then some (sampleCharacter 0)
    else none

/-- The result of reconstructing `sessionArchive`, `owned` telling whether the character
owns `Sword`. -/
def sampleZoneInfo (owned : Bool) : ZoneInfo :=
  { Zones := [{ ID := 2, ParentZoneID := 0, QuestID := 0, Label := "", ZoneLinks := [],
                Events := [],
                Items := [{ Name := "Sword",
                            Properties := { ZoneID := 2, ID := 7, ParentQuestID := 0 },
                            Components := getItemComponents
                              [{ Properties := [("ZoneID", .int32 2), ("ID", .int32 7)],
                                 Components := [] },
                               lootObject [spawnOf "Pkg.Sword" 1]],
                            OwnedByCharacter := owned, Quantity := 1 }],
                Children := [] }],
    ZoneActor := none, Biome := "Yaesha", BloodMoon := false }

/-- A state of the watch loop: the roster of `profileArchive`, the active character 5, and
a stored `ZoneInfo` under the ids 3, 5 and 7. -/
def sampleState : State :=
  { characters := some sampleRoster, activeCharacterID := 5,
    characterZones := fun id =>
      if id = 3 ∨ id = 5 ∨ id = 7 then some { sampleZoneInfo true with Biome := "Losomn" }
      else none }

/-- A `Write` notification for the given name. -/
def writeOf (name : String) : Notification :=
  { Name := name, HasWrite := true, HasCreate := false }

/-! ## Printable names of the console program (`src/main.go`, lines 119-190) -/

/-- Go `unicode.IsSpace`, the characters that `strings.TrimSpace` removes. -/
def unicodeIsSpace (c : Char) : Bool :=
  let n := c.toNat
  (9 ≤ n && n ≤ 13) || n = 32 || n = 0x85 || n = 0xA0 || n = 0x1680 ||
    (0x2000 ≤ n && n ≤ 0x200a) || n = 0x2028 || n = 0x2029 || n = 0x202f || n = 0x205f ||
    n = 0x3000

/-- Go `strings.TrimSpace(s)`. -/
def stringsTrimSpace (s : String) : String :=
  String.mk ((s.toList.dropWhile unicodeIsSpace).reverse.dropWhile unicodeIsSpace).reverse

/-- Go `strings.Join(elems, sep)`. -/
def stringsJoin (elems : List String) (sep : String) : String :=
  sep.intercalate elems

/-- Worker of `findAllCapital`: `cur` is the current match, reversed, if one is open. -/
def capitalAux : List Char → Option (List Char) → List (List Char)
  | [], none => []
  | [], some cur => [cur.reverse]
  | c :: cs, none =>
    if 'A' ≤ c ∧ c ≤ 'Z' then capitalAux cs (some [c]) else capitalAux cs none
  | c :: cs, some cur =>
    if 'A' ≤ c ∧ c ≤ 'Z' then cur.reverse :: capitalAux cs (some [c])
    else capitalAux cs (some (c :: cur))

/-- Go `regexp.MustCompile("[A-Z][^A-Z]*").FindAllString(str, -1)`: the successive matches,
each a capital letter with the characters up to the next capital letter. -/
def findAllCapital (str : String) : List String :=
  (capitalAux str.toList none).map String.mk

namespace Console

/-- The function `splitByCapital` (lines 119-123). -/
def splitByCapital (str : String) : String :=
  stringsTrimSpace (stringsJoin (findAllCapital str) " ")

/-- One of the four statements
`if splitted[0] == key { namePrefix = label; splitted = splitted[1:] }` of
`getPrintableName` (lines 154-169), on the pair of `namePrefix` and `splitted`; the access
`splitted[0]` panics on an empty slice. -/
def questCategory (key label : String) (st : String × List String) :
    Except Fail (String × List String) := do
  let first ← index st.2 0
  if first = key then .ok (label, st.2.drop 1) else .ok st

/-- The function `getPrintableName` (lines 125-190). -/
def getPrintableName (name : String) : Except Fail String :=
  if !stringsHasSuffix name "_C" then .ok name
  else if stringsHasPrefix name "Material_" then
    .ok (splitByCapital (stringsTrimPrefix (stringsTrimSuffix name "_C") "Material_"))
  else if stringsHasPrefix name "Amulet_" || stringsHasPrefix name "Armor_" ||
      stringsHasPrefix name "Ring_" || stringsHasPrefix name "Weapon_" then do
    let splitted := stringsSplit (stringsTrimSuffix name "_C") '_'
    let first ← index splitted 0
    .ok ("\x7b" ++ first ++ "\x7d " ++ splitByCapital (stringsJoin (splitted.drop 1) " "))
  else if stringsHasPrefix name "Item_HiddenContainer_Material_Engram_" then
    .ok ("\x7bArchetype Item\x7d " ++
      splitByCapital (stringsTrimPrefix (stringsTrimSuffix name "_C")
        "Item_HiddenContainer_Material_Engram_"))
  else if stringsHasPrefix name "Quest_" then do
    let splitted := stringsSplit (stringsTrimPrefix (stringsTrimSuffix name "_C") "Quest_") '_'
    let st ← questCategory "Injectable" "\x7bInjectable\x7d " ("", splitted)
    let st ← questCategory "SideD" "\x7bSide Dungeon\x7d " st
    let st ← questCategory "OverworldPOI" "\x7bPoint of Interest\x7d " st
    let st ← questCategory "Miniboss" "\x7bMiniboss\x7d " st
    .ok (st.1 ++ splitByCapital (stringsJoin st.2 ""))
  else if stringsHasPrefix name "GemContainer_" then
    let gem := stringsTrimPrefix (stringsTrimSuffix name "_C") "GemContainer_"
    if gem = "BlueGems" then .ok "Blue Relic Fragment"
    else if gem = "YellowGems" then .ok "Yellow Relic Fragment"
    else if gem = "RedGems" then .ok "Red Relic Fragment"
    else .ok (splitByCapital gem)
  else .ok name

end Console

/-- The record is assigned to the zone, in the words of the specification: `processItems`
on the record alone yields the record's one element (the item built from its loot spawns,
or the event built from its rewards) whenever that element can be built, it never yields
nothing, and in every list on which `processItems` succeeds the record's element is among
the results. -/
def AssignedTo (zone : ZoneActor) (characterItems : List String) (item : ItemData) : Prop :=
  (∀ spawns item', item.Components.LootSpawns = some (.array spawns) →
      lootSpawnLoop spawns item = .ok item' →
      processItems [item] zone characterItems = .ok ([markOwned characterItems item'], [])) ∧
    (item.Components.LootSpawns = none → ∀ e, mkEvent characterItems item = .ok e →
      processItems [item] zone characterItems = .ok ([], [e])) ∧
    (item.Components.LootSpawns = none → item.Components.Rewards = none →
      processItems [item] zone characterItems =
        .ok ([], [{ Name := item.Name, Rewards := none }])) ∧
    (∀ ri re, processItems [item] zone characterItems = .ok (ri, re) →
      ri.length + re.length = 1) ∧
    (∀ pre post ri re, processItems (pre ++ item :: post) zone characterItems = .ok (ri, re) →
      ∃ a b, processItems [item] zone characterItems = .ok (a, b) ∧ a.length + b.length = 1 ∧
        (∀ x ∈ a, x ∈ ri) ∧ (∀ e ∈ b, e ∈ re))

/-- A world in which every file decodes to an archive without records, so that every
reconstruction returns the error `could not find base properties`. -/
def emptyWorld : World :=
  { archive := fun _ => .ok [], biomeNames := fun _ => "" }

/-! # Theorems -/

/-! ## Tree assembly: auxiliary facts -/

theorem zoneMapTo_succ (zones : List ZoneActor) (m : Nat) :
    zoneMapTo zones (m + 1) =
      match zones[m]? with
      | some z => fun key => if key = z.ID then some m else zoneMapTo zones m key
      | none => zoneMapTo zones m := by
  simp [zoneMapTo, List.range_succ, List.foldl_append]

theorem zoneMapTo_spec (zones : List ZoneActor) (m : Nat) (key : Int) (k : Nat) :
    zoneMapTo zones m key = some k ↔
      k < m ∧ (∃ z, zones[k]? = some z ∧ z.ID = key) ∧
        ∀ j z, k < j → j < m → zones[j]? = some z → z.ID ≠ key := by
  induction m with
  | zero => simp [zoneMapTo]
  | succ m ih =>
    rw [zoneMapTo_succ]
    cases hz : zones[m]? with
    | none =>
      simp only [ih]
      constructor
      · rintro ⟨h1, h2, h3⟩
        refine ⟨by omega, h2, fun j z hj hjm hjz => ?_⟩
        rcases Nat.lt_succ_iff_lt_or_eq.mp hjm with h | h
        · exact h3 j z hj h hjz
        · subst h; rw [hz] at hjz; cases hjz
      · rintro ⟨h1, ⟨z, h2, h2'⟩, h3⟩
        have hkm : k ≠ m := by rintro rfl; rw [hz] at h2; cases h2
        exact ⟨by omega, ⟨z, h2, h2'⟩, fun j z hj hjm hjz => h3 j z hj (by omega) hjz⟩
    | some zm =>
      by_cases hkey : key = zm.ID
      · simp only [hkey, if_true, Option.some.injEq]
        constructor
        · rintro rfl
          exact ⟨by omega, ⟨zm, hz, rfl⟩, fun j z hj hjm _ => by omega⟩
        · rintro ⟨h1, _, h3⟩
          by_contra hne
          exact h3 m zm (by omega) (by omega) hz rfl
      · simp only [hkey, if_false, ih]
        constructor
        · rintro ⟨h1, h2, h3⟩
          refine ⟨by omega, h2, fun j z hj hjm hjz => ?_⟩
          rcases Nat.lt_succ_iff_lt_or_eq.mp hjm with h | h
          · exact h3 j z hj h hjz
          · subst h; rw [hz] at hjz; cases hjz; exact fun h => hkey h.symm
        · rintro ⟨h1, ⟨z, h2, h2'⟩, h3⟩
          have hkm : k ≠ m := by
            rintro rfl; rw [hz] at h2; cases h2; exact hkey h2'.symm
          exact ⟨by omega, ⟨z, h2, h2'⟩, fun j z hj hjm hjz => h3 j z hj (by omega) hjz⟩

theorem mkZoneMap_eq (zones : List ZoneActor) : mkZoneMap zones = zoneMapTo zones zones.length :=
  rfl

/-- The zone map holds under `key` the last index whose zone has that `ID`. -/
theorem mkZoneMap_spec (zones : List ZoneActor) (key : Int) (k : Nat) :
    mkZoneMap zones key = some k ↔
      (∃ z, zones[k]? = some z ∧ z.ID = key) ∧
        ∀ j z, k < j → zones[j]? = some z → z.ID ≠ key := by
  rw [mkZoneMap_eq, zoneMapTo_spec]
  constructor
  · rintro ⟨_, h2, h3⟩
    refine ⟨h2, fun j z hj hjz => h3 j z hj ?_ hjz⟩
    by_contra hlt
    rw [List.getElem?_eq_none (by omega)] at hjz
    cases hjz
  · rintro ⟨⟨z, h2, h2'⟩, h3⟩
    refine ⟨?_, ⟨z, h2, h2'⟩, fun j z hj _ hjz => h3 j z hj hjz⟩
    by_contra hlt
    rw [List.getElem?_eq_none (by omega)] at h2
    cases h2

theorem zoneMapTo_isSome (zones : List ZoneActor) (m : Nat) (key : Int) (j : Nat) (z : ZoneActor)
    (hj : j < m) (hz : zones[j]? = some z) (hk : z.ID = key) :
    ∃ k, zoneMapTo zones m key = some k := by
  induction m with
  | zero => omega
  | succ m ih =>
    rw [zoneMapTo_succ]
    cases hm : zones[m]? with
    | none =>
      have hjm : j ≠ m := by rintro rfl; rw [hm] at hz; cases hz
      exact ih (by omega)
    | some zm =>
      by_cases hkey : key = zm.ID
      · exact ⟨m, by simp [hkey]⟩
      · have hjm : j ≠ m := by
          rintro rfl; rw [hm] at hz; cases hz; exact hkey hk.symm
        obtain ⟨k, hk'⟩ := ih (by omega)
        exact ⟨k, by simp [hkey, hk']⟩

/-- Every `ID` occurring in the slice has an entry in the zone map. -/
theorem mkZoneMap_isSome (zones : List ZoneActor) (z : ZoneActor) (hz : z ∈ zones) :
    ∃ k, mkZoneMap zones z.ID = some k := by
  obtain ⟨j, hj, hjz⟩ := List.getElem_of_mem hz
  exact zoneMapTo_isSome zones zones.length z.ID j z hj
    (by rw [List.getElem?_eq_getElem hj, hjz]) rfl

theorem buildTreeTo_succ (zones : List ZoneActor) (m : Nat) :
    buildTreeTo zones (m + 1) = buildTreeStep (mkZoneMap zones) (buildTreeTo zones m) m := by
  simp [buildTreeTo, List.range_succ, List.foldl_append]

theorem appendChild_getElem? (zs : List ZoneActor) (k c j : Nat) :
    (appendChild zs k c)[j]? =
      if j = k then (zs[j]?).map (fun z : ZoneActor => { z with Children := z.Children ++ [c] })
      else zs[j]? := by
  induction zs generalizing k j with
  | nil => simp [appendChild]
  | cons z zs ih =>
    cases k with
    | zero =>
      cases j with
      | zero => simp [appendChild]
      | succ j => simp [appendChild]
    | succ k =>
      cases j with
      | zero => simp [appendChild]
      | succ j => simp [appendChild, ih]

theorem addedTo_succ (zones : List ZoneActor) (m k : Nat) :
    addedTo zones (m + 1) k =
      addedTo zones m k ++ (if target zones m = some k then [m] else []) := by
  simp only [addedTo, List.range_succ, List.filter_append]
  by_cases h : target zones m = some k <;> simp [List.filter, h]

/-- Loop invariant of the second loop of `buildTree`. -/
theorem buildTreeTo_spec (zones : List ZoneActor) (m : Nat) :
    (∀ j : Nat, (buildTreeTo zones m).1[j]? =
        (zones[j]?).map
          (fun z : ZoneActor => { z with Children := z.Children ++ addedTo zones m j })) ∧
      (buildTreeTo zones m).2 = rootTo zones m := by
  induction m with
  | zero =>
    refine ⟨fun j => ?_, rfl⟩
    simp [buildTreeTo, addedTo]
  | succ m ih =>
    obtain ⟨ih1, ih2⟩ := ih
    rw [buildTreeTo_succ]
    unfold buildTreeStep
    rw [ih1 m]
    cases hz : zones[m]? with
    | none =>
      have ht : target zones m = none := by simp [target, hz]
      refine ⟨fun j => ?_, ?_⟩
      · simp [ih1 j, addedTo_succ, ht]
      · simp [ih2, rootTo, isCand, hz]
    | some z =>
      simp only [Option.map_some']
      by_cases hp : z.ParentZoneID = 0
      · have ht : target zones m = none := by simp [target, hz, hp]
        simp only [hp, if_true]
        by_cases hl : hasLinks z.ZoneLinks = true
        · simp only [hl, if_true]
          refine ⟨fun j => ?_, ?_⟩
          · simp [ih1 j, addedTo_succ, ht]
          · simp [rootTo, isCand, hz, hp, hl]
        · simp only [hl]
          refine ⟨fun j => ?_, ?_⟩
          · simp [ih1 j, addedTo_succ, ht]
          · simp [ih2, rootTo, isCand, hz, hp, hl]
      · have ht : target zones m = mkZoneMap zones z.ParentZoneID := by simp [target, hz, hp]
        simp only [hp, if_false]
        cases hk : mkZoneMap zones z.ParentZoneID with
        | none =>
          refine ⟨fun j => ?_, ?_⟩
          · simp [ih1 j, addedTo_succ, ht, hk]
          · simp [ih2, rootTo, isCand, hz, hp]
        | some k =>
          refine ⟨fun j => ?_, ?_⟩
          · simp only [appendChild_getElem?, ih1 j, addedTo_succ, ht, hk, Option.some.injEq]
            by_cases hjk : j = k
            · subst hjk
              cases zones[j]? <;> simp
            · have hkj : ¬ k = j := fun h => hjk h.symm
              simp [hjk, hkj]
          · simp [ih2, rootTo, isCand, hz, hp]

theorem buildTree_eq (zones : List ZoneActor) : buildTree zones = buildTreeTo zones zones.length :=
  rfl

theorem rootTo_eq_some (zones : List ZoneActor) (m r : Nat) :
    rootTo zones m = some r ↔
      r < m ∧ isCand zones r = true ∧ ∀ k, r < k → k < m → isCand zones k = false := by
  induction m with
  | zero => simp [rootTo]
  | succ m ih =>
    have hs : rootTo zones (m + 1) = if isCand zones m = true then some m else rootTo zones m :=
      rfl
    rw [hs]
    by_cases hc : isCand zones m = true
    · rw [if_pos hc, Option.some.injEq]
      constructor
      · rintro rfl
        exact ⟨by omega, hc, fun k h1 h2 => by omega⟩
      · rintro ⟨h1, _, h3⟩
        by_contra hne
        have := h3 m (by omega) (by omega)
        rw [hc] at this
        cases this
    · rw [if_neg hc, ih]
      have hc' : isCand zones m = false := by simpa using hc
      constructor
      · rintro ⟨h1, h2, h3⟩
        refine ⟨by omega, h2, fun k hk hkm => ?_⟩
        rcases Nat.lt_succ_iff_lt_or_eq.mp hkm with h | h
        · exact h3 k hk h
        · subst h; exact hc'
      · rintro ⟨h1, h2, h3⟩
        have hrm : r ≠ m := by rintro rfl; rw [h2] at hc'; cases hc'
        exact ⟨by omega, h2, fun k hk hkm => h3 k hk (by omega)⟩

theorem isCand_lt (zones : List ZoneActor) (i : Nat) (h : isCand zones i = true) :
    i < zones.length := by
  by_contra hlt
  simp [isCand, List.getElem?_eq_none (Nat.le_of_not_lt hlt)] at h

/-- The returned `root` is the last index whose zone is assigned to `root`. -/
theorem buildTree_root_iff (zones : List ZoneActor) (r : Nat) :
    (buildTree zones).2 = some r ↔
      isCand zones r = true ∧ ∀ k, r < k → isCand zones k = false := by
  rw [buildTree_eq, (buildTreeTo_spec zones zones.length).2, rootTo_eq_some]
  constructor
  · rintro ⟨_, h2, h3⟩
    refine ⟨h2, fun k hk => ?_⟩
    by_cases hkl : k < zones.length
    · exact h3 k hk hkl
    · cases hc : isCand zones k with
      | false => rfl
      | true => exact absurd (isCand_lt zones k hc) hkl
  · rintro ⟨h2, h3⟩
    exact ⟨isCand_lt zones r h2, h2, fun k hk _ => h3 k hk⟩

theorem hasLinks_iff (links : List ZoneLinkInfo) :
    hasLinks links = true ↔
      ∃ link ∈ links, link.DestinationLink ≠ "None" ∨ link.DestinationZone ≠ "None" := by
  simp [hasLinks, List.any_eq_true]

theorem target_lt (zones : List ZoneActor) (i k : Nat) (h : target zones i = some k) :
    k < zones.length := by
  unfold target at h
  cases hz : zones[i]? with
  | none => simp [hz] at h
  | some z =>
    simp only [hz] at h
    by_cases hp : z.ParentZoneID = 0
    · simp [hp] at h
    · simp only [hp, if_false] at h
      obtain ⟨⟨z', hz', _⟩, _⟩ := (mkZoneMap_spec zones _ k).mp h
      by_contra hlt
      rw [List.getElem?_eq_none (Nat.le_of_not_lt hlt)] at hz'
      cases hz'

theorem mem_addedTo (zones : List ZoneActor) (m k i : Nat) :
    i ∈ addedTo zones m k ↔ i < m ∧ target zones i = some k := by
  simp [addedTo]

theorem target_eq_none_of_ge (zones : List ZoneActor) (i : Nat) (h : zones.length ≤ i) :
    target zones i = none := by
  simp [target, List.getElem?_eq_none h]

/-- The `Children` of every zone after `buildTree`: those it had, followed by the indices
of the zones whose parent id is indexed to it, in increasing order. -/
theorem childrenOf_buildTree (zones : List ZoneActor) (k : Nat) :
    childrenOf (buildTree zones).1 k =
      childrenOf zones k ++ addedTo zones zones.length k := by
  unfold childrenOf
  rw [buildTree_eq, (buildTreeTo_spec zones zones.length).1 k]
  cases hz : zones[k]? with
  | some z => simp
  | none =>
    simp only [Option.map_none', List.nil_append]
    symm
    rw [List.eq_nil_iff_forall_not_mem]
    intro i hi
    have hk := target_lt zones i k ((mem_addedTo zones _ k i).mp hi).2
    have hge : zones.length ≤ k := by
      by_contra hlt
      rw [List.getElem?_eq_getElem (Nat.lt_of_not_le hlt)] at hz
      cases hz
    omega

theorem childrenOf_fresh (zones : List ZoneActor) (hfresh : ∀ z ∈ zones, z.Children = [])
    (k : Nat) : childrenOf zones k = [] := by
  unfold childrenOf
  cases hz : zones[k]? with
  | none => rfl
  | some z => exact hfresh z (List.getElem?_mem hz)

theorem mem_childrenOf_buildTree (zones : List ZoneActor)
    (hfresh : ∀ z ∈ zones, z.Children = []) (k i : Nat) :
    i ∈ childrenOf (buildTree zones).1 k ↔ target zones i = some k := by
  rw [childrenOf_buildTree, childrenOf_fresh zones hfresh, List.nil_append, mem_addedTo]
  constructor
  · exact fun h => h.2
  · intro h
    refine ⟨?_, h⟩
    by_contra hlt
    rw [target_eq_none_of_ge zones i (Nat.le_of_not_lt hlt)] at h
    cases h

theorem addedTo_sorted (zones : List ZoneActor) (m k : Nat) :
    (addedTo zones m k).Sorted (· < ·) :=
  (List.sorted_lt_range m).filter _

theorem isCand_iff (zones : List ZoneActor) (i : Nat) :
    isCand zones i = true ↔ ∃ z, zones[i]? = some z ∧ RootCandidate z := by
  unfold isCand RootCandidate
  cases hz : zones[i]? with
  | none => simp
  | some z => simp [hasLinks_iff]

theorem isCand_eq_false_iff (zones : List ZoneActor) (i : Nat) :
    isCand zones i = false ↔ ∀ z, zones[i]? = some z → ¬ RootCandidate z := by
  rw [← Bool.not_eq_true, isCand_iff]
  simp

theorem rootTo_isSome (zones : List ZoneActor) (m j : Nat) (hj : j < m)
    (hc : isCand zones j = true) : ∃ r, rootTo zones m = some r := by
  induction m with
  | zero => omega
  | succ m ih =>
    have hs : rootTo zones (m + 1) = if isCand zones m = true then some m else rootTo zones m :=
      rfl
    rw [hs]
    by_cases hm : isCand zones m = true
    · exact ⟨m, by rw [if_pos hm]⟩
    · rw [if_neg hm]
      have hjm : j ≠ m := by rintro rfl; exact hm hc
      exact ih (by omega)

theorem buildTree_root_isSome (zones : List ZoneActor) (j : Nat) (hc : isCand zones j = true) :
    ∃ r, (buildTree zones).2 = some r ∧ j ≤ r := by
  obtain ⟨r, hr⟩ := rootTo_isSome zones zones.length j (isCand_lt zones j hc) hc
  have hr' : (buildTree zones).2 = some r := by
    rw [buildTree_eq, (buildTreeTo_spec zones zones.length).2, hr]
  refine ⟨r, hr', ?_⟩
  by_contra hlt
  have := ((buildTree_root_iff zones r).mp hr').2 j (by omega)
  rw [hc] at this
  cases this

theorem buildTree_getElem? (zones : List ZoneActor) (j : Nat) (z : ZoneActor)
    (hz : zones[j]? = some z) :
    (buildTree zones).1[j]? =
      some { z with Children := z.Children ++ addedTo zones zones.length j } := by
  rw [buildTree_eq, (buildTreeTo_spec zones zones.length).1 j, hz]
  rfl

theorem StrictCandidate.rootCandidate {z : ZoneActor} (h : StrictCandidate z) :
    RootCandidate z := by
  obtain ⟨hp, link, hl, h1, _⟩ := h
  exact ⟨hp, link, hl, Or.inl h1⟩

/-- C1: when exactly one zone of the list is a root candidate (parentless, with a link one
of whose destination fields is not `"None"`), `buildTree` returns a non-nil root, the root
is that zone (up to its `Children`), and its `ParentZoneID` is 0. -/
theorem buildTree_unique_candidate (zones : List ZoneActor) (i : Nat) (z : ZoneActor)
    (hi : zones[i]? = some z) (hc : RootCandidate z)
    (huniq : ∀ j z', zones[j]? = some z' → RootCandidate z' → j = i) :
    (buildTree zones).2 = some i ∧
      ∃ r, (buildTree zones).1[i]? = some r ∧ r.ParentZoneID = 0 ∧
        { r with Children := z.Children } = z := by
  refine ⟨?_, _, buildTree_getElem? zones i z hi, hc.1, rfl⟩
  rw [buildTree_root_iff]
  refine ⟨(isCand_iff zones i).mpr ⟨z, hi, hc⟩, fun k hk => ?_⟩
  rw [isCand_eq_false_iff]
  intro z' hz' hc'
  have := huniq k z' hz' hc'
  omega

/-- Witness of C1 on a root with a child. -/
theorem buildTree_unique_candidate_witness :
    (buildTree [linkedZone 1 0 "Y" "X", bareZone 2 1]).2 = some 0 ∧
      ∃ r, (buildTree [linkedZone 1 0 "Y" "X", bareZone 2 1]).1[0]? = some r ∧
        r.ParentZoneID = 0 ∧
        { r with Children := (linkedZone 1 0 "Y" "X").Children } = linkedZone 1 0 "Y" "X" :=
  buildTree_unique_candidate [linkedZone 1 0 "Y" "X", bareZone 2 1] 0 (linkedZone 1 0 "Y" "X")
    rfl ⟨rfl, linkTo "Y" "X", by simp [linkedZone], Or.inl (by decide)⟩
    (by
      intro j z' hj hc
      match j, hj with
      | 0, _ => rfl
      | 1, hj =>
        simp only [List.getElem?_cons_succ, List.getElem?_cons_zero, Option.some.injEq] at hj
        subst hj
        obtain ⟨_, link, hl, _⟩ := hc
        simp [bareZone] at hl
      | j + 2, hj => simp at hj)

/-- C2, refuted as stated: with two parentless zones that each have a link with both
destination fields different from `"None"`, `buildTree` still selects a root, the second
zone. -/
theorem buildTree_two_candidates_counterexample :
    (∀ z ∈ [linkedZone 1 0 "Y" "X", linkedZone 2 0 "W" "V"], StrictCandidate z) ∧
      (buildTree [linkedZone 1 0 "Y" "X", linkedZone 2 0 "W" "V"]).2 = some 1 := by
  refine ⟨?_, by decide⟩
  intro z hz
  simp only [List.mem_cons, List.mem_singleton, List.not_mem_nil, or_false] at hz
  rcases hz with rfl | rfl
  · exact ⟨rfl, linkTo "Y" "X", by simp [linkedZone], by decide, by decide⟩
  · exact ⟨rfl, linkTo "W" "V", by simp [linkedZone], by decide, by decide⟩

/-- C2, amended: when two (or more) zones are parentless and each has a link with both
destination fields different from `"None"`, `buildTree` does not fail: it returns a root,
which is the last zone in input order that is parentless and has a link with a destination
field different from `"None"`. -/
theorem buildTree_many_candidates (zones : List ZoneActor) (i j : Nat) (zi zj : ZoneActor)
    (hij : i < j) (hi : zones[i]? = some zi) (hj : zones[j]? = some zj)
    (hci : StrictCandidate zi) (hcj : StrictCandidate zj) :
    ∃ r z, (buildTree zones).2 = some r ∧ i < r ∧ zones[r]? = some z ∧ RootCandidate z ∧
      ∀ k z', r < k → zones[k]? = some z' → ¬ RootCandidate z' := by
  obtain ⟨r, hr, hjr⟩ :=
    buildTree_root_isSome zones j ((isCand_iff zones j).mpr ⟨zj, hj, hcj.rootCandidate⟩)
  obtain ⟨h1, h2⟩ := (buildTree_root_iff zones r).mp hr
  obtain ⟨z, hz, hcz⟩ := (isCand_iff zones r).mp h1
  exact ⟨r, z, hr, by omega, hz, hcz,
    fun k z' hk hz' => (isCand_eq_false_iff zones k).mp (h2 k hk) z' hz'⟩

/-- Witness of the amended C2 on two strict candidates. -/
theorem buildTree_many_candidates_witness :
    ∃ r z, (buildTree [linkedZone 1 0 "Y" "X", linkedZone 2 0 "W" "V"]).2 = some r ∧ 0 < r ∧
      [linkedZone 1 0 "Y" "X", linkedZone 2 0 "W" "V"][r]? = some z ∧ RootCandidate z ∧
      ∀ k z', r < k → [linkedZone 1 0 "Y" "X", linkedZone 2 0 "W" "V"][k]? = some z' →
        ¬ RootCandidate z' :=
  buildTree_many_candidates [linkedZone 1 0 "Y" "X", linkedZone 2 0 "W" "V"] 0 1
    (linkedZone 1 0 "Y" "X") (linkedZone 2 0 "W" "V") (by decide) rfl rfl
    ⟨rfl, linkTo "Y" "X", by simp [linkedZone], by decide, by decide⟩
    ⟨rfl, linkTo "W" "V", by simp [linkedZone], by decide, by decide⟩

/-- C3, refuted as stated: a parentless zone whose only link has `DestinationZone` equal to
`"None"` (and `DestinationLink` different from it) is returned as root, although none of
its links has both destination fields different from `"None"`. -/
theorem buildTree_root_half_link_counterexample :
    (buildTree [linkedZone 1 0 "Y" "None"]).2 = some 0 ∧
      (linkedZone 1 0 "Y" "None").ParentZoneID = 0 ∧
      ∀ link ∈ (linkedZone 1 0 "Y" "None").ZoneLinks,
        link.DestinationLink = "None" ∨ link.DestinationZone = "None" := by
  refine ⟨by decide, rfl, ?_⟩
  intro link hl
  simp only [linkedZone, List.mem_singleton] at hl
  subst hl
  exact Or.inr rfl

/-- C3, amended: the node `buildTree` returns as root is parentless and has at least one
link whose `DestinationLink` or `DestinationZone` is different from `"None"`; a zone all of
whose links have both destination fields equal to `"None"` is never selected as root. -/
theorem buildTree_root_has_link (zones : List ZoneActor) (r : Nat)
    (h : (buildTree zones).2 = some r) :
    (∃ z, zones[r]? = some z ∧
        (buildTree zones).1[r]? =
          some { z with Children := childrenOf (buildTree zones).1 r } ∧
        z.ParentZoneID = 0 ∧
        ∃ link ∈ z.ZoneLinks, link.DestinationLink ≠ "None" ∨ link.DestinationZone ≠ "None") ∧
      ∀ z, zones[r]? = some z →
        ¬ ∀ link ∈ z.ZoneLinks, link.DestinationLink = "None" ∧ link.DestinationZone = "None" := by
  obtain ⟨z, hz, hp, link, hl, hd⟩ := (isCand_iff zones r).mp ((buildTree_root_iff zones r).mp h).1
  have hr := buildTree_getElem? zones r z hz
  refine ⟨⟨z, hz, ?_, hp, link, hl, hd⟩, ?_⟩
  · rw [hr, childrenOf, hr]
  · intro z' hz' hall
    rw [hz] at hz'
    cases hz'
    obtain ⟨h1, h2⟩ := hall link hl
    rcases hd with hd | hd
    · exact hd h1
    · exact hd h2

/-- Witness of the amended C3. -/
theorem buildTree_root_has_link_witness :
    (∃ z, [linkedZone 1 0 "Y" "None"][0]? = some z ∧
        (buildTree [linkedZone 1 0 "Y" "None"]).1[0]? =
          some { z with Children := childrenOf (buildTree [linkedZone 1 0 "Y" "None"]).1 0 } ∧
        z.ParentZoneID = 0 ∧
        ∃ link ∈ z.ZoneLinks, link.DestinationLink ≠ "None" ∨ link.DestinationZone ≠ "None") ∧
      ∀ z, [linkedZone 1 0 "Y" "None"][0]? = some z →
        ¬ ∀ link ∈ z.ZoneLinks, link.DestinationLink = "None" ∧ link.DestinationZone = "None" :=
  buildTree_root_has_link [linkedZone 1 0 "Y" "None"] 0 (by decide)

/-- C4: `buildTree` is total (it returns the slice with its length unchanged and a root
pointer), and a zone whose nonzero `ParentZoneID` is the `ID` of no zone of the list is
appended to no `Children` list: it occurs in one after the call only where it occurred
before it, hence nowhere when the zones come with empty `Children`, as `getZoneActor`
returns them. -/
theorem buildTree_orphan_dropped (zones : List ZoneActor) (i : Nat) (z : ZoneActor)
    (hi : zones[i]? = some z) (hp : z.ParentZoneID ≠ 0)
    (hno : ∀ z' ∈ zones, z'.ID ≠ z.ParentZoneID) :
    (buildTree zones).1.length = zones.length ∧
      (∀ k, i ∈ childrenOf (buildTree zones).1 k → i ∈ childrenOf zones k) ∧
      ((∀ z' ∈ zones, z'.Children = []) → ∀ k, i ∉ childrenOf (buildTree zones).1 k) := by
  have ht : target zones i = none := by
    simp only [target, hi, hp, if_false]
    cases hm : mkZoneMap zones z.ParentZoneID with
    | none => rfl
    | some k =>
      obtain ⟨⟨z', hz', hid⟩, _⟩ := (mkZoneMap_spec zones _ k).mp hm
      exact absurd hid (hno z' (List.getElem?_mem hz'))
  have hgen : ∀ k, i ∈ childrenOf (buildTree zones).1 k → i ∈ childrenOf zones k := by
    intro k hk
    rw [childrenOf_buildTree, List.mem_append, mem_addedTo, ht] at hk
    rcases hk with hk | ⟨_, hk⟩
    · exact hk
    · cases hk
  refine ⟨?_, hgen, fun hfresh k hk => ?_⟩
  · apply Nat.le_antisymm
    · by_contra hlt
      have h1 := (buildTreeTo_spec zones zones.length).1 zones.length
      rw [← buildTree_eq, List.getElem?_eq_getElem (by omega),
        List.getElem?_eq_none (Nat.le_refl _)] at h1
      cases h1
    · by_contra hlt
      have hlt' : (buildTree zones).1.length < zones.length := by omega
      have h1 := (buildTreeTo_spec zones zones.length).1 (buildTree zones).1.length
      rw [← buildTree_eq, List.getElem?_eq_none (Nat.le_refl _),
        List.getElem?_eq_getElem hlt'] at h1
      cases h1
  · have := hgen k hk
    rw [childrenOf_fresh zones hfresh] at this
    cases this

/-- Witness of C4: the second zone names a parent id that no zone carries. -/
theorem buildTree_orphan_dropped_witness :
    (buildTree [linkedZone 1 0 "Y" "X", bareZone 2 9]).1.length =
        [linkedZone 1 0 "Y" "X", bareZone 2 9].length ∧
      (∀ k, 1 ∈ childrenOf (buildTree [linkedZone 1 0 "Y" "X", bareZone 2 9]).1 k →
        1 ∈ childrenOf [linkedZone 1 0 "Y" "X", bareZone 2 9] k) ∧
      ((∀ z' ∈ [linkedZone 1 0 "Y" "X", bareZone 2 9], z'.Children = []) →
        ∀ k, 1 ∉ childrenOf (buildTree [linkedZone 1 0 "Y" "X", bareZone 2 9]).1 k) :=
  buildTree_orphan_dropped [linkedZone 1 0 "Y" "X", bareZone 2 9] 1 (bareZone 2 9) rfl
    (by decide)
    (by
      intro z' hz'
      simp only [List.mem_cons, List.mem_singleton, List.not_mem_nil, or_false] at hz'
      rcases hz' with rfl | rfl <;> decide)

/-- C5: after `buildTree` on zones with empty `Children`, a zone whose nonzero
`ParentZoneID` is the `ID` of some zone of the list occurs exactly once in the `Children`
of the zone indexed under that `ID` (the last zone with that `ID`) and in no other
`Children` list, and every `Children` list is in input order (strictly increasing
positions in the slice). -/
theorem buildTree_children (zones : List ZoneActor) (hfresh : ∀ z ∈ zones, z.Children = [])
    (i : Nat) (z : ZoneActor) (hi : zones[i]? = some z) (hp : z.ParentZoneID ≠ 0)
    (hex : ∃ z' ∈ zones, z'.ID = z.ParentZoneID) :
    ∃ p zp, mkZoneMap zones z.ParentZoneID = some p ∧ zones[p]? = some zp ∧
      zp.ID = z.ParentZoneID ∧
      (childrenOf (buildTree zones).1 p).count i = 1 ∧
      (∀ k, k ≠ p → i ∉ childrenOf (buildTree zones).1 k) ∧
      ∀ k, (childrenOf (buildTree zones).1 k).Sorted (· < ·) := by
  obtain ⟨z', hz', hid⟩ := hex
  obtain ⟨p, hm⟩ := mkZoneMap_isSome zones z' hz'
  rw [hid] at hm
  obtain ⟨⟨zp, hzp, hzpid⟩, _⟩ := (mkZoneMap_spec zones _ p).mp hm
  have ht : target zones i = some p := by simp only [target, hi, hp, if_false, hm]
  have hsorted : ∀ k, (childrenOf (buildTree zones).1 k).Sorted (· < ·) := by
    intro k
    rw [childrenOf_buildTree, childrenOf_fresh zones hfresh, List.nil_append]
    exact addedTo_sorted zones _ k
  refine ⟨p, zp, hm, hzp, hzpid, ?_, ?_, hsorted⟩
  · exact List.count_eq_one_of_mem (hsorted p).nodup
      ((mem_childrenOf_buildTree zones hfresh p i).mpr ht)
  · intro k hk hmem
    rw [mem_childrenOf_buildTree zones hfresh, ht] at hmem
    cases hmem
    exact hk rfl

/-- Witness of C5 with a duplicated parent `ID`: the child goes to the later zone. -/
theorem buildTree_children_witness :
    ∃ p zp, mkZoneMap [linkedZone 1 0 "Y" "X", bareZone 1 7, bareZone 2 1]
          (bareZone 2 1).ParentZoneID = some p ∧
      [linkedZone 1 0 "Y" "X", bareZone 1 7, bareZone 2 1][p]? = some zp ∧
      zp.ID = (bareZone 2 1).ParentZoneID ∧
      (childrenOf (buildTree [linkedZone 1 0 "Y" "X", bareZone 1 7, bareZone 2 1]).1 p).count 2
        = 1 ∧
      (∀ k, k ≠ p →
        2 ∉ childrenOf (buildTree [linkedZone 1 0 "Y" "X", bareZone 1 7, bareZone 2 1]).1 k) ∧
      ∀ k, (childrenOf (buildTree [linkedZone 1 0 "Y" "X", bareZone 1 7, bareZone 2 1]).1
        k).Sorted (· < ·) :=
  buildTree_children [linkedZone 1 0 "Y" "X", bareZone 1 7, bareZone 2 1]
    (by
      intro z hz
      simp only [List.mem_cons, List.mem_singleton, List.not_mem_nil, or_false] at hz
      rcases hz with rfl | rfl | rfl <;> rfl)
    2 (bareZone 2 1) rfl (by decide) ⟨bareZone 1 7, by simp, rfl⟩

theorem isChild_buildTree (zones : List ZoneActor) (hfresh : ∀ z ∈ zones, z.Children = [])
    (p c : Nat) : IsChild (buildTree zones).1 p c ↔ target zones c = some p :=
  mem_childrenOf_buildTree zones hfresh p c

theorem cycle_parent (zones : List ZoneActor) (hfresh : ∀ z ∈ zones, z.Children = [])
    (p x : Nat) (hpx : IsChild (buildTree zones).1 p x)
    (hx : Relation.TransGen (IsChild (buildTree zones).1) x x) :
    Relation.TransGen (IsChild (buildTree zones).1) p p := by
  obtain ⟨b, hxb, hbx⟩ := Relation.TransGen.tail'_iff.mp hx
  have h1 := (isChild_buildTree zones hfresh p x).mp hpx
  have h2 := (isChild_buildTree zones hfresh b x).mp hbx
  rw [h1] at h2
  cases h2
  exact Relation.TransGen.head' hpx hxb

theorem cycle_reaches_back (zones : List ZoneActor) (hfresh : ∀ z ∈ zones, z.Children = [])
    (r x : Nat) (hrx : Relation.ReflTransGen (IsChild (buildTree zones).1) r x)
    (hx : Relation.TransGen (IsChild (buildTree zones).1) x x) :
    Relation.TransGen (IsChild (buildTree zones).1) r r := by
  induction hrx with
  | refl => exact hx
  | tail _ hbc ih => exact ih (cycle_parent zones hfresh _ _ hbc hx)

/-- C6: for every list of zones with empty `Children` (self-parenting zones,
mutually-parenting zones and duplicate `ID`s included), the root returned by `buildTree`
is in no `Children` list, and no node reachable from it through `Children` is its own
descendant. -/
theorem buildTree_acyclic (zones : List ZoneActor) (hfresh : ∀ z ∈ zones, z.Children = [])
    (r : Nat) (hr : (buildTree zones).2 = some r) :
    (∀ p, ¬ IsChild (buildTree zones).1 p r) ∧
      ∀ x, Relation.ReflTransGen (IsChild (buildTree zones).1) r x →
        ¬ Relation.TransGen (IsChild (buildTree zones).1) x x := by
  have hroot : ∀ p, ¬ IsChild (buildTree zones).1 p r := by
    intro p hp
    obtain ⟨z, hz, hpz, _⟩ := (isCand_iff zones r).mp ((buildTree_root_iff zones r).mp hr).1
    rw [isChild_buildTree zones hfresh] at hp
    simp [target, hz, hpz] at hp
  refine ⟨hroot, fun x hrx hx => ?_⟩
  obtain ⟨b, _, hbr⟩ :=
    Relation.TransGen.tail'_iff.mp (cycle_reaches_back zones hfresh r x hrx hx)
  exact hroot b hbr

/-- Witness of C6 on a list with a self-parenting zone, two mutually-parenting zones and a
duplicated `ID`. -/
theorem buildTree_acyclic_witness :
    (∀ p, ¬ IsChild (buildTree [linkedZone 1 0 "Y" "X", bareZone 2 1, bareZone 3 3,
        bareZone 4 5, bareZone 5 4, bareZone 2 2]).1 p 0) ∧
      ∀ x, Relation.ReflTransGen (IsChild (buildTree [linkedZone 1 0 "Y" "X", bareZone 2 1,
          bareZone 3 3, bareZone 4 5, bareZone 5 4, bareZone 2 2]).1) 0 x →
        ¬ Relation.TransGen (IsChild (buildTree [linkedZone 1 0 "Y" "X", bareZone 2 1,
          bareZone 3 3, bareZone 4 5, bareZone 5 4, bareZone 2 2]).1) x x :=
  buildTree_acyclic [linkedZone 1 0 "Y" "X", bareZone 2 1, bareZone 3 3, bareZone 4 5,
      bareZone 5 4, bareZone 2 2]
    (by
      intro z hz
      simp only [List.mem_cons, List.mem_singleton, List.not_mem_nil, or_false] at hz
      rcases hz with rfl | rfl | rfl | rfl | rfl | rfl <;> rfl)
    0 (by decide)

/-! ## Item/event classification: auxiliary facts -/

theorem processItemsLoop_cons (zone : ZoneActor) (characterItems : List String)
    (item : ItemData) (rest : List ItemData) (resultItems : List ItemData)
    (resultEvents : List Event) :
    processItemsLoop zone characterItems (item :: rest) resultItems resultEvents =
      match contribution zone characterItems item with
      | .error e => .error e
      | .ok (a, b) =>
        processItemsLoop zone characterItems rest (resultItems ++ a) (resultEvents ++ b) := by
  rw [processItemsLoop]
  unfold contribution
  cases hz : currentZoneID item with
  | error e => rfl
  | ok zoneID =>
    simp only [bind, Except.bind]
    by_cases hzone : zoneID = zone.ID
    · simp only [hzone, if_true]
      cases hl : item.Components.LootSpawns with
      | none =>
        simp only
        cases mkEvent characterItems item <;> simp
      | some lootSpawns =>
        simp only
        cases asArray (some lootSpawns) with
        | error e => rfl
        | ok spawns =>
          simp only
          cases lootSpawnLoop spawns item <;> simp
    · simp [hzone]

theorem processItemsLoop_acc (zone : ZoneActor) (characterItems : List String)
    (items : List ItemData) (resultItems : List ItemData) (resultEvents : List Event) :
    processItemsLoop zone characterItems items resultItems resultEvents =
      match processItemsLoop zone characterItems items [] [] with
      | .error e => .error e
      | .ok (a, b) => .ok (resultItems ++ a, resultEvents ++ b) := by
  induction items generalizing resultItems resultEvents with
  | nil => simp [processItemsLoop]
  | cons item rest ih =>
    rw [processItemsLoop_cons, processItemsLoop_cons zone characterItems item rest [] []]
    cases contribution zone characterItems item with
    | error e => rfl
    | ok ab =>
      obtain ⟨a, b⟩ := ab
      simp only [List.nil_append]
      rw [ih (resultItems ++ a) (resultEvents ++ b), ih a b]
      cases processItemsLoop zone characterItems rest [] [] with
      | error e => rfl
      | ok cd => simp [List.append_assoc]

/-- The results of `processItems` are the contributions of the records, in order. -/
theorem processItems_cons (zone : ZoneActor) (characterItems : List String)
    (item : ItemData) (rest : List ItemData) :
    processItems (item :: rest) zone characterItems =
      match contribution zone characterItems item with
      | .error e => .error e
      | .ok (a, b) =>
        match processItems rest zone characterItems with
        | .error e => .error e
        | .ok (c, d) => .ok (a ++ c, b ++ d) := by
  unfold processItems
  rw [processItemsLoop_cons]
  cases contribution zone characterItems item with
  | error e => rfl
  | ok ab =>
    obtain ⟨a, b⟩ := ab
    simp only [List.nil_append]
    rw [processItemsLoop_acc]

theorem processItems_nil (zone : ZoneActor) (characterItems : List String) :
    processItems [] zone characterItems = .ok ([], []) := rfl

theorem processItems_single (zone : ZoneActor) (characterItems : List String)
    (item : ItemData) :
    processItems [item] zone characterItems = contribution zone characterItems item := by
  rw [processItems_cons, processItems_nil]
  cases contribution zone characterItems item with
  | error e => rfl
  | ok ab => simp

theorem processItems_cons_ok (zone : ZoneActor) (characterItems : List String)
    (item : ItemData) (rest : List ItemData) (ri : List ItemData) (re : List Event)
    (h : processItems (item :: rest) zone characterItems = .ok (ri, re)) :
    ∃ a b c d, contribution zone characterItems item = .ok (a, b) ∧
      processItems rest zone characterItems = .ok (c, d) ∧ ri = a ++ c ∧ re = b ++ d := by
  rw [processItems_cons] at h
  cases hc : contribution zone characterItems item with
  | error e => simp [hc] at h
  | ok ab =>
    obtain ⟨a, b⟩ := ab
    simp only [hc] at h
    cases hr : processItems rest zone characterItems with
    | error e => simp [hr] at h
    | ok cd =>
      obtain ⟨c, d⟩ := cd
      simp only [hr, Except.ok.injEq, Prod.mk.injEq] at h
      exact ⟨a, b, c, d, rfl, rfl, h.1.symm, h.2.symm⟩

theorem lootSpawnLoop_frame (spawns : List Value) (item item' : ItemData)
    (h : lootSpawnLoop spawns item = .ok item') :
    item'.Properties = item.Properties ∧ item'.Components = item.Components ∧
      item'.OwnedByCharacter = item.OwnedByCharacter := by
  induction spawns generalizing item with
  | nil =>
    simp only [lootSpawnLoop, Except.ok.injEq] at h
    subst h
    exact ⟨rfl, rfl, rfl⟩
  | cons s rest ih =>
    rw [lootSpawnLoop] at h
    simp only [bind, Except.bind] at h
    split at h
    · cases h
    · split at h
      · cases h
      · split at h
        · cases h
        · split at h
          · cases h
          · split at h
            · cases h
            · split at h
              · cases h
              · have hrec := ih _ h
                exact hrec

theorem assigned_iff (zone : ZoneActor) (item : ItemData) :
    assigned zone item = true ↔ currentZoneID item = .ok zone.ID := by
  unfold assigned
  cases currentZoneID item with
  | error e => simp
  | ok zoneID => simp

/-- What a successful `contribution` looks like. -/
theorem contribution_ok (zone : ZoneActor) (characterItems : List String) (item : ItemData)
    (a : List ItemData) (b : List Event)
    (h : contribution zone characterItems item = .ok (a, b)) :
    (assigned zone item = false ∧ a = [] ∧ b = []) ∨
      (assigned zone item = true ∧ ∃ spawns item', item.Components.LootSpawns = some (.array spawns) ∧
        lootSpawnLoop spawns item = .ok item' ∧ a = [markOwned characterItems item'] ∧ b = []) ∨
      (assigned zone item = true ∧ item.Components.LootSpawns = none ∧
        ∃ e, mkEvent characterItems item = .ok e ∧ a = [] ∧ b = [e]) := by
  unfold contribution at h
  unfold assigned
  cases hz : currentZoneID item with
  | error e => simp [hz] at h
  | ok zoneID =>
    simp only [hz] at h ⊢
    by_cases hzone : zoneID = zone.ID
    · simp only [hzone, if_true, decide_True, true_and] at h ⊢
      right
      cases hl : item.Components.LootSpawns with
      | none =>
        simp only [hl] at h
        right
        cases he : mkEvent characterItems item with
        | error e => simp [he] at h
        | ok e =>
          simp only [he, Except.ok.injEq, Prod.mk.injEq] at h
          exact ⟨rfl, e, rfl, h.1.symm, h.2.symm⟩
      | some lootSpawns =>
        simp only [hl] at h
        left
        cases lootSpawns with
        | array spawns =>
          simp only [asArray] at h
          cases hs : lootSpawnLoop spawns item with
          | error e => simp [hs] at h
          | ok item' =>
            simp only [hs, Except.ok.injEq, Prod.mk.injEq] at h
            exact ⟨spawns, item', rfl, hs, h.1.symm, h.2.symm⟩
        | _ => simp [asArray] at h
    · simp only [hzone, if_false, Except.ok.injEq, Prod.mk.injEq] at h
      left
      exact ⟨by simp [hzone], h.1.symm, h.2.symm⟩

theorem markOwned_frame (characterItems : List String) (item : ItemData) :
    (markOwned characterItems item).Name = item.Name ∧
      (markOwned characterItems item).Properties = item.Properties ∧
      (markOwned characterItems item).Components = item.Components ∧
      (markOwned characterItems item).Quantity = item.Quantity := by
  unfold markOwned
  split <;> exact ⟨rfl, rfl, rfl, rfl⟩

theorem markOwned_owned (characterItems : List String) (item : ItemData) :
    (markOwned characterItems item).OwnedByCharacter =
      (item.OwnedByCharacter || decide ((markOwned characterItems item).Name ∈ characterItems)) := by
  rw [(markOwned_frame characterItems item).1]
  unfold markOwned
  by_cases h : item.Name ∈ characterItems
  · simp [h]
  · simp [h]

theorem mkEvent_name (characterItems : List String) (item : ItemData) (e : Event)
    (h : mkEvent characterItems item = .ok e) : e.Name = item.Name := by
  unfold mkEvent at h
  cases hr : item.Components.Rewards with
  | none =>
    simp only [hr, Except.ok.injEq] at h
    rw [← h]
  | some rewards =>
    simp only [hr, bind, Except.bind] at h
    cases hl : rewardsLoop characterItems rewards 0 [] with
    | error e => simp [hl] at h
    | ok ls =>
      simp only [hl, Except.ok.injEq] at h
      rw [← h]

/-- C7: in the session with the zones root `{ID 1, ParentZoneID 0, one link with
DestinationZone "X" and DestinationLink "Y"}` and child `{ID 2, ParentZoneID 1}` and one
record of zone 2 whose single loot spawn has `ActorBP` `"Pkg.Sword"` and `Quantity` 1,
running `processItems` for each zone and then `buildTree` (as `findAdventure` does) yields
the first zone as root; its `Children[0]` is the second zone, whose `Items` is exactly one
item with `Name` `"Sword"` and `Quantity` 1, and the root has no items. -/
theorem scenario_sword_in_child (characterItems : List String) :
    ∃ zs root child,
      findAdventureTree [swordRecord] [linkedZone 1 0 "Y" "X", bareZone 2 1] characterItems =
        .ok (zs, some 0) ∧
      zs[0]? = some root ∧ root.Children[0]? = some 1 ∧ root.Children.length = 1 ∧
      zs[1]? = some child ∧
      child.Items.map (fun item => (item.Name, item.Quantity)) = [("Sword", 1)] ∧
      root.Items = [] := by
  refine ⟨[{ linkedZone 1 0 "Y" "X" with Children := [1] },
      { bareZone 2 1 with
        Items := [markOwned characterItems { swordRecord with Name := "Sword", Quantity := 1 }] }],
    { linkedZone 1 0 "Y" "X" with Children := [1] },
    { bareZone 2 1 with
      Items := [markOwned characterItems { swordRecord with Name := "Sword", Quantity := 1 }] },
    rfl, rfl, rfl, rfl, rfl, ?_, rfl⟩
  simp only [List.map_cons, List.map_nil, (markOwned_frame characterItems _).1,
    (markOwned_frame characterItems _).2.2.2]

theorem rewardSpawn_owned (characterItems : List String) (rewardIdx idx : Nat) (item : Value)
    (s : LootSpawn) (h : rewardSpawn characterItems rewardIdx idx item = .ok s) :
    s.OwnedByCharacter = decide (s.ActorBP ∈ characterItems) := by
  unfold rewardSpawn at h
  simp only [bind, Except.bind] at h
  repeat' split at h
  all_goals cases h
  all_goals simp

theorem spawnsLoop_owned (characterItems : List String) (rewardIdx : Nat) (spawns : List Value)
    (idx : Nat) (acc out : List LootSpawn)
    (hacc : ∀ s ∈ acc, s.OwnedByCharacter = decide (s.ActorBP ∈ characterItems))
    (h : spawnsLoop characterItems rewardIdx spawns idx acc = .ok out) :
    ∀ s ∈ out, s.OwnedByCharacter = decide (s.ActorBP ∈ characterItems) := by
  induction spawns generalizing idx acc with
  | nil =>
    simp only [spawnsLoop, Except.ok.injEq] at h
    rw [← h]
    exact hacc
  | cons v rest ih =>
    rw [spawnsLoop] at h
    simp only [bind, Except.bind] at h
    cases hs : rewardSpawn characterItems rewardIdx idx v with
    | error e => simp [hs] at h
    | ok s =>
      simp only [hs] at h
      refine ih (idx + 1) (acc ++ [s]) ?_ h
      intro t ht
      rcases List.mem_append.mp ht with ht | ht
      · exact hacc t ht
      · rw [List.mem_singleton] at ht
        subst ht
        exact rewardSpawn_owned characterItems rewardIdx idx v t hs

theorem rewardsLoop_owned (characterItems : List String) (rewards : List Value)
    (rewardIdx : Nat) (acc out : List LootSpawn)
    (hacc : ∀ s ∈ acc, s.OwnedByCharacter = decide (s.ActorBP ∈ characterItems))
    (h : rewardsLoop characterItems rewards rewardIdx acc = .ok out) :
    ∀ s ∈ out, s.OwnedByCharacter = decide (s.ActorBP ∈ characterItems) := by
  induction rewards generalizing rewardIdx acc with
  | nil =>
    simp only [rewardsLoop, Except.ok.injEq] at h
    rw [← h]
    exact hacc
  | cons v rest ih =>
    rw [rewardsLoop] at h
    simp only [bind, Except.bind] at h
    cases hm : asMap (some v) with
    | error e => simp [hm] at h
    | ok rewardMap =>
      simp only [hm] at h
      cases hl : lookup rewardMap "Spawns" with
      | none =>
        simp only [hl] at h
        exact ih (rewardIdx + 1) acc hacc h
      | some spawns =>
        simp only [hl] at h
        cases ha : asArray (some spawns) with
        | error e => simp [ha] at h
        | ok itemSpawns =>
          simp only [ha] at h
          cases hsl : spawnsLoop characterItems rewardIdx itemSpawns 0 acc with
          | error e => simp [hsl] at h
          | ok acc' =>
            simp only [hsl] at h
            exact ih (rewardIdx + 1) acc'
              (spawnsLoop_owned characterItems rewardIdx itemSpawns 0 acc acc' hacc hsl) h

theorem mkEvent_owned (characterItems : List String) (item : ItemData) (e : Event)
    (h : mkEvent characterItems item = .ok e) (rewards : List LootSpawn)
    (hr : e.Rewards = some rewards) :
    ∀ s ∈ rewards, s.OwnedByCharacter = decide (s.ActorBP ∈ characterItems) := by
  unfold mkEvent at h
  cases hrw : item.Components.Rewards with
  | none =>
    simp only [hrw, Except.ok.injEq] at h
    rw [← h] at hr
    cases hr
  | some rs =>
    simp only [hrw, bind, Except.bind] at h
    cases hl : rewardsLoop characterItems rs 0 [] with
    | error e => simp [hl] at h
    | ok ls =>
      simp only [hl, Except.ok.injEq] at h
      rw [← h] at hr
      simp only [Option.some.injEq] at hr
      subst hr
      exact rewardsLoop_owned characterItems rs 0 [] ls (by simp) hl

theorem getItemComponentsStep_lootSpawns (itemComponents : ItemComponents) (comp : Component) :
    (getItemComponentsStep itemComponents comp).LootSpawns.isSome = true ↔
      itemComponents.LootSpawns.isSome = true ∨
        (comp.ComponentKey = "Loot" ∧ (lookup comp.Properties "Spawns").isSome = true) := by
  unfold getItemComponentsStep
  by_cases hk : comp.ComponentKey = "Loot"
  · cases hl : lookup comp.Properties "Spawns" with
    | none => simp only [hk, if_true]; split_ifs <;> simp
    | some v => simp only [hk, if_true]; split_ifs <;> simp
  · simp only [hk, if_false]; split_ifs <;> simp

theorem foldl_getItemComponentsStep_lootSpawns (comps : List Component)
    (itemComponents : ItemComponents) :
    (comps.foldl getItemComponentsStep itemComponents).LootSpawns.isSome = true ↔
      itemComponents.LootSpawns.isSome = true ∨
        ∃ comp ∈ comps, comp.ComponentKey = "Loot" ∧
          (lookup comp.Properties "Spawns").isSome = true := by
  induction comps generalizing itemComponents with
  | nil => simp
  | cons c rest ih =>
    rw [List.foldl_cons, ih, getItemComponentsStep_lootSpawns]
    simp only [List.mem_cons, exists_eq_or_imp]
    tauto

theorem foldl_objects_lootSpawns (objects : List UObject) (itemComponents : ItemComponents) :
    (objects.foldl (fun ic obj => obj.Components.foldl getItemComponentsStep ic)
        itemComponents).LootSpawns.isSome = true ↔
      itemComponents.LootSpawns.isSome = true ∨
        ∃ obj ∈ objects, ∃ comp ∈ obj.Components, comp.ComponentKey = "Loot" ∧
          (lookup comp.Properties "Spawns").isSome = true := by
  induction objects generalizing itemComponents with
  | nil => simp
  | cons o rest ih =>
    rw [List.foldl_cons, ih, foldl_getItemComponentsStep_lootSpawns, or_assoc]
    simp only [List.mem_cons, or_and_right, exists_or, exists_eq_left]

/-- The loot-spawn list is non-nil exactly when some `Loot` component has a `Spawns`
property. -/
theorem getItemComponents_lootSpawns (objects : List UObject) :
    (getItemComponents objects).LootSpawns.isSome = true ↔
      ∃ obj ∈ objects, ∃ comp ∈ obj.Components, comp.ComponentKey = "Loot" ∧
        (lookup comp.Properties "Spawns").isSome = true := by
  unfold getItemComponents
  rw [foldl_objects_lootSpawns]
  simp

/-- C8, refuted as stated: a record of the zone whose `Loot` component carries a `Spawns`
array without any entry is emitted as an Item (unchanged), not as an Event. -/
theorem processItems_empty_spawns_counterexample :
    emptyLootRecord = mkItemData "Quest_Event_C" { ZoneID := 2, ID := 8, ParentQuestID := 0 }
        [lootObject []] ∧
      emptyLootRecord.Components.LootSpawns = some (.array []) ∧
      processItems [emptyLootRecord] (bareZone 2 1) [] = .ok ([emptyLootRecord], []) :=
  ⟨rfl, rfl, rfl⟩

/-- C8, amended: a record assigned to the zone by `processItems` is emitted as an Item if
and only if its loot-spawn list is non-nil, that is when some `Loot` component of the
record has a `Spawns` property, whatever the number of entries of that array; otherwise,
including when it has no rewards, it is emitted as an Event. The emitted items are the
assigned records with a loot-spawn list, the emitted events are named after the assigned
records without one, both in order. -/
theorem processItems_item_iff_lootSpawns (items : List ItemData) (zone : ZoneActor)
    (characterItems : List String) (ri : List ItemData) (re : List Event)
    (h : processItems items zone characterItems = .ok (ri, re)) :
    ri.map (fun x => (x.Properties, x.Components)) =
        (items.filter (fun item => assigned zone item && item.Components.LootSpawns.isSome)).map
          (fun x => (x.Properties, x.Components)) ∧
      re.map (fun e => e.Name) =
        (items.filter (fun item => assigned zone item && item.Components.LootSpawns.isNone)).map
          (fun item => item.Name) ∧
      (∀ item, assigned zone item = true → item.Components.LootSpawns = none →
        item.Components.Rewards = none →
        processItems [item] zone characterItems =
          .ok ([], [{ Name := item.Name, Rewards := none }])) ∧
      ∀ objects, (getItemComponents objects).LootSpawns.isSome = true ↔
        ∃ obj ∈ objects, ∃ comp ∈ obj.Components, comp.ComponentKey = "Loot" ∧
          (lookup comp.Properties "Spawns").isSome = true := by
  refine ⟨?_, ?_, ?_, getItemComponents_lootSpawns⟩
  · induction items generalizing ri re with
    | nil =>
      simp only [processItems_nil, Except.ok.injEq, Prod.mk.injEq] at h
      rw [← h.1]
      rfl
    | cons item rest ih =>
      obtain ⟨a, b, c, d, hc, hr, rfl, rfl⟩ :=
        processItems_cons_ok zone characterItems item rest ri re h
      rw [List.map_append, ih c d hr, List.filter_cons]
      rcases contribution_ok zone characterItems item a b hc with
        ⟨ha, rfl, rfl⟩ | ⟨ha, spawns, item', hl, hs, rfl, rfl⟩ | ⟨ha, hl, e, he, rfl, rfl⟩
      · simp [ha]
      · obtain ⟨h1, h2, _⟩ := lootSpawnLoop_frame spawns item item' hs
        obtain ⟨_, h3, h4, _⟩ := markOwned_frame characterItems item'
        simp [ha, hl, h1, h2, h3, h4]
      · simp [ha, hl]
  · induction items generalizing ri re with
    | nil =>
      simp only [processItems_nil, Except.ok.injEq, Prod.mk.injEq] at h
      rw [← h.2]
      rfl
    | cons item rest ih =>
      obtain ⟨a, b, c, d, hc, hr, rfl, rfl⟩ :=
        processItems_cons_ok zone characterItems item rest ri re h
      rw [List.map_append, ih c d hr, List.filter_cons]
      rcases contribution_ok zone characterItems item a b hc with
        ⟨ha, rfl, rfl⟩ | ⟨ha, spawns, item', hl, hs, rfl, rfl⟩ | ⟨ha, hl, e, he, rfl, rfl⟩
      · simp [ha]
      · simp [ha, hl]
      · simp [ha, hl, mkEvent_name characterItems item e he]
  · intro item ha hl hr
    rw [processItems_single]
    unfold contribution
    rw [(assigned_iff zone item).mp ha]
    simp [hl, mkEvent, hr]

/-- Witness of the amended C8: a sword, a record with an empty `Spawns` array, a record
without components and a record of another zone. -/
theorem processItems_item_iff_lootSpawns_witness :
    [{ swordRecord with Name := "Sword", Quantity := 1 }, emptyLootRecord].map
          (fun x => (x.Properties, x.Components)) =
        ([swordRecord, emptyLootRecord, plainRecord,
            { plainRecord with Properties := { ZoneID := 5, ID := 3, ParentQuestID := 0 } }].filter
          (fun item => assigned (bareZone 2 1) item && item.Components.LootSpawns.isSome)).map
          (fun x => (x.Properties, x.Components)) ∧
      [({ Name := "Quest_Event_C", Rewards := none } : Event)].map (fun e => e.Name) =
        ([swordRecord, emptyLootRecord, plainRecord,
            { plainRecord with Properties := { ZoneID := 5, ID := 3, ParentQuestID := 0 } }].filter
          (fun item => assigned (bareZone 2 1) item && item.Components.LootSpawns.isNone)).map
          (fun item => item.Name) ∧
      (∀ item, assigned (bareZone 2 1) item = true → item.Components.LootSpawns = none →
        item.Components.Rewards = none →
        processItems [item] (bareZone 2 1) [] =
          .ok ([], [{ Name := item.Name, Rewards := none }])) ∧
      ∀ objects, (getItemComponents objects).LootSpawns.isSome = true ↔
        ∃ obj ∈ objects, ∃ comp ∈ obj.Components, comp.ComponentKey = "Loot" ∧
          (lookup comp.Properties "Spawns").isSome = true :=
  processItems_item_iff_lootSpawns
    [swordRecord, emptyLootRecord, plainRecord,
      { plainRecord with Properties := { ZoneID := 5, ID := 3, ParentQuestID := 0 } }]
    (bareZone 2 1) [] [{ swordRecord with Name := "Sword", Quantity := 1 }, emptyLootRecord]
    [{ Name := "Quest_Event_C", Rewards := none }] rfl

/-- C9: when `processItems` succeeds, every record contributes on its own either exactly
one element (an item or an event, never both) when its zone id is the zone's `ID`, or
nothing otherwise; the results are these contributions in order, so
`len(items) + len(events)` is the number of records whose zone id is the zone's `ID`. -/
theorem processItems_partition (items : List ItemData) (zone : ZoneActor)
    (characterItems : List String) (ri : List ItemData) (re : List Event)
    (h : processItems items zone characterItems = .ok (ri, re)) :
    (∃ parts : List (List ItemData × List Event),
        List.Forall₂
          (fun item part => processItems [item] zone characterItems = .ok part ∧
            part.1.length + part.2.length = (if assigned zone item = true then 1 else 0))
          items parts ∧
        ri = (parts.map Prod.fst).flatten ∧ re = (parts.map Prod.snd).flatten) ∧
      ri.length + re.length = items.countP (assigned zone) := by
  induction items generalizing ri re with
  | nil =>
    simp only [processItems_nil, Except.ok.injEq, Prod.mk.injEq] at h
    rw [← h.1, ← h.2]
    exact ⟨⟨[], List.Forall₂.nil, rfl, rfl⟩, rfl⟩
  | cons item rest ih =>
    obtain ⟨a, b, c, d, hc, hr, rfl, rfl⟩ :=
      processItems_cons_ok zone characterItems item rest ri re h
    obtain ⟨⟨parts, hparts, hc', hd'⟩, hlen⟩ := ih c d hr
    have hone : a.length + b.length = (if assigned zone item = true then 1 else 0) := by
      rcases contribution_ok zone characterItems item a b hc with
        ⟨ha, rfl, rfl⟩ | ⟨ha, spawns, item', hl, hs, rfl, rfl⟩ | ⟨ha, hl, e, he, rfl, rfl⟩
      · simp [ha]
      · simp [ha]
      · simp [ha]
    refine ⟨⟨(a, b) :: parts, List.Forall₂.cons ⟨?_, hone⟩ hparts, ?_, ?_⟩, ?_⟩
    · rw [processItems_single, hc]
    · simp [hc']
    · simp [hd']
    · rw [List.countP_cons, ← hlen]
      simp only [List.length_append]
      omega

/-- Witness of C9: of four records, three belong to zone 2. -/
theorem processItems_partition_witness :
    (∃ parts : List (List ItemData × List Event),
        List.Forall₂
          (fun item part => processItems [item] (bareZone 2 1) [] = .ok part ∧
            part.1.length + part.2.length = (if assigned (bareZone 2 1) item = true then 1 else 0))
          [swordRecord, emptyLootRecord, plainRecord,
            { plainRecord with Properties := { ZoneID := 5, ID := 3, ParentQuestID := 0 } }]
          parts ∧
        [{ swordRecord with Name := "Sword", Quantity := 1 }, emptyLootRecord] =
          (parts.map Prod.fst).flatten ∧
        [({ Name := "Quest_Event_C", Rewards := none } : Event)] =
          (parts.map Prod.snd).flatten) ∧
      [{ swordRecord with Name := "Sword", Quantity := 1 }, emptyLootRecord].length +
          [({ Name := "Quest_Event_C", Rewards := none } : Event)].length =
        [swordRecord, emptyLootRecord, plainRecord,
          { plainRecord with Properties := { ZoneID := 5, ID := 3, ParentQuestID := 0 } }].countP
          (assigned (bareZone 2 1)) :=
  processItems_partition
    [swordRecord, emptyLootRecord, plainRecord,
      { plainRecord with Properties := { ZoneID := 5, ID := 3, ParentQuestID := 0 } }]
    (bareZone 2 1) [] [{ swordRecord with Name := "Sword", Quantity := 1 }, emptyLootRecord]
    [{ Name := "Quest_Event_C", Rewards := none }] rfl

theorem processItems_items_owned (items : List ItemData) (zone : ZoneActor)
    (characterItems : List String) (ri : List ItemData) (re : List Event)
    (h : processItems items zone characterItems = .ok (ri, re)) :
    ∀ x ∈ ri, ∃ item ∈ items, x.Properties = item.Properties ∧
      x.Components = item.Components ∧
      x.OwnedByCharacter = (item.OwnedByCharacter || decide (x.Name ∈ characterItems)) := by
  induction items generalizing ri re with
  | nil =>
    simp only [processItems_nil, Except.ok.injEq, Prod.mk.injEq] at h
    rw [← h.1]
    intro x hx
    cases hx
  | cons item rest ih =>
    obtain ⟨a, b, c, d, hc, hr, rfl, rfl⟩ :=
      processItems_cons_ok zone characterItems item rest ri re h
    intro x hx
    rcases List.mem_append.mp hx with hx | hx
    · rcases contribution_ok zone characterItems item a b hc with
        ⟨_, rfl, _⟩ | ⟨_, spawns, item', _, hs, rfl, _⟩ | ⟨_, _, e, _, rfl, _⟩
      · cases hx
      · rw [List.mem_singleton] at hx
        subst hx
        obtain ⟨h1, h2, h3⟩ := lootSpawnLoop_frame spawns item item' hs
        obtain ⟨_, h4, h5, _⟩ := markOwned_frame characterItems item'
        exact ⟨item, List.mem_cons_self _ _, h4.trans h1, h5.trans h2,
          by rw [markOwned_owned, h3]⟩
      · cases hx
    · obtain ⟨item', hmem, hrest⟩ := ih c d hr x hx
      exact ⟨item', List.mem_cons_of_mem _ hmem, hrest⟩

theorem processItems_rewards_owned (items : List ItemData) (zone : ZoneActor)
    (characterItems : List String) (ri : List ItemData) (re : List Event)
    (h : processItems items zone characterItems = .ok (ri, re)) :
    ∀ e ∈ re, ∀ rewards, e.Rewards = some rewards →
      ∀ s ∈ rewards, s.OwnedByCharacter = decide (s.ActorBP ∈ characterItems) := by
  induction items generalizing ri re with
  | nil =>
    simp only [processItems_nil, Except.ok.injEq, Prod.mk.injEq] at h
    rw [← h.2]
    intro e he
    cases he
  | cons item rest ih =>
    obtain ⟨a, b, c, d, hc, hr, rfl, rfl⟩ :=
      processItems_cons_ok zone characterItems item rest ri re h
    intro e he
    rcases List.mem_append.mp he with he | he
    · rcases contribution_ok zone characterItems item a b hc with
        ⟨_, _, rfl⟩ | ⟨_, spawns, item', _, _, _, rfl⟩ | ⟨_, _, e', hev, _, rfl⟩
      · cases he
      · cases he
      · rw [List.mem_singleton] at he
        subst he
        exact mkEvent_owned characterItems item e hev
    · exact ih c d hr e he

/-- C10, refuted as stated: for a record whose `OwnedByCharacter` is already true,
`processItems` emits an Item with the flag true although its `Name` is not a member of the
(empty) list of owned items. -/
theorem processItems_stale_owned_counterexample :
    ∃ x, processItems [staleOwnedRecord] (bareZone 2 1) [] = .ok ([x], []) ∧
      x.Name = "Sword" ∧ x.OwnedByCharacter = true ∧
      decide (x.Name ∈ ([] : List String)) = false :=
  ⟨{ staleOwnedRecord with Name := "Sword", Quantity := 1 }, rfl, rfl, rfl, rfl⟩

/-- C10, amended: every Item that `processItems` emits has `OwnedByCharacter` equal to
(the flag of the input record, or `Name` is a member of `characterItems`), hence equal to
the membership test whenever the flag of the input records is false, as it is for every
record `findAdventure` builds; every reward of an emitted Event has `OwnedByCharacter`
equal to (`ActorBP` is a member of `characterItems`). -/
theorem processItems_ownership (items : List ItemData) (zone : ZoneActor)
    (characterItems : List String) (ri : List ItemData) (re : List Event)
    (h : processItems items zone characterItems = .ok (ri, re)) :
    (∀ x ∈ ri, ∃ item ∈ items, x.Properties = item.Properties ∧
        x.Components = item.Components ∧
        x.OwnedByCharacter = (item.OwnedByCharacter || decide (x.Name ∈ characterItems))) ∧
      ((∀ item ∈ items, item.OwnedByCharacter = false) →
        ∀ x ∈ ri, x.OwnedByCharacter = decide (x.Name ∈ characterItems)) ∧
      ∀ e ∈ re, ∀ rewards, e.Rewards = some rewards →
        ∀ s ∈ rewards, s.OwnedByCharacter = decide (s.ActorBP ∈ characterItems) := by
  have hitems := processItems_items_owned items zone characterItems ri re h
  refine ⟨hitems, ?_, processItems_rewards_owned items zone characterItems ri re h⟩
  intro hfalse x hx
  obtain ⟨item, hmem, _, _, hown⟩ := hitems x hx
  rw [hown, hfalse item hmem, Bool.false_or]

/-- Witness of the amended C10: an owned sword, and an event with an owned reward. -/
theorem processItems_ownership_witness :
    (∀ x ∈ [{ swordRecord with Name := "Sword", Quantity := 1, OwnedByCharacter := true }],
        ∃ item ∈ [swordRecord, rewardRecord], x.Properties = item.Properties ∧
          x.Components = item.Components ∧
          x.OwnedByCharacter =
            (item.OwnedByCharacter || decide (x.Name ∈ ["Sword", "Ring"]))) ∧
      ((∀ item ∈ [swordRecord, rewardRecord], item.OwnedByCharacter = false) →
        ∀ x ∈ [{ swordRecord with Name := "Sword", Quantity := 1, OwnedByCharacter := true }],
          x.OwnedByCharacter = decide (x.Name ∈ ["Sword", "Ring"])) ∧
      ∀ e ∈ [({ Name := "Quest_Event_C",
                Rewards := some [{ ID := 0, RewardID := 0, Type_ := "ELootType::Item",
                                   ActorBP := "Ring", Quantity := 1,
                                   PersistenceKey := { ContainerKey := "Quest", PersistentID := 4 },
                                   OwnedByCharacter := true }] } : Event)],
        ∀ rewards, e.Rewards = some rewards →
          ∀ s ∈ rewards, s.OwnedByCharacter = decide (s.ActorBP ∈ ["Sword", "Ring"]) :=
  processItems_ownership [swordRecord, rewardRecord] (bareZone 2 1) ["Sword", "Ring"]
    [{ swordRecord with Name := "Sword", Quantity := 1, OwnedByCharacter := true }]
    [{ Name := "Quest_Event_C",
       Rewards := some [{ ID := 0, RewardID := 0, Type_ := "ELootType::Item",
                          ActorBP := "Ring", Quantity := 1,
                          PersistenceKey := { ContainerKey := "Quest", PersistentID := 4 },
                          OwnedByCharacter := true }] }]
    rfl

/-! ## Zone id of a record -/

theorem contribution_of_not_assigned (zone : ZoneActor) (characterItems : List String)
    (item : ItemData) (n : Int) (hz : currentZoneID item = .ok n) (hn : n ≠ zone.ID) :
    contribution zone characterItems item = .ok ([], []) := by
  unfold contribution
  simp [hz, hn]

theorem contribution_of_assigned_loot (zone : ZoneActor) (characterItems : List String)
    (item item' : ItemData) (spawns : List Value) (hz : currentZoneID item = .ok zone.ID)
    (hl : item.Components.LootSpawns = some (.array spawns))
    (hs : lootSpawnLoop spawns item = .ok item') :
    contribution zone characterItems item = .ok ([markOwned characterItems item'], []) := by
  unfold contribution
  simp only [hz, if_true, hl, asArray, hs]

theorem contribution_of_assigned_event (zone : ZoneActor) (characterItems : List String)
    (item : ItemData) (e : Event) (hz : currentZoneID item = .ok zone.ID)
    (hl : item.Components.LootSpawns = none) (he : mkEvent characterItems item = .ok e) :
    contribution zone characterItems item = .ok ([], [e]) := by
  unfold contribution
  simp only [hz, if_true, hl, he]

theorem contribution_assigned_length (zone : ZoneActor) (characterItems : List String)
    (item : ItemData) (a : List ItemData) (b : List Event)
    (hz : currentZoneID item = .ok zone.ID)
    (h : contribution zone characterItems item = .ok (a, b)) : a.length + b.length = 1 := by
  have ha : assigned zone item = true := (assigned_iff zone item).mpr hz
  rcases contribution_ok zone characterItems item a b h with
    ⟨hf, _, _⟩ | ⟨_, _, _, _, _, rfl, rfl⟩ | ⟨_, _, _, _, rfl, rfl⟩
  · rw [ha] at hf
    cases hf
  · rfl
  · rfl

/-- In a list on which `processItems` succeeds, what a record contributes is among the
results. -/
theorem processItems_append_contribution (zone : ZoneActor) (characterItems : List String)
    (pre post : List ItemData) (item : ItemData) (ri : List ItemData) (re : List Event)
    (h : processItems (pre ++ item :: post) zone characterItems = .ok (ri, re)) :
    ∃ a b, contribution zone characterItems item = .ok (a, b) ∧
      (∀ x ∈ a, x ∈ ri) ∧ (∀ e ∈ b, e ∈ re) := by
  induction pre generalizing ri re with
  | nil =>
    obtain ⟨a, b, c, d, hc, _, hri, hre⟩ :=
      processItems_cons_ok zone characterItems item post ri re h
    subst hri
    subst hre
    exact ⟨a, b, hc, fun x hx => List.mem_append_left _ hx,
      fun e he => List.mem_append_left _ he⟩
  | cons x pre ih =>
    obtain ⟨a0, b0, c, d, _, hrest, hri, hre⟩ :=
      processItems_cons_ok zone characterItems x (pre ++ item :: post) ri re h
    obtain ⟨a, b, hc, ha, hb⟩ := ih c d hrest
    subst hri
    subst hre
    exact ⟨a, b, hc, fun y hy => List.mem_append_right _ (ha y hy),
      fun e he => List.mem_append_right _ (hb e he)⟩

/-- A record whose resolved zone id is the `ID` of the zone is assigned to the zone. -/
theorem assignedTo_of_currentZoneID (zone : ZoneActor) (characterItems : List String)
    (item : ItemData) (hz : currentZoneID item = .ok zone.ID) :
    AssignedTo zone characterItems item := by
  refine ⟨fun spawns item' hl hs => ?_, fun hl e he => ?_, fun hl hr => ?_,
    fun ri re h => ?_, fun pre post ri re h => ?_⟩
  · rw [processItems_single]
    exact contribution_of_assigned_loot zone characterItems item item' spawns hz hl hs
  · rw [processItems_single]
    exact contribution_of_assigned_event zone characterItems item e hz hl he
  · rw [processItems_single]
    refine contribution_of_assigned_event zone characterItems item _ hz hl ?_
    unfold mkEvent
    rw [hr]
  · rw [processItems_single] at h
    exact contribution_assigned_length zone characterItems item ri re hz h
  · obtain ⟨a, b, hc, ha, hb⟩ :=
      processItems_append_contribution zone characterItems pre post item ri re h
    refine ⟨a, b, ?_, contribution_assigned_length zone characterItems item a b hz hc, ha, hb⟩
    rw [processItems_single]
    exact hc

/-- C11: the zone id that `processItems` compares with the zone's `ID` is the `ZoneID` of
the record's `Zone` component when a `Zone` component is present, and the record's
top-level `ZoneID` otherwise. A record without a `Zone` component is assigned to the zone
whose `ID` is its top-level `ZoneID`; a record with a `Zone` component is assigned to the
zone whose `ID` is the component's `ZoneID` and is never assigned by its top-level
`ZoneID`: it contributes nothing to any other zone, the zone of its top-level `ZoneID`
included when the two differ. -/
theorem processItems_zone_override (item : ItemData) :
    (item.Components.Zone = none → currentZoneID item = .ok item.Properties.ZoneID) ∧
      (∀ v n, item.Components.Zone = some v → currentZoneID item = .ok n →
        ∃ m, v = .map m ∧ lookup m "ZoneID" = some (.int32 n)) ∧
      (∀ m n, item.Components.Zone = some (.map m) → lookup m "ZoneID" = some (.int32 n) →
        currentZoneID item = .ok n ∧
        ∀ zone characterItems, zone.ID ≠ n →
          processItems [item] zone characterItems = .ok ([], [])) ∧
      (∀ zone characterItems ri re,
        processItems [item] zone characterItems = .ok (ri, re) → ri.length + re.length = 1 →
        currentZoneID item = .ok zone.ID) ∧
      (item.Components.Zone = none → ∀ zone characterItems,
        (zone.ID = item.Properties.ZoneID → AssignedTo zone characterItems item) ∧
        (zone.ID ≠ item.Properties.ZoneID →
          processItems [item] zone characterItems = .ok ([], []))) ∧
      (∀ m n, item.Components.Zone = some (.map m) → lookup m "ZoneID" = some (.int32 n) →
        ∀ zone characterItems, zone.ID = n → AssignedTo zone characterItems item) := by
  have hnone : item.Components.Zone = none →
      currentZoneID item = .ok item.Properties.ZoneID := by
    intro h
    simp [currentZoneID, h]
  have hsome : ∀ m n, item.Components.Zone = some (.map m) →
      lookup m "ZoneID" = some (.int32 n) → currentZoneID item = .ok n := by
    intro m n hm hl
    simp [currentZoneID, hm, hl]
  refine ⟨hnone, ?_, ?_, ?_, ?_, ?_⟩
  · intro v n hv hn
    unfold currentZoneID at hn
    rw [hv] at hn
    cases v with
    | map m =>
      refine ⟨m, rfl, ?_⟩
      simp only at hn
      split at hn
      · simp only [Except.ok.injEq] at hn
        subst hn
        assumption
      · cases hn
    | _ => simp at hn
  · intro m n hm hl
    have hz := hsome m n hm hl
    refine ⟨hz, fun zone characterItems hne => ?_⟩
    rw [processItems_single]
    exact contribution_of_not_assigned zone characterItems item n hz (fun h => hne h.symm)
  · intro zone characterItems ri re h hlen
    rw [processItems_single] at h
    rcases contribution_ok zone characterItems item ri re h with
      ⟨_, rfl, rfl⟩ | ⟨ha, _⟩ | ⟨ha, _⟩
    · simp at hlen
    · exact (assigned_iff zone item).mp ha
    · exact (assigned_iff zone item).mp ha
  · intro hz zone characterItems
    refine ⟨fun hid => ?_, fun hne => ?_⟩
    · refine assignedTo_of_currentZoneID zone characterItems item ?_
      rw [hnone hz, hid]
    · rw [processItems_single]
      exact contribution_of_not_assigned zone characterItems item _ (hnone hz)
        (fun h => hne h.symm)
  · intro m n hm hl zone characterItems hid
    refine assignedTo_of_currentZoneID zone characterItems item ?_
    rw [hsome m n hm hl, hid]

/-- Witness of C11: a record with top-level `ZoneID` 2 and a `Zone` component of `ZoneID` 5
is compared by 5: it yields its event for zone 5, alone and in a list, and nothing for
zone 2. -/
theorem processItems_zone_override_witness :
    currentZoneID (zoneComponentRecord 2 [("ZoneID", .int32 5)]) = .ok 5 ∧
      processItems [zoneComponentRecord 2 [("ZoneID", .int32 5)]] (bareZone 2 1) [] =
        .ok ([], []) ∧
      processItems [zoneComponentRecord 2 [("ZoneID", .int32 5)]] (bareZone 5 1) [] =
        .ok ([], [{ Name := "Quest_Event_C", Rewards := none }]) ∧
      ∃ a b, processItems [zoneComponentRecord 2 [("ZoneID", .int32 5)]] (bareZone 5 1) [] =
          .ok (a, b) ∧ a.length + b.length = 1 ∧
        (∀ x ∈ a, x ∈ ([] : List ItemData)) ∧
        ∀ e ∈ b, e ∈ [({ Name := "Quest_Event_C", Rewards := none } : Event)] :=
  ⟨((processItems_zone_override (zoneComponentRecord 2 [("ZoneID", .int32 5)])).2.2.1
      [("ZoneID", .int32 5)] 5 rfl rfl).1,
    ((processItems_zone_override (zoneComponentRecord 2 [("ZoneID", .int32 5)])).2.2.1
      [("ZoneID", .int32 5)] 5 rfl rfl).2 (bareZone 2 1) [] (by decide),
    ((processItems_zone_override (zoneComponentRecord 2 [("ZoneID", .int32 5)])).2.2.2.2.2
      [("ZoneID", .int32 5)] 5 rfl rfl (bareZone 5 1) [] rfl).2.2.1 rfl rfl,
    ((processItems_zone_override (zoneComponentRecord 2 [("ZoneID", .int32 5)])).2.2.2.2.2
      [("ZoneID", .int32 5)] 5 rfl rfl (bareZone 5 1) [] rfl).2.2.2.2
      [swordRecord] [plainRecord] [] [{ Name := "Quest_Event_C", Rewards := none }] rfl⟩

theorem currentZoneID_unresolved (item : ItemData) (m : List (String × Value))
    (hz : item.Components.Zone = some (.map m))
    (hno : ∀ n, lookup m "ZoneID" ≠ some (.int32 n)) :
    currentZoneID item = .error (.error "could not parse zoneID") := by
  unfold currentZoneID
  rw [hz]
  cases hl : lookup m "ZoneID" with
  | none => simp only [hl]
  | some v =>
    cases v with
    | int32 n => exact absurd hl (hno n)
    | _ => simp only [hl]

theorem contribution_unresolved (zone : ZoneActor) (characterItems : List String)
    (item : ItemData) (m : List (String × Value))
    (hz : item.Components.Zone = some (.map m))
    (hno : ∀ n, lookup m "ZoneID" ≠ some (.int32 n)) :
    contribution zone characterItems item = .error (.error "could not parse zoneID") := by
  unfold contribution
  rw [currentZoneID_unresolved item m hz hno]

theorem processItems_append_unresolved (zone : ZoneActor) (characterItems : List String)
    (pre post : List ItemData) (item : ItemData) (m : List (String × Value))
    (hz : item.Components.Zone = some (.map m))
    (hno : ∀ n, lookup m "ZoneID" ≠ some (.int32 n)) :
    (∀ r, processItems pre zone characterItems = .ok r →
        processItems (pre ++ item :: post) zone characterItems =
          .error (.error "could not parse zoneID")) ∧
      ∀ r, processItems (pre ++ item :: post) zone characterItems ≠ .ok r := by
  induction pre with
  | nil =>
    have h : processItems (item :: post) zone characterItems =
        .error (.error "could not parse zoneID") := by
      rw [processItems_cons, contribution_unresolved zone characterItems item m hz hno]
    refine ⟨fun _ _ => h, fun r hr => ?_⟩
    rw [List.nil_append, h] at hr
    cases hr
  | cons x pre ih =>
    obtain ⟨ih1, ih2⟩ := ih
    simp only [List.cons_append]
    rw [processItems_cons zone characterItems x (pre ++ item :: post),
      processItems_cons zone characterItems x pre]
    cases hc : contribution zone characterItems x with
    | error e =>
      refine ⟨fun r hr => ?_, fun r hr => ?_⟩
      · simp at hr
      · simp at hr
    | ok ab =>
      obtain ⟨a, b⟩ := ab
      simp only
      cases hp : processItems pre zone characterItems with
      | error e =>
        refine ⟨fun r hr => ?_, fun r hr => ?_⟩
        · simp at hr
        · cases hq : processItems (pre ++ item :: post) zone characterItems with
          | error e' => rw [hq] at hr; cases hr
          | ok r' => exact absurd hq (ih2 r')
      | ok cd =>
        have := ih1 cd hp
        refine ⟨fun r _ => ?_, fun r hr => ?_⟩
        · rw [this]
        · rw [this] at hr
          cases hr

/-- C12, refuted as stated: with a record whose `Zone` component carries no `ZoneID` next
to a well-formed sword record of zone 2, `processItems` returns the error
`could not parse zoneID` instead of the sword. -/
theorem processItems_unresolved_zone_counterexample :
    (zoneComponentRecord 2 []).Components.Zone = some (.map []) ∧
      processItems [swordRecord] (bareZone 2 1) [] =
        .ok ([{ swordRecord with Name := "Sword", Quantity := 1 }], []) ∧
      processItems [swordRecord, zoneComponentRecord 2 []] (bareZone 2 1) [] =
        .error (.error "could not parse zoneID") :=
  ⟨rfl, rfl, rfl⟩

/-- C12, amended: a record whose zone id does not resolve (its `Zone` component is present
but carries no int32 `ZoneID`) is not skipped. `processItems` never succeeds on a list
containing it, whatever the zone: once the records before it are processed it returns the
error `could not parse zoneID` and neither items nor events. -/
theorem processItems_unresolved_zone (zone : ZoneActor) (characterItems : List String)
    (pre post : List ItemData) (item : ItemData) (m : List (String × Value))
    (hz : item.Components.Zone = some (.map m))
    (hno : ∀ n, lookup m "ZoneID" ≠ some (.int32 n)) :
    (∀ r, processItems pre zone characterItems = .ok r →
        processItems (pre ++ item :: post) zone characterItems =
          .error (.error "could not parse zoneID")) ∧
      (∀ r, processItems (pre ++ item :: post) zone characterItems ≠ .ok r) :=
  processItems_append_unresolved zone characterItems pre post item m hz hno

/-- Witness of the amended C12: the sword record, the record without `ZoneID` in its `Zone`
component, and a plain record. -/
theorem processItems_unresolved_zone_witness :
    processItems [swordRecord] (bareZone 2 1) [] =
        .ok ([{ swordRecord with Name := "Sword", Quantity := 1 }], []) ∧
      processItems ([swordRecord] ++ zoneComponentRecord 2 [] :: [plainRecord])
          (bareZone 2 1) [] =
        .error (.error "could not parse zoneID") :=
  ⟨rfl, (processItems_unresolved_zone (bareZone 2 1) [] [swordRecord] [plainRecord]
    (zoneComponentRecord 2 []) [] rfl (by intro n h; cases h)).1 _ rfl⟩

/-! ## Splitting on a separator -/

theorem splitAux_eq (sep : Char) (cs cur : List Char) :
    splitAux sep cs cur =
      (cur.reverse ++ cs.takeWhile (fun c => c != sep)) ::
        (if sep ∈ cs then splitAux sep ((cs.dropWhile (fun c => c != sep)).drop 1) [] else []) := by
  induction cs generalizing cur with
  | nil => simp [splitAux]
  | cons c cs ih =>
    rw [splitAux]
    by_cases hc : c = sep
    · subst hc
      simp [List.takeWhile, List.dropWhile]
    · have hne : (c != sep) = true := by simpa using hc
      have hmem : (sep ∈ c :: cs) ↔ sep ∈ cs := by
        simp only [List.mem_cons]
        constructor
        · rintro (h | h)
          · exact absurd h.symm hc
          · exact h
        · exact Or.inr
      rw [if_neg hc, ih]
      simp only [List.takeWhile, List.dropWhile, hne, List.reverse_cons, List.append_assoc,
        List.singleton_append, hmem]

theorem stringsSplit_length (s : String) :
    1 < (stringsSplit s '.').length ↔ '.' ∈ s.toList := by
  unfold stringsSplit
  rw [splitAux_eq]
  by_cases h : '.' ∈ s.toList
  · simp only [h, if_true, List.map_cons, List.length_cons, iff_true]
    rw [splitAux_eq]
    simp
  · have h' : '.' ∉ s.data := h
    simp [h']

theorem stringsSplit_second (s : String) (h : '.' ∈ s.toList) :
    (stringsSplit s '.')[1]? = some (segmentAfterFirstDot s) := by
  unfold stringsSplit segmentAfterFirstDot
  rw [splitAux_eq]
  simp only [h, if_true, List.map_cons, List.getElem?_cons_succ]
  rw [splitAux_eq]
  simp

theorem stringsSplit_second_none (s : String) (h : '.' ∉ s.toList) :
    (stringsSplit s '.')[1]? = none := by
  unfold stringsSplit
  rw [splitAux_eq]
  have h' : '.' ∉ s.data := h
  simp [h']

/-! ## The loot-spawn loop -/

/-- One iteration of the loot-spawn loop. -/
theorem lootSpawnLoop_cons_ok (spawn : Value) (rest : List Value) (item item' : ItemData)
    (h : lootSpawnLoop (spawn :: rest) item = .ok item') :
    ∃ actorBP name quantity, spawnActorBP spawn = some actorBP ∧
      (stringsSplit actorBP '.')[1]? = some name ∧ spawnQuantity spawn = some quantity ∧
      lootSpawnLoop rest { item with Name := name, Quantity := quantity } = .ok item' := by
  rw [lootSpawnLoop] at h
  simp only [bind, Except.bind] at h
  cases spawn with
  | map itemProps =>
    simp only [asMap] at h
    cases hs : lookup itemProps "SpawnEntry" with
    | none => simp [hs, asStruct] at h
    | some se =>
      cases se with
      | struct sv =>
        cases sv with
        | map spawnProps =>
          simp only [hs, asStruct, asMap] at h
          cases ha : lookup spawnProps "ActorBP" with
          | none => simp [ha, asString] at h
          | some av =>
            cases av with
            | str actorBP =>
              simp only [ha, asString, index] at h
              cases hn : (stringsSplit actorBP '.')[1]? with
              | none => simp [hn] at h
              | some name =>
                simp only [hn] at h
                cases hq : lookup spawnProps "Quantity" with
                | none => simp [hq, asInt32] at h
                | some qv =>
                  cases qv with
                  | int32 quantity =>
                    simp only [hq, asInt32] at h
                    exact ⟨actorBP, name, quantity, by simp [spawnActorBP, spawnEntryProps, hs, ha],
                      hn, by simp [spawnQuantity, spawnEntryProps, hs, hq], h⟩
                  | _ => simp [hq, asInt32] at h
            | _ => simp [ha, asString] at h
        | _ => simp [hs, asStruct, asMap] at h
      | _ => simp [hs, asStruct] at h
  | _ => simp [asMap] at h

theorem lootSpawnLoop_nil (item : ItemData) : lootSpawnLoop [] item = .ok item := rfl

/-- The item built by the loot-spawn loop carries the name and the quantity of the last
spawn entry. -/
theorem lootSpawnLoop_last (spawns : List Value) (last : Value) (item item' : ItemData)
    (h : lootSpawnLoop (spawns ++ [last]) item = .ok item') :
    ∃ actorBP, spawnActorBP last = some actorBP ∧
      (stringsSplit actorBP '.')[1]? = some item'.Name ∧
      spawnQuantity last = some item'.Quantity := by
  induction spawns generalizing item with
  | nil =>
    obtain ⟨actorBP, name, quantity, h1, h2, h3, h4⟩ := lootSpawnLoop_cons_ok last [] item item' h
    rw [lootSpawnLoop_nil, Except.ok.injEq] at h4
    subst h4
    exact ⟨actorBP, h1, h2, h3⟩
  | cons s rest ih =>
    obtain ⟨_, _, _, _, _, _, h4⟩ := lootSpawnLoop_cons_ok s (rest ++ [last]) item item' h
    exact ih _ h4

/-- Every emitted item comes from a record of the zone with a loot-spawn list, through the
loot-spawn loop and the ownership test. -/
theorem processItems_mem_items (items : List ItemData) (zone : ZoneActor)
    (characterItems : List String) (ri : List ItemData) (re : List Event)
    (h : processItems items zone characterItems = .ok (ri, re)) :
    ∀ x ∈ ri, ∃ item ∈ items, ∃ spawns item',
      item.Components.LootSpawns = some (.array spawns) ∧
      lootSpawnLoop spawns item = .ok item' ∧ x = markOwned characterItems item' := by
  induction items generalizing ri re with
  | nil =>
    simp only [processItems_nil, Except.ok.injEq, Prod.mk.injEq] at h
    rw [← h.1]
    intro x hx
    cases hx
  | cons item rest ih =>
    obtain ⟨a, b, c, d, hc, hr, rfl, rfl⟩ :=
      processItems_cons_ok zone characterItems item rest ri re h
    intro x hx
    rcases List.mem_append.mp hx with hx | hx
    · rcases contribution_ok zone characterItems item a b hc with
        ⟨_, rfl, _⟩ | ⟨_, spawns, item', hl, hs, rfl, _⟩ | ⟨_, _, e, _, rfl, _⟩
      · cases hx
      · rw [List.mem_singleton] at hx
        exact ⟨item, List.mem_cons_self _ _, spawns, item', hl, hs, hx⟩
      · cases hx
    · obtain ⟨item', hmem, hrest⟩ := ih c d hr x hx
      exact ⟨item', List.mem_cons_of_mem _ hmem, hrest⟩

/-- C13, refuted as stated: for the loot spawn `A.B.C` the emitted item is named `B`, the
second segment, not the last segment `C`. -/
theorem processItems_name_second_segment_counterexample :
    ∃ x, processItems [lootRecord [spawnOf "A.B.C" 1]] (bareZone 2 1) [] = .ok ([x], []) ∧
      x.Name = "B" ∧ stringsSplit "A.B.C" '.' = ["A", "B", "C"] :=
  ⟨{ lootRecord [spawnOf "A.B.C" 1] with Name := "B", Quantity := 1 }, rfl, rfl, by decide⟩

/-- C13, amended: for every Item emitted by `processItems` from a record with a loot spawn,
`Name` is the segment at index 1 (the second segment) of the `ActorBP` string of the spawn,
the last spawn entry when there are several, split on `"."`, that is the segment after the
first `"."` (for `A.B.C` the name is `B`); it is the last segment when the string has
exactly two segments. -/
theorem processItems_item_name (items : List ItemData) (zone : ZoneActor)
    (characterItems : List String) (ri : List ItemData) (re : List Event)
    (h : processItems items zone characterItems = .ok (ri, re)) :
    ∀ x ∈ ri, ∃ item ∈ items, ∃ spawns, item.Components.LootSpawns = some (.array spawns) ∧
      ∀ front last, spawns = front ++ [last] →
        ∃ actorBP, spawnActorBP last = some actorBP ∧
          (stringsSplit actorBP '.')[1]? = some x.Name ∧
          x.Name = segmentAfterFirstDot actorBP ∧
          ((stringsSplit actorBP '.').length = 2 →
            (stringsSplit actorBP '.').getLast? = some x.Name) := by
  intro x hx
  obtain ⟨item, hmem, spawns, item', hl, hs, rfl⟩ :=
    processItems_mem_items items zone characterItems ri re h x hx
  refine ⟨item, hmem, spawns, hl, fun front last hfl => ?_⟩
  subst hfl
  obtain ⟨actorBP, h1, h2, _⟩ := lootSpawnLoop_last front last item item' hs
  rw [(markOwned_frame characterItems item').1]
  refine ⟨actorBP, h1, h2, ?_, fun hlen => ?_⟩
  · by_cases hdot : '.' ∈ actorBP.toList
    · rw [stringsSplit_second actorBP hdot, Option.some.injEq] at h2
      exact h2.symm
    · rw [stringsSplit_second_none actorBP hdot] at h2
      cases h2
  · match hsp : stringsSplit actorBP '.', hlen with
    | [a, b], _ =>
      rw [hsp] at h2
      simp only [List.getElem?_cons_succ, List.getElem?_cons_zero, Option.some.injEq] at h2
      simp [h2]

/-- Witness of the amended C13 on the spawn `A.B.C`. -/
theorem processItems_item_name_witness :
    ∃ item ∈ [lootRecord [spawnOf "A.B.C" 1]], ∃ spawns,
      item.Components.LootSpawns = some (.array spawns) ∧
      ∀ front last, spawns = front ++ [last] →
        ∃ actorBP, spawnActorBP last = some actorBP ∧
          (stringsSplit actorBP '.')[1]? =
            some ({ lootRecord [spawnOf "A.B.C" 1] with Name := "B", Quantity := 1 }).Name ∧
          ({ lootRecord [spawnOf "A.B.C" 1] with Name := "B", Quantity := 1 }).Name =
            segmentAfterFirstDot actorBP ∧
          ((stringsSplit actorBP '.').length = 2 →
            (stringsSplit actorBP '.').getLast? =
              some ({ lootRecord [spawnOf "A.B.C" 1] with Name := "B", Quantity := 1 }).Name) :=
  processItems_item_name [lootRecord [spawnOf "A.B.C" 1]] (bareZone 2 1) []
    [{ lootRecord [spawnOf "A.B.C" 1] with Name := "B", Quantity := 1 }] [] rfl
    { lootRecord [spawnOf "A.B.C" 1] with Name := "B", Quantity := 1 }
    (List.mem_singleton.mpr rfl)

/-- C14, refuted as stated: for a record with the two loot spawns `Pkg.Sword` (quantity 1)
and `Pkg.Axe` (quantity 2), in this order, the emitted item is named `Axe` and has
quantity 2: it is taken from the last spawn entry, not from the first. -/
theorem processItems_first_spawn_counterexample :
    ∃ x, processItems [lootRecord [spawnOf "Pkg.Sword" 1, spawnOf "Pkg.Axe" 2]]
          (bareZone 2 1) [] = .ok ([x], []) ∧
      x.Name = "Axe" ∧ x.Quantity = 2 ∧
      spawnActorBP (spawnOf "Pkg.Sword" 1) = some "Pkg.Sword" ∧
      spawnQuantity (spawnOf "Pkg.Sword" 1) = some 1 :=
  ⟨{ lootRecord [spawnOf "Pkg.Sword" 1, spawnOf "Pkg.Axe" 2] with Name := "Axe", Quantity := 2 },
    rfl, rfl, rfl, rfl, rfl⟩

/-- C14, amended: for every record whose loot-spawn list has more than one entry, the
`Name` and the `Quantity` of the Item `processItems` emits are taken from the last spawn
entry of the list (every entry is decoded and overwrites the previous one). -/
theorem processItems_last_spawn (items : List ItemData) (zone : ZoneActor)
    (characterItems : List String) (ri : List ItemData) (re : List Event)
    (h : processItems items zone characterItems = .ok (ri, re)) :
    ∀ x ∈ ri, ∃ item ∈ items, ∃ spawns, item.Components.LootSpawns = some (.array spawns) ∧
      (1 < spawns.length →
        ∃ last actorBP, spawns.getLast? = some last ∧ spawnActorBP last = some actorBP ∧
          (stringsSplit actorBP '.')[1]? = some x.Name ∧
          spawnQuantity last = some x.Quantity) := by
  intro x hx
  obtain ⟨item, hmem, spawns, item', hl, hs, rfl⟩ :=
    processItems_mem_items items zone characterItems ri re h x hx
  refine ⟨item, hmem, spawns, hl, fun hlen => ?_⟩
  have hne : spawns ≠ [] := by
    rintro rfl
    simp at hlen
  obtain ⟨front, last, hfl⟩ := (List.eq_nil_or_concat spawns).resolve_left hne
  rw [List.concat_eq_append] at hfl
  subst hfl
  obtain ⟨actorBP, h1, h2, h3⟩ := lootSpawnLoop_last front last item item' hs
  obtain ⟨hn, _, _, hq⟩ := markOwned_frame characterItems item'
  exact ⟨last, actorBP, by simp, h1, by rw [hn]; exact h2, by rw [hq]; exact h3⟩

/-- Witness of the amended C14 on the record with the spawns `Pkg.Sword` and `Pkg.Axe`. -/
theorem processItems_last_spawn_witness :
    ∃ item ∈ [lootRecord [spawnOf "Pkg.Sword" 1, spawnOf "Pkg.Axe" 2]], ∃ spawns,
      item.Components.LootSpawns = some (.array spawns) ∧
      (1 < spawns.length →
        ∃ last actorBP, spawns.getLast? = some last ∧ spawnActorBP last = some actorBP ∧
          (stringsSplit actorBP '.')[1]? = some "Axe" ∧ spawnQuantity last = some 2) :=
  processItems_last_spawn [lootRecord [spawnOf "Pkg.Sword" 1, spawnOf "Pkg.Axe" 2]]
    (bareZone 2 1) []
    [{ lootRecord [spawnOf "Pkg.Sword" 1, spawnOf "Pkg.Axe" 2] with
        Name := "Axe", Quantity := 2 }] [] rfl
    { lootRecord [spawnOf "Pkg.Sword" 1, spawnOf "Pkg.Axe" 2] with
      Name := "Axe", Quantity := 2 }
    (List.mem_singleton.mpr rfl)

/-! ## Reward spawns -/

theorem asMap_eq_ok (x : Option Value) (m : List (String × Value)) :
    asMap x = .ok m ↔ x = some (.map m) := by
  unfold asMap
  split <;> simp_all

theorem asStruct_eq_ok (x : Option Value) (v : Value) :
    asStruct x = .ok v ↔ x = some (.struct v) := by
  unfold asStruct
  split <;> simp_all

theorem asString_eq_ok (x : Option Value) (s : String) :
    asString x = .ok s ↔ x = some (.str s) := by
  unfold asString
  split <;> simp_all

theorem asArray_eq_ok (x : Option Value) (xs : List Value) :
    asArray x = .ok xs ↔ x = some (.array xs) := by
  unfold asArray
  split <;> simp_all

theorem index_eq_ok {α : Type} (xs : List α) (i : Nat) (x : α) :
    index xs i = .ok x ↔ xs[i]? = some x := by
  unfold index
  cases h : xs[i]? <;> simp

theorem normalizedRewardName_of_split (a n : String)
    (hlen : 1 < (stringsSplit a '.').length) (hn : (stringsSplit a '.')[1]? = some n) :
    normalizedRewardName a = if n.utf8ByteSize < 2 then "Unknown Event Reward" else n := by
  have hdot := (stringsSplit_length a).mp hlen
  rw [stringsSplit_second a hdot, Option.some.injEq] at hn
  simp only [normalizedRewardName, hdot, if_true, hn]

theorem normalizedRewardName_of_no_split (a : String)
    (hlen : ¬ 1 < (stringsSplit a '.').length) :
    normalizedRewardName a = if a.utf8ByteSize < 2 then "Unknown Event Reward" else a := by
  have hdot : '.' ∉ a.toList := fun h => hlen ((stringsSplit_length a).mpr h)
  simp only [normalizedRewardName, hdot, if_false]

/-- The name given to a reward spawn is the normalized name of its `ActorBP` string. -/
theorem rewardSpawn_actorBP (characterItems : List String) (rewardIdx idx : Nat) (item : Value)
    (s : LootSpawn) (h : rewardSpawn characterItems rewardIdx idx item = .ok s) :
    ∃ actorBP, spawnActorBP item = some actorBP ∧ s.ActorBP = normalizedRewardName actorBP := by
  unfold rewardSpawn at h
  simp only [bind, Except.bind] at h
  repeat' split at h
  all_goals cases h
  all_goals simp only [asMap_eq_ok, asStruct_eq_ok, asString_eq_ok, index_eq_ok,
    Option.some.injEq] at *
  all_goals subst_vars
  all_goals simp only [spawnActorBP, spawnEntryProps, *, Option.some.injEq, exists_eq_left']
  all_goals first
    | (rw [normalizedRewardName_of_split _ _ (by assumption) (by assumption)]
       simp [*])
    | (rw [normalizedRewardName_of_no_split _ (by assumption)]
       simp [*])

/-! ## Go's `len` on names of ASCII characters -/

theorem utf8Size_ascii (c : Char) (h : c.toNat < 128) : c.utf8Size = 1 := by
  have hle : c.val ≤ UInt32.ofNatCore 127 (by decide) := by
    show c.val.toNat ≤ 127
    have : c.toNat = c.val.toNat := rfl
    omega
  unfold Char.utf8Size
  exact if_pos hle

theorem utf8ByteSize_go_ascii (cs : List Char) (h : ∀ c ∈ cs, c.toNat < 128) :
    String.utf8ByteSize.go cs = cs.length := by
  induction cs with
  | nil => rfl
  | cons c cs ih =>
    simp only [String.utf8ByteSize.go, List.length_cons]
    rw [ih (fun d hd => h d (List.mem_cons_of_mem _ hd)),
      utf8Size_ascii c (h c (List.mem_cons_self _ _))]

/-- On a name of ASCII characters Go's `len` (bytes) is the number of characters. -/
theorem utf8ByteSize_ascii (s : String) (h : ∀ c ∈ s.toList, c.toNat < 128) :
    s.utf8ByteSize = s.length := by
  cases s with
  | mk cs => exact utf8ByteSize_go_ascii cs h

theorem spawnsLoop_spec (characterItems : List String) (rewardIdx : Nat) (spawns : List Value)
    (idx : Nat) (acc out : List LootSpawn)
    (h : spawnsLoop characterItems rewardIdx spawns idx acc = .ok out) :
    ∃ news, out = acc ++ news ∧ List.Forall₂ NamedAfter spawns news := by
  induction spawns generalizing idx acc with
  | nil =>
    simp only [spawnsLoop, Except.ok.injEq] at h
    exact ⟨[], by simp [h], List.Forall₂.nil⟩
  | cons v rest ih =>
    rw [spawnsLoop] at h
    simp only [bind, Except.bind] at h
    cases hs : rewardSpawn characterItems rewardIdx idx v with
    | error e => simp [hs] at h
    | ok s =>
      simp only [hs] at h
      obtain ⟨news, hout, hall⟩ := ih (idx + 1) (acc ++ [s]) h
      exact ⟨s :: news, by simp [hout],
        List.Forall₂.cons (rewardSpawn_actorBP characterItems rewardIdx idx v s hs) hall⟩

theorem rewardsLoop_spec (characterItems : List String) (rewards : List Value)
    (rewardIdx : Nat) (acc out : List LootSpawn)
    (h : rewardsLoop characterItems rewards rewardIdx acc = .ok out) :
    ∃ parts, out = acc ++ parts.flatten ∧ List.Forall₂ RewardsOf rewards parts := by
  induction rewards generalizing rewardIdx acc with
  | nil =>
    simp only [rewardsLoop, Except.ok.injEq] at h
    exact ⟨[], by simp [h], List.Forall₂.nil⟩
  | cons v rest ih =>
    rw [rewardsLoop] at h
    simp only [bind, Except.bind] at h
    cases hm : asMap (some v) with
    | error e => simp [hm] at h
    | ok rewardMap =>
      have hv : v = .map rewardMap := by
        have := (asMap_eq_ok (some v) rewardMap).mp hm
        simpa using this
      simp only [hm] at h
      cases hl : lookup rewardMap "Spawns" with
      | none =>
        simp only [hl] at h
        obtain ⟨parts, hout, hall⟩ := ih (rewardIdx + 1) acc h
        exact ⟨[] :: parts, by simp [hout],
          List.Forall₂.cons ⟨rewardMap, hv, Or.inl ⟨hl, rfl⟩⟩ hall⟩
      | some spawns =>
        simp only [hl] at h
        cases ha : asArray (some spawns) with
        | error e => simp [ha] at h
        | ok itemSpawns =>
          have hsp : spawns = .array itemSpawns := by
            have := (asArray_eq_ok (some spawns) itemSpawns).mp ha
            simpa using this
          simp only [ha] at h
          cases hsl : spawnsLoop characterItems rewardIdx itemSpawns 0 acc with
          | error e => simp [hsl] at h
          | ok acc' =>
            simp only [hsl] at h
            obtain ⟨news, hacc', hnews⟩ :=
              spawnsLoop_spec characterItems rewardIdx itemSpawns 0 acc acc' hsl
            obtain ⟨parts, hout, hall⟩ := ih (rewardIdx + 1) acc' h
            refine ⟨news :: parts, by simp [hout, hacc'], List.Forall₂.cons ?_ hall⟩
            exact ⟨rewardMap, hv, Or.inr ⟨itemSpawns, by rw [hl, hsp], hnews⟩⟩

theorem mkEvent_rewards (characterItems : List String) (item : ItemData) (e : Event)
    (h : mkEvent characterItems item = .ok e) :
    (item.Components.Rewards = none → e.Rewards = none) ∧
      ∀ rewards, item.Components.Rewards = some rewards →
        ∃ parts, e.Rewards = some parts.flatten ∧ List.Forall₂ RewardsOf rewards parts := by
  unfold mkEvent at h
  cases hr : item.Components.Rewards with
  | none =>
    simp only [hr, Except.ok.injEq] at h
    rw [← h]
    exact ⟨fun _ => rfl, fun rewards hrw => by cases hrw⟩
  | some rs =>
    simp only [hr, bind, Except.bind] at h
    cases hl : rewardsLoop characterItems rs 0 [] with
    | error e => simp [hl] at h
    | ok ls =>
      simp only [hl, Except.ok.injEq] at h
      rw [← h]
      refine ⟨fun hn => (nomatch hn), fun rewards hrw => ?_⟩
      simp only [Option.some.injEq] at hrw
      subst hrw
      obtain ⟨parts, hout, hall⟩ := rewardsLoop_spec characterItems rs 0 [] ls hl
      exact ⟨parts, by simp [hout], hall⟩

/-- Every emitted event comes from a record of the zone without loot-spawn list, through
the construction of lines 261-299. -/
theorem processItems_mem_events (items : List ItemData) (zone : ZoneActor)
    (characterItems : List String) (ri : List ItemData) (re : List Event)
    (h : processItems items zone characterItems = .ok (ri, re)) :
    ∀ e ∈ re, ∃ item ∈ items, item.Components.LootSpawns = none ∧
      mkEvent characterItems item = .ok e := by
  induction items generalizing ri re with
  | nil =>
    simp only [processItems_nil, Except.ok.injEq, Prod.mk.injEq] at h
    rw [← h.2]
    intro e he
    cases he
  | cons item rest ih =>
    obtain ⟨a, b, c, d, hc, hr, rfl, rfl⟩ :=
      processItems_cons_ok zone characterItems item rest ri re h
    intro e he
    rcases List.mem_append.mp he with he | he
    · rcases contribution_ok zone characterItems item a b hc with
        ⟨_, _, rfl⟩ | ⟨_, spawns, item', _, _, _, rfl⟩ | ⟨_, hl, e', hev, _, rfl⟩
      · cases he
      · cases he
      · rw [List.mem_singleton] at he
        subst he
        exact ⟨item, List.mem_cons_self _ _, hl, hev⟩
    · obtain ⟨item', hmem, hrest⟩ := ih c d hr e he
      exact ⟨item', List.mem_cons_of_mem _ hmem, hrest⟩

/-- C15, refuted as stated: the reward spawn `Pkg.é` has the normalized name `é`, of one
character, and it is not replaced by the literal: Go's `len` counts its 2 bytes. -/
theorem processItems_one_character_counterexample :
    "é".length = 1 ∧ "é".utf8ByteSize = 2 ∧
      processItems
          [rewardsRecord [{ ComponentKey := "Reward_0",
                            Properties := [("Spawns", .array [rewardSpawnOf "Pkg.é"])] }]]
          (bareZone 2 1) [] =
        .ok ([], [{ Name := "Quest_Event_C",
                    Rewards := some [lootSpawnNamed 0 0 "é"] }]) :=
  ⟨by decide, by decide, rfl⟩

/-- C15, amended: the rewards of every Event that `processItems` emits are, reward
component by reward component and spawn by spawn, named by the normalized name of the
spawn's `ActorBP` string: the segment after the first `"."` when the string contains one,
the whole string otherwise, replaced by the literal `Unknown Event Reward` exactly when
that name has fewer than 2 bytes (Go's `len`), which on names of ASCII characters is fewer
than 2 characters; reward components without a `Spawns` property contribute no reward. -/
theorem processItems_reward_names (items : List ItemData) (zone : ZoneActor)
    (characterItems : List String) (ri : List ItemData) (re : List Event)
    (h : processItems items zone characterItems = .ok (ri, re)) :
    (∀ e ∈ re, ∃ item ∈ items,
        (item.Components.Rewards = none → e.Rewards = none) ∧
        ∀ rewards, item.Components.Rewards = some rewards →
          ∃ parts, e.Rewards = some parts.flatten ∧ List.Forall₂ RewardsOf rewards parts) ∧
      (∀ actorBP, normalizedRewardName actorBP =
        (if (if '.' ∈ actorBP.toList then segmentAfterFirstDot actorBP
              else actorBP).utf8ByteSize < 2
          then "Unknown Event Reward"
          else if '.' ∈ actorBP.toList then segmentAfterFirstDot actorBP else actorBP)) ∧
      ∀ name : String, (∀ c ∈ name.toList, c.toNat < 128) → name.utf8ByteSize = name.length := by
  refine ⟨fun e he => ?_, fun actorBP => rfl, utf8ByteSize_ascii⟩
  obtain ⟨item, hmem, _, hev⟩ := processItems_mem_events items zone characterItems ri re h e he
  exact ⟨item, hmem, mkEvent_rewards characterItems item e hev⟩

/-- Witness of C15: a reward component with the spawns `Pkg.Ring`, `X` and `Pkg.A`,
followed by a reward component without `Spawns`. -/
theorem processItems_reward_names_witness :
    (∀ e ∈ [({ Name := "Quest_Event_C",
               Rewards := some [lootSpawnNamed 0 0 "Ring",
                                lootSpawnNamed 1 0 "Unknown Event Reward",
                                lootSpawnNamed 2 0 "Unknown Event Reward"] } : Event)],
        ∃ item ∈ [rewardsRecord
            [{ ComponentKey := "Reward_0",
               Properties := [("Spawns", .array [rewardSpawnOf "Pkg.Ring", rewardSpawnOf "X",
                                                 rewardSpawnOf "Pkg.A"])] },
             { ComponentKey := "Reward_1", Properties := [] }]],
          (item.Components.Rewards = none → e.Rewards = none) ∧
          ∀ rewards, item.Components.Rewards = some rewards →
            ∃ parts, e.Rewards = some parts.flatten ∧ List.Forall₂ RewardsOf rewards parts) ∧
      (∀ actorBP, normalizedRewardName actorBP =
        (if (if '.' ∈ actorBP.toList then segmentAfterFirstDot actorBP
              else actorBP).utf8ByteSize < 2
          then "Unknown Event Reward"
          else if '.' ∈ actorBP.toList then segmentAfterFirstDot actorBP else actorBP)) ∧
      ∀ name : String, (∀ c ∈ name.toList, c.toNat < 128) → name.utf8ByteSize = name.length :=
  processItems_reward_names
    [rewardsRecord
      [{ ComponentKey := "Reward_0",
         Properties := [("Spawns", .array [rewardSpawnOf "Pkg.Ring", rewardSpawnOf "X",
                                           rewardSpawnOf "Pkg.A"])] },
       { ComponentKey := "Reward_1", Properties := [] }]]
    (bareZone 2 1) [] []
    [{ Name := "Quest_Event_C",
       Rewards := some [lootSpawnNamed 0 0 "Ring", lootSpawnNamed 1 0 "Unknown Event Reward",
                        lootSpawnNamed 2 0 "Unknown Event Reward"] }]
    rfl

/-! ## Property extraction -/

theorem getItemProperties_skip (pre : List UObject) (rest : List UObject)
    (hpre : ∀ o ∈ pre, o.Properties = []) :
    getItemProperties (pre ++ rest) = getItemProperties rest := by
  induction pre with
  | nil => rfl
  | cons o pre ih =>
    have ho : o.Properties = [] := hpre o (List.mem_cons_self _ _)
    rw [List.cons_append, getItemProperties]
    simp only [ho, List.length_nil, if_true]
    exact ih (fun o' ho' => hpre o' (List.mem_cons_of_mem _ ho'))

theorem getItemProperties_cons (obj : UObject) (post : List UObject)
    (hobj : obj.Properties ≠ []) :
    getItemProperties (obj :: post) =
      match optionalInt32 "could not parse zoneID" 0 (lookup obj.Properties "ZoneID") with
      | .error e => .error e
      | .ok zoneID =>
        match lookup obj.Properties "ID" with
        | some (.int32 id) =>
          match optionalInt32 "could not parse ParentQuestID" 0
              (lookup obj.Properties "ParentQuestID") with
          | .error e => .error e
          | .ok parentQuestID =>
            .ok { ZoneID := zoneID, ID := id, ParentQuestID := parentQuestID }
        | _ => .error (.error "could not parse ID") := by
  have hlen : obj.Properties.length ≠ 0 := by
    intro h
    exact hobj (List.length_eq_zero.mp h)
  rw [getItemProperties]
  simp only [hlen, if_false, bind, Except.bind]
  cases optionalInt32 "could not parse zoneID" 0 (lookup obj.Properties "ZoneID") with
  | error e => rfl
  | ok zoneID =>
    simp only
    cases hid : lookup obj.Properties "ID" with
    | none => rfl
    | some v =>
      cases v <;> try rfl
      simp only
      cases optionalInt32 "could not parse ParentQuestID" 0
        (lookup obj.Properties "ParentQuestID") <;> rfl

theorem optionalInt32_ok (msg : String) (x : Option Value) (n : Int)
    (h : optionalInt32 msg 0 x = .ok n) :
    (x = none ∧ n = 0) ∨ x = some (.int32 n) := by
  unfold optionalInt32 at h
  split at h
  · simp only [Except.ok.injEq] at h
    exact Or.inl ⟨rfl, h.symm⟩
  · simp only [Except.ok.injEq] at h
    subst h
    exact Or.inr rfl
  · cases h

theorem optionalInt32_error (msg : String) (x : Option Value) (e : Fail)
    (h : optionalInt32 msg 0 x = .error e) :
    e = .error msg ∧ ∃ v, x = some v ∧ ∀ n, v ≠ .int32 n := by
  unfold optionalInt32 at h
  split at h
  · cases h
  · cases h
  · rename_i v hv
    simp only [Except.error.injEq] at h
    exact ⟨h.symm, v, rfl, fun n hn => hv n hn⟩

/-- C16, refuted as stated: for a record without any sub-record, and for one whose only
sub-record has no property, no int32 `ID` can be read, yet `getItemProperties` returns no
error: it returns the zero properties. -/
theorem getItemProperties_empty_counterexample :
    getItemProperties [] = .ok { ZoneID := 0, ID := 0, ParentQuestID := 0 } ∧
      getItemProperties [{ Properties := [], Components := [] }] =
        .ok { ZoneID := 0, ID := 0, ParentQuestID := 0 } :=
  ⟨rfl, rfl⟩

/-- C16, amended: `getItemProperties` reads the first sub-record that has at least one
property. It returns an error whenever that sub-record has no int32 `ID` property (absent
or of another variant) and returns no error only with `ID` set to that int32 `ID`;
`ZoneID` and `ParentQuestID` are 0 when absent and cause an error when present with a
non-int32 variant; with all three well-formed it succeeds. When no sub-record has a
property it returns no error, with `ID`, `ZoneID` and `ParentQuestID` all 0. -/
theorem getItemProperties_spec (pre post : List UObject) (obj : UObject)
    (hpre : ∀ o ∈ pre, o.Properties = []) :
    getItemProperties pre = .ok { ZoneID := 0, ID := 0, ParentQuestID := 0 } ∧
      (obj.Properties ≠ [] →
        ((∀ n, lookup obj.Properties "ID" ≠ some (.int32 n)) →
          ∃ msg, getItemProperties (pre ++ obj :: post) = .error (.error msg)) ∧
        (∀ p, getItemProperties (pre ++ obj :: post) = .ok p →
          lookup obj.Properties "ID" = some (.int32 p.ID) ∧
          ((lookup obj.Properties "ZoneID" = none ∧ p.ZoneID = 0) ∨
            lookup obj.Properties "ZoneID" = some (.int32 p.ZoneID)) ∧
          ((lookup obj.Properties "ParentQuestID" = none ∧ p.ParentQuestID = 0) ∨
            lookup obj.Properties "ParentQuestID" = some (.int32 p.ParentQuestID))) ∧
        (∀ v, lookup obj.Properties "ZoneID" = some v → (∀ n, v ≠ .int32 n) →
          getItemProperties (pre ++ obj :: post) = .error (.error "could not parse zoneID")) ∧
        (∀ v, lookup obj.Properties "ParentQuestID" = some v → (∀ n, v ≠ .int32 n) →
          ∃ msg, getItemProperties (pre ++ obj :: post) = .error (.error msg)) ∧
        (∀ zoneID id parentQuestID,
          optionalInt32 "could not parse zoneID" 0 (lookup obj.Properties "ZoneID") =
            .ok zoneID →
          lookup obj.Properties "ID" = some (.int32 id) →
          optionalInt32 "could not parse ParentQuestID" 0
            (lookup obj.Properties "ParentQuestID") = .ok parentQuestID →
          getItemProperties (pre ++ obj :: post) =
            .ok { ZoneID := zoneID, ID := id, ParentQuestID := parentQuestID })) := by
  refine ⟨?_, fun hobj => ?_⟩
  · have := getItemProperties_skip pre [] hpre
    rw [List.append_nil] at this
    rw [this]
    rfl
  · rw [getItemProperties_skip pre (obj :: post) hpre, getItemProperties_cons obj post hobj]
    refine ⟨?_, ?_, ?_, ?_, ?_⟩
    · intro hid
      cases hz : optionalInt32 "could not parse zoneID" 0 (lookup obj.Properties "ZoneID") with
      | error e => exact ⟨_, by rw [(optionalInt32_error _ _ e hz).1]⟩
      | ok zoneID =>
        cases hl : lookup obj.Properties "ID" with
        | none => exact ⟨_, rfl⟩
        | some v =>
          cases v with
          | int32 n => exact absurd hl (hid n)
          | _ => exact ⟨_, rfl⟩
    · intro p hp
      cases hz : optionalInt32 "could not parse zoneID" 0 (lookup obj.Properties "ZoneID") with
      | error e => simp [hz] at hp
      | ok zoneID =>
        simp only [hz] at hp
        split at hp
        · rename_i id hid
          cases hq : optionalInt32 "could not parse ParentQuestID" 0
              (lookup obj.Properties "ParentQuestID") with
          | error e => simp [hq] at hp
          | ok parentQuestID =>
            simp only [hq, Except.ok.injEq] at hp
            subst hp
            refine ⟨hid, ?_, ?_⟩
            · rcases optionalInt32_ok _ _ _ hz with ⟨h1, h2⟩ | h1
              · exact Or.inl ⟨h1, h2⟩
              · exact Or.inr h1
            · rcases optionalInt32_ok _ _ _ hq with ⟨h1, h2⟩ | h1
              · exact Or.inl ⟨h1, h2⟩
              · exact Or.inr h1
        · cases hp
    · intro v hv hno
      have : optionalInt32 "could not parse zoneID" 0 (lookup obj.Properties "ZoneID") =
          .error (.error "could not parse zoneID") := by
        rw [hv]
        cases v with
        | int32 n => exact absurd rfl (hno n)
        | _ => rfl
      rw [this]
    · intro v hv hno
      have hq : optionalInt32 "could not parse ParentQuestID" 0
          (lookup obj.Properties "ParentQuestID") =
          .error (.error "could not parse ParentQuestID") := by
        rw [hv]
        cases v with
        | int32 n => exact absurd rfl (hno n)
        | _ => rfl
      cases hz : optionalInt32 "could not parse zoneID" 0 (lookup obj.Properties "ZoneID") with
      | error e => exact ⟨_, by rw [(optionalInt32_error _ _ e hz).1]⟩
      | ok zoneID =>
        simp only
        split
        · exact ⟨_, by rw [hq]⟩
        · exact ⟨_, rfl⟩
    · intro zoneID id parentQuestID hz hid hq
      rw [hz]
      simp only [hid, hq]

/-- Witness of the amended C16: an empty sub-record before one with `ID` 7 and `ZoneID` 2. -/
theorem getItemProperties_spec_witness :
    getItemProperties [{ Properties := [], Components := [] }] =
        .ok { ZoneID := 0, ID := 0, ParentQuestID := 0 } ∧
      getItemProperties ([{ Properties := [], Components := [] }] ++
          { Properties := [("ID", .int32 7), ("ZoneID", .int32 2)], Components := [] } :: []) =
        .ok { ZoneID := 2, ID := 7, ParentQuestID := 0 } :=
  ⟨(getItemProperties_spec [{ Properties := [], Components := [] }] []
      { Properties := [("ID", .int32 7), ("ZoneID", .int32 2)], Components := [] }
      (by
        intro o ho
        rw [List.mem_singleton] at ho
        subst ho
        rfl)).1,
    ((getItemProperties_spec [{ Properties := [], Components := [] }] []
      { Properties := [("ID", .int32 7), ("ZoneID", .int32 2)], Components := [] }
      (by
        intro o ho
        rw [List.mem_singleton] at ho
        subst ho
        rfl)).2 (by simp)).2.2.2.2 2 7 0 rfl rfl rfl⟩

/-! ## Zone extraction -/

theorem asMap_error (x : Option Value) (e : Fail) (h : asMap x = .error e) : e = .panic := by
  unfold asMap at h
  split at h <;> simp_all

theorem asInt32_error (x : Option Value) (e : Fail) (h : asInt32 x = .error e) :
    e = .panic := by
  unfold asInt32 at h
  split at h <;> simp_all

theorem asString_error (x : Option Value) (e : Fail) (h : asString x = .error e) :
    e = .panic := by
  unfold asString at h
  split at h <;> simp_all

theorem asText_error (x : Option Value) (e : Fail) (h : asText x = .error e) :
    e = .panic := by
  unfold asText at h
  split at h <;> simp_all

theorem asEnum_error (x : Option Value) (e : Fail) (h : asEnum x = .error e) :
    e = .panic := by
  unfold asEnum at h
  split at h <;> simp_all

theorem asArray_error (x : Option Value) (e : Fail) (h : asArray x = .error e) :
    e = .panic := by
  unfold asArray at h
  split at h <;> simp_all

theorem zoneLinkOf_error (zoneLink : Value) (e : Fail) (h : zoneLinkOf zoneLink = .error e) :
    e = .panic := by
  unfold zoneLinkOf at h
  simp only [bind, Except.bind] at h
  repeat' split at h
  all_goals cases h
  all_goals first
    | exact asMap_error _ _ (by assumption)
    | exact asInt32_error _ _ (by assumption)
    | exact asString_error _ _ (by assumption)
    | exact asText_error _ _ (by assumption)
    | exact asEnum_error _ _ (by assumption)

theorem zoneLinksLoop_error (items : List Value) (acc : List ZoneLinkInfo) (e : Fail)
    (h : zoneLinksLoop items acc = .error e) : e = .panic := by
  induction items generalizing acc with
  | nil => simp [zoneLinksLoop] at h
  | cons v rest ih =>
    rw [zoneLinksLoop] at h
    simp only [bind, Except.bind] at h
    cases hl : zoneLinkOf v with
    | error e' =>
      simp only [hl, Except.error.injEq] at h
      subst h
      exact zoneLinkOf_error v e' hl
    | ok link =>
      simp only [hl] at h
      exact ih _ h

/-- One iteration of the loop of `getZoneActor` on a sub-record with properties. -/
theorem getZoneActorLoop_cons (obj : UObject) (rest : List UObject) (zoneInfo : ZoneActor)
    (hobj : obj.Properties ≠ []) :
    getZoneActorLoop (obj :: rest) zoneInfo =
      match asText (lookup obj.Properties "Label") with
      | .error e => .error e
      | .ok label =>
        match asArray (lookup obj.Properties "ZoneLinks") with
        | .error e => .error e
        | .ok items =>
          match zoneLinksLoop items zoneInfo.ZoneLinks with
          | .error e => .error e
          | .ok zoneLinks =>
            getZoneActorLoop rest
              { zoneInfo with
                ID := int32Or zoneInfo.ID (lookup obj.Properties "ID"),
                ParentZoneID := int32Or zoneInfo.ParentZoneID (lookup obj.Properties "ParentZoneID"),
                QuestID := int32Or zoneInfo.QuestID (lookup obj.Properties "QuestID"),
                Label := getTextPropertyValue label, ZoneLinks := zoneLinks } := by
  have hlen : obj.Properties.length ≠ 0 := fun h => hobj (List.length_eq_zero.mp h)
  rw [getZoneActorLoop]
  simp only [hlen, if_false, bind, Except.bind]
  cases asText (lookup obj.Properties "Label") with
  | error e => rfl
  | ok label =>
    simp only
    cases asArray (lookup obj.Properties "ZoneLinks") with
    | error e => rfl
    | ok items =>
      simp only
      cases zoneLinksLoop items zoneInfo.ZoneLinks <;> rfl

theorem getZoneActorLoop_skip (obj : UObject) (rest : List UObject) (zoneInfo : ZoneActor)
    (hobj : obj.Properties = []) :
    getZoneActorLoop (obj :: rest) zoneInfo = getZoneActorLoop rest zoneInfo := by
  rw [getZoneActorLoop]
  simp [hobj]

theorem getZoneActorLoop_error (objects : List UObject) (zoneInfo : ZoneActor) (e : Fail)
    (h : getZoneActorLoop objects zoneInfo = .error e) : e = .panic := by
  induction objects generalizing zoneInfo with
  | nil => simp [getZoneActorLoop] at h
  | cons obj rest ih =>
    by_cases hobj : obj.Properties = []
    · rw [getZoneActorLoop_skip obj rest zoneInfo hobj] at h
      exact ih _ h
    · rw [getZoneActorLoop_cons obj rest zoneInfo hobj] at h
      cases ht : asText (lookup obj.Properties "Label") with
      | error e' =>
        simp only [ht, Except.error.injEq] at h
        subst h
        exact asText_error _ _ ht
      | ok label =>
        simp only [ht] at h
        cases ha : asArray (lookup obj.Properties "ZoneLinks") with
        | error e' =>
          simp only [ha, Except.error.injEq] at h
          subst h
          exact asArray_error _ _ ha
        | ok items =>
          simp only [ha] at h
          cases hz : zoneLinksLoop items zoneInfo.ZoneLinks with
          | error e' =>
            simp only [hz, Except.error.injEq] at h
            subst h
            exact zoneLinksLoop_error _ _ _ hz
          | ok links =>
            simp only [hz] at h
            exact ih _ h

theorem int32Or_of_not_int32 (current : Int) (x : Option Value)
    (h : ∀ n, x ≠ some (.int32 n)) : int32Or current x = current := by
  unfold int32Or
  split
  · rename_i n
    exact absurd rfl (h n)
  · rfl

/-- C17, refuted as stated: a zone record whose `ID` has the wrong variant (a string) is
extracted without failure; the returned zone has `ID` 0. -/
theorem getZoneActor_wrong_id_counterexample :
    ∃ z, getZoneActor [zoneObject (.str "7")] = .ok z ∧ z.ID = 0 ∧
      lookup (zoneObject (.str "7")).Properties "ID" = some (.str "7") :=
  ⟨_, rfl, rfl, rfl⟩

/-- C17, amended: `getZoneActor` never returns an error (it has no error result). On a
sub-record with properties, a `Label` that is not a text property or a `ZoneLinks` that is
not an array of structs (wrong variant or absent) makes it panic instead of returning a
zone, while an `ID`, `ParentZoneID` or `QuestID` of the wrong variant is ignored: the field
keeps its previous value (0 at the start) and the extraction goes on. -/
theorem getZoneActor_wrong_variant (obj : UObject) (rest : List UObject)
    (zoneInfo : ZoneActor) (hobj : obj.Properties ≠ []) :
    (∀ objects e, getZoneActor objects = .error e → e = .panic) ∧
      ((∀ data, lookup obj.Properties "Label" ≠ some (.text data)) →
        getZoneActorLoop (obj :: rest) zoneInfo = .error .panic) ∧
      ((∀ items, lookup obj.Properties "ZoneLinks" ≠ some (.array items)) →
        getZoneActorLoop (obj :: rest) zoneInfo = .error .panic) ∧
      (∀ data items zoneLinks, lookup obj.Properties "Label" = some (.text data) →
        lookup obj.Properties "ZoneLinks" = some (.array items) →
        zoneLinksLoop items zoneInfo.ZoneLinks = .ok zoneLinks →
        getZoneActorLoop (obj :: rest) zoneInfo =
          getZoneActorLoop rest
            { zoneInfo with
              ID := int32Or zoneInfo.ID (lookup obj.Properties "ID"),
              ParentZoneID := int32Or zoneInfo.ParentZoneID (lookup obj.Properties "ParentZoneID"),
              QuestID := int32Or zoneInfo.QuestID (lookup obj.Properties "QuestID"),
              Label := getTextPropertyValue data, ZoneLinks := zoneLinks }) ∧
      ∀ current x, (∀ n, x ≠ some (.int32 n)) → int32Or current x = current := by
  refine ⟨fun objects e h => getZoneActorLoop_error objects _ e h, ?_, ?_, ?_,
    int32Or_of_not_int32⟩
  · intro hl
    have ht : asText (lookup obj.Properties "Label") = .error .panic := by
      unfold asText
      split
      · rename_i data h
        exact absurd h (hl data)
      · rfl
    rw [getZoneActorLoop_cons obj rest zoneInfo hobj, ht]
  · intro hz
    have ha : asArray (lookup obj.Properties "ZoneLinks") = .error .panic := by
      unfold asArray
      split
      · rename_i items h
        exact absurd h (hz items)
      · rfl
    rw [getZoneActorLoop_cons obj rest zoneInfo hobj]
    cases ht : asText (lookup obj.Properties "Label") with
    | error e => rw [asText_error _ _ ht]
    | ok label => simp only [ha]
  · intro data items zoneLinks hl hz hloop
    rw [getZoneActorLoop_cons obj rest zoneInfo hobj]
    simp only [hl, hz, asText, asArray, hloop]

/-- Witness of the amended C17 on a sub-record whose `ID` is a string. -/
theorem getZoneActor_wrong_variant_witness :
    getZoneActorLoop (zoneObject (.str "7") :: []) (bareZone 4 3) =
      getZoneActorLoop []
        { bareZone 4 3 with
          ID := int32Or (bareZone 4 3).ID (lookup (zoneObject (.str "7")).Properties "ID"),
          ParentZoneID := int32Or (bareZone 4 3).ParentZoneID
            (lookup (zoneObject (.str "7")).Properties "ParentZoneID"),
          QuestID := int32Or (bareZone 4 3).QuestID
            (lookup (zoneObject (.str "7")).Properties "QuestID"),
          Label := getTextPropertyValue (.textData ""), ZoneLinks := [] } :=
  (getZoneActor_wrong_variant (zoneObject (.str "7")) [] (bareZone 4 3)
    (by simp [zoneObject])).2.2.2.1 (.textData "") [] [] rfl rfl rfl

/-! ## Instance location -/

theorem hasPersistentLevelKey_of_noLevelKey (obj : SaveObject) (h : NoLevelKey obj) :
    hasPersistentLevelKey obj.Properties = .ok false := by
  unfold hasPersistentLevelKey
  rcases h with h | ⟨key, h, hs⟩
  · rw [h]
  · rw [h]
    simp only [hs]

theorem findAdventureObject_skip (pre rest : List SaveObject)
    (hpre : ∀ o ∈ pre, NoLevelKey o) :
    findAdventureObject (pre ++ rest) = findAdventureObject rest := by
  induction pre with
  | nil => rfl
  | cons o pre ih =>
    rw [List.cons_append, findAdventureObject]
    simp only [hasPersistentLevelKey_of_noLevelKey o (hpre o (List.mem_cons_self _ _)), bind,
      Except.bind]
    exact ih (fun o' ho' => hpre o' (List.mem_cons_of_mem _ ho'))

/-- C18, refuted as stated: in an archive whose only top-level record has an integer
`Key`, no record has a string `Key` ending with the marker, yet `findAdventure` does not
return an error: the assertion `propValue.(string)` panics; the same happens when such a
record precedes the persistent-level record. -/
theorem findAdventure_int_key_counterexample :
    findAdventureObject [intKeyObject] = .error .panic ∧
      findAdventureActors [intKeyObject] = .error .panic ∧
      findAdventureObject
        [intKeyObject, keyedContainer "/Game/World/Main.Main:PersistentLevel" []] =
          .error .panic :=
  ⟨rfl, rfl, rfl⟩

/-- C18, amended: `findAdventure` uses as persistent-level record the first top-level
record, in order, whose string `Key` property ends with `Main.Main:PersistentLevel`,
provided every record before it has no `Key` property or a string `Key`; it returns the
error `could not find base properties` when every top-level record has no `Key` or a
string `Key` not ending with the marker. A `Key` of another variant met before a matching
record makes `findAdventure` panic. -/
theorem findAdventure_persistent_level (pre post : List SaveObject) (obj : SaveObject)
    (hpre : ∀ o ∈ pre, NoLevelKey o) :
    (findAdventureObject pre = .error (.error "could not find base properties") ∧
        findAdventureActors pre = .error (.error "could not find base properties")) ∧
      (∀ key, lookupSave obj.Properties "Key" = some (.value (.str key)) →
        stringsHasSuffix key persistentLevelSuffix = true →
        findAdventureObject (pre ++ obj :: post) = .ok obj ∧
        findAdventureActors (pre ++ obj :: post) =
          (do
            let adventureActor ← findAdventureActor obj
            let actors ←
              containerActors (pre ++ obj :: post) (adventureID adventureActor.Archive)
            .ok (adventureActor, actors))) ∧
      (∀ v, lookupSave obj.Properties "Key" = some v → (∀ key, v ≠ .value (.str key)) →
        findAdventureObject (pre ++ obj :: post) = .error .panic ∧
        findAdventureActors (pre ++ obj :: post) = .error .panic) := by
  have hnone : findAdventureObject pre = .error (.error "could not find base properties") := by
    have := findAdventureObject_skip pre [] hpre
    rw [List.append_nil] at this
    rw [this]
    rfl
  refine ⟨⟨hnone, ?_⟩, ?_, ?_⟩
  · unfold findAdventureActors
    rw [hnone]
    rfl
  · intro key hkey hsuf
    have hobj : findAdventureObject (pre ++ obj :: post) = .ok obj := by
      rw [findAdventureObject_skip pre (obj :: post) hpre, findAdventureObject]
      simp [hasPersistentLevelKey, hkey, hsuf, bind, Except.bind]
    refine ⟨hobj, ?_⟩
    unfold findAdventureActors
    rw [hobj]
    rfl
  · intro v hv hno
    have hobj : findAdventureObject (pre ++ obj :: post) = .error .panic := by
      rw [findAdventureObject_skip pre (obj :: post) hpre, findAdventureObject]
      have hp : hasPersistentLevelKey obj.Properties = .error .panic := by
        unfold hasPersistentLevelKey
        rw [hv]
        cases v with
        | value w =>
          cases w with
          | str key => exact absurd rfl (hno key)
          | _ => rfl
        | _ => rfl
      simp [hp, bind, Except.bind]
    refine ⟨hobj, ?_⟩
    unfold findAdventureActors
    rw [hobj]
    rfl

/-- Witness of the amended C18: the persistent-level record comes second. -/
theorem findAdventure_persistent_level_witness :
    findAdventureObject
        ([keyedContainer "/Game/Quest_0_Container" []] ++
          keyedContainer "/Game/World/Main.Main:PersistentLevel" [] :: []) =
      .ok (keyedContainer "/Game/World/Main.Main:PersistentLevel" []) :=
  ((findAdventure_persistent_level [keyedContainer "/Game/Quest_0_Container" []] []
      (keyedContainer "/Game/World/Main.Main:PersistentLevel" [])
      (by
        intro o ho
        rw [List.mem_singleton] at ho
        subst ho
        exact Or.inr ⟨"/Game/Quest_0_Container", rfl, by decide⟩)).2.1
    "/Game/World/Main.Main:PersistentLevel" rfl (by decide)).1

theorem adventureID_of_no_id (objects : List UObject)
    (h : ∀ o ∈ objects, ∀ n, lookup o.Properties "ID" ≠ some (.int32 n)) :
    adventureID objects = 0 := by
  induction objects with
  | nil => rfl
  | cons o rest ih =>
    rw [adventureID]
    have ho := h o (List.mem_cons_self _ _)
    split
    · rename_i id hid
      exact absurd hid (ho id)
    · exact ih (fun o' ho' => h o' (List.mem_cons_of_mem _ ho'))

theorem findAdventureContainerObject_error (id : Int) (objects : List SaveObject)
    (found : Option SaveObject) (e : Fail)
    (h : findAdventureContainerObject id objects found = .error e) : e = .panic := by
  induction objects generalizing found with
  | nil => simp [findAdventureContainerObject] at h
  | cons o rest ih =>
    rw [findAdventureContainerObject] at h
    split at h
    · exact ih _ h
    · split at h
      · exact ih _ h
      · exact ih _ h
    · simp only [Except.error.injEq] at h
      exact h.symm

theorem asContainer_error (x : Option SaveValue) (e : Fail) (h : asContainer x = .error e) :
    e = .panic := by
  unfold asContainer at h
  split at h <;> simp_all

theorem containerActors_error (objects : List SaveObject) (id : Int) (e : Fail)
    (h : containerActors objects id = .error e) : e = .panic := by
  unfold containerActors at h
  simp only [bind, Except.bind] at h
  cases hf : findAdventureContainerObject id objects none with
  | error e' =>
    simp only [hf, Except.error.injEq] at h
    subst h
    exact findAdventureContainerObject_error id objects none e' hf
  | ok found =>
    simp only [hf] at h
    cases found with
    | none =>
      simp only [Except.error.injEq] at h
      exact h.symm
    | some c => exact asContainer_error _ _ h

/-- C19, refuted as stated: the adventure-mode actor has a non-empty archive without any
`ID` property, yet `findAdventure` returns no error: it goes on with the id 0 and finds
the session container whose key starts with `/Game/Quest_0_Container`. -/
theorem findAdventure_missing_id_counterexample :
    (∀ o ∈ (adventureActorWith [("Name", .str "x")]).Archive,
        ∀ n, lookup o.Properties "ID" ≠ some (.int32 n)) ∧
      (adventureActorWith [("Name", .str "x")]).Archive ≠ [] ∧
      findAdventureActors
        [keyedContainer "/Game/World/Main.Main:PersistentLevel"
            [adventureActorWith [("Name", .str "x")]],
          keyedContainer "/Game/Quest_0_Container_1"
            [{ ClassPathName := "ZoneActor", Archive := [] }]] =
        .ok (adventureActorWith [("Name", .str "x")],
          [{ ClassPathName := "ZoneActor", Archive := [] }]) := by
  refine ⟨?_, by simp [adventureActorWith], rfl⟩
  intro o ho n
  simp only [adventureActorWith, List.mem_singleton] at ho
  subst ho
  simp [lookup]

/-- C19, amended: when the adventure-mode actor has a non-empty archive in which no
sub-record carries an int32 `ID` property, `findAdventure` returns no error at this point:
the id is 0 and it goes on to look up the session container under the key prefix
`/Game/Quest_0_Container`; from there it either finds the actors of that container or
panics. -/
theorem findAdventure_missing_id (objects : List SaveObject) (adventureObject : SaveObject)
    (adventureActor : Actor)
    (hobj : findAdventureObject objects = .ok adventureObject)
    (hactor : findAdventureActor adventureObject = .ok adventureActor)
    (hno : ∀ o ∈ adventureActor.Archive, ∀ n, lookup o.Properties "ID" ≠ some (.int32 n)) :
    adventureID adventureActor.Archive = 0 ∧
      containerKey (adventureID adventureActor.Archive) = "/Game/Quest_0_Container" ∧
      findAdventureActors objects =
        (do
          let actors ← containerActors objects 0
          .ok (adventureActor, actors)) ∧
      ∀ msg, findAdventureActors objects ≠ .error (.error msg) := by
  have hid := adventureID_of_no_id adventureActor.Archive hno
  have heq : findAdventureActors objects =
      (do
        let actors ← containerActors objects 0
        .ok (adventureActor, actors)) := by
    unfold findAdventureActors
    rw [hobj]
    simp only [bind, Except.bind, hactor, hid]
  refine ⟨hid, by rw [hid]; decide, heq, fun msg hmsg => ?_⟩
  rw [heq] at hmsg
  simp only [bind, Except.bind] at hmsg
  cases hc : containerActors objects 0 with
  | error e =>
    rw [hc] at hmsg
    simp only [Except.error.injEq] at hmsg
    rw [containerActors_error objects 0 e hc] at hmsg
    cases hmsg
  | ok actors =>
    rw [hc] at hmsg
    cases hmsg

/-- Witness of the amended C19. -/
theorem findAdventure_missing_id_witness :
    adventureID (adventureActorWith [("Name", .str "x")]).Archive = 0 ∧
      containerKey (adventureID (adventureActorWith [("Name", .str "x")]).Archive) =
        "/Game/Quest_0_Container" ∧
      findAdventureActors
          [keyedContainer "/Game/World/Main.Main:PersistentLevel"
            [adventureActorWith [("Name", .str "x")]]] =
        (do
          let actors ← containerActors
            [keyedContainer "/Game/World/Main.Main:PersistentLevel"
              [adventureActorWith [("Name", .str "x")]]] 0
          .ok (adventureActorWith [("Name", .str "x")], actors)) ∧
      ∀ msg, findAdventureActors
          [keyedContainer "/Game/World/Main.Main:PersistentLevel"
            [adventureActorWith [("Name", .str "x")]]] ≠ .error (.error msg) :=
  findAdventure_missing_id
    [keyedContainer "/Game/World/Main.Main:PersistentLevel"
      [adventureActorWith [("Name", .str "x")]]]
    (keyedContainer "/Game/World/Main.Main:PersistentLevel"
      [adventureActorWith [("Name", .str "x")]])
    (adventureActorWith [("Name", .str "x")]) rfl rfl
    (by
      intro o ho n
      simp only [adventureActorWith, List.mem_singleton] at ho
      subst ho
      simp [lookup])

/-! ## Active character -/

theorem activeCharacter_skip (pre rest : List SaveObject)
    (hpre : ∀ o ∈ pre, o.LoadedDataName = profileClass →
      lookupSave o.Properties "ActiveCharacterIndex" = none) :
    activeCharacter (pre ++ rest) = activeCharacter rest := by
  induction pre with
  | nil => rfl
  | cons o pre ih =>
    rw [List.cons_append, activeCharacter]
    have ih' := ih (fun o' ho' => hpre o' (List.mem_cons_of_mem _ ho'))
    by_cases hc : o.LoadedDataName = profileClass
    · simp only [hc, if_true, hpre o (List.mem_cons_self _ _) hc]
      exact ih'
    · simp only [hc, if_false]
      exact ih'

theorem refreshProfile_eq (objects : List SaveObject) :
    refreshProfile objects =
      match activeCharacter objects with
      | .error e => .error e
      | .ok activeCharacterID =>
        match charactersLoop objects (fun _ => none) with
        | .error e => .error e
        | .ok charactersData => .ok (charactersData, activeCharacterID) := by
  unfold refreshProfile
  simp only [bind, Except.bind]
  cases activeCharacter objects with
  | error e => rfl
  | ok id =>
    simp only
    cases charactersLoop objects (fun _ => none) <;> rfl

theorem charactersLoop_of_no_character (objects : List SaveObject)
    (charactersData : Int → Option CharacterData)
    (h : ∀ o ∈ objects, o.LoadedDataName ≠ "SavedCharacter") :
    charactersLoop objects charactersData = .ok charactersData := by
  induction objects with
  | nil => rfl
  | cons o rest ih =>
    rw [charactersLoop]
    simp only [h o (List.mem_cons_self _ _), if_false]
    exact ih (fun o' ho' => h o' (List.mem_cons_of_mem _ ho'))

/-- C20: on a decoded profile archive, the active character id that the resolver returns
is the int32 `ActiveCharacterIndex` of the first profile record (class
`BP_RemnantSaveGameProfile_C`) that has that property, and -1 when no profile record has
it; the resolver returns the error `could not parse active character` when that property
is present with a non-int32 variant. The resolver returns whenever the saved characters
decode, in particular when there is none. -/
theorem refreshProfile_active_character (pre post : List SaveObject) (obj : SaveObject)
    (hpre : ∀ o ∈ pre, o.LoadedDataName = profileClass →
      lookupSave o.Properties "ActiveCharacterIndex" = none) :
    ((∀ r, refreshProfile pre = .ok r → r.2 = -1) ∧
        (∀ charactersData, charactersLoop pre (fun _ => none) = .ok charactersData →
          refreshProfile pre = .ok (charactersData, -1))) ∧
      (obj.LoadedDataName = profileClass →
        (∀ n, lookupSave obj.Properties "ActiveCharacterIndex" = some (.value (.int32 n)) →
          (∀ r, refreshProfile (pre ++ obj :: post) = .ok r → r.2 = n) ∧
          (∀ charactersData,
            charactersLoop (pre ++ obj :: post) (fun _ => none) = .ok charactersData →
            refreshProfile (pre ++ obj :: post) = .ok (charactersData, n))) ∧
        (∀ v, lookupSave obj.Properties "ActiveCharacterIndex" = some v →
          (∀ n, v ≠ .value (.int32 n)) →
          refreshProfile (pre ++ obj :: post) =
            .error (.error "could not parse active character"))) ∧
      ∀ objects : List SaveObject, (∀ o ∈ objects, o.LoadedDataName ≠ "SavedCharacter") →
        charactersLoop objects (fun _ => none) = .ok (fun _ => none) := by
  have hnone : activeCharacter pre = .ok (-1) := by
    have := activeCharacter_skip pre [] hpre
    rw [List.append_nil] at this
    rw [this]
    rfl
  refine ⟨⟨?_, ?_⟩, fun hclass => ⟨?_, ?_⟩,
    fun objects h => charactersLoop_of_no_character objects _ h⟩
  · intro r hr
    rw [refreshProfile_eq, hnone] at hr
    simp only at hr
    cases hc : charactersLoop pre (fun _ => none) with
    | error e => simp [hc] at hr
    | ok cs =>
      simp only [hc, Except.ok.injEq] at hr
      rw [← hr]
  · intro cs hcs
    rw [refreshProfile_eq, hnone]
    simp only [hcs]
  · intro n hn
    have hact : activeCharacter (pre ++ obj :: post) = .ok n := by
      rw [activeCharacter_skip pre (obj :: post) hpre, activeCharacter]
      simp only [hclass, if_true, hn]
    refine ⟨fun r hr => ?_, fun cs hcs => ?_⟩
    · rw [refreshProfile_eq, hact] at hr
      simp only at hr
      cases hc : charactersLoop (pre ++ obj :: post) (fun _ => none) with
      | error e => simp [hc] at hr
      | ok cs =>
        simp only [hc, Except.ok.injEq] at hr
        rw [← hr]
    · rw [refreshProfile_eq, hact]
      simp only [hcs]
  · intro v hv hno
    have hact : activeCharacter (pre ++ obj :: post) =
        .error (.error "could not parse active character") := by
      rw [activeCharacter_skip pre (obj :: post) hpre, activeCharacter]
      rw [if_pos hclass, hv]
      cases v with
      | value w =>
        cases w with
        | int32 n => exact absurd rfl (hno n)
        | _ => rfl
      | _ => rfl
    rw [refreshProfile_eq, hact]

/-- Witness of C20: the profile reports `ActiveCharacterIndex = 3` and a character with
`ID` 3 exists; the resolver returns the active character id 3 and that character. -/
theorem refreshProfile_active_character_witness :
    ∃ charactersData,
      refreshProfile ([] ++ profileObject [("ActiveCharacterIndex", .value (.int32 3))] ::
          [savedCharacter 3]) = .ok (charactersData, 3) ∧
        (charactersData 3).map (fun c => (c.ID, c.Archetype, c.Items)) =
          some (3, "Hunter / Medic", ["Sword"]) :=
  ⟨_,
    (((refreshProfile_active_character [] [savedCharacter 3]
          (profileObject [("ActiveCharacterIndex", .value (.int32 3))])
          (by intro o ho; cases ho)).2.1 rfl).1 3 rfl).2 _ rfl,
    by decide⟩

/-! ## Root selection among several candidates -/

/-- C26, refuted as stated: with the root candidates at positions 0 and 2, `buildTree`
returns the candidate at position 2, the last one, not the first. -/
theorem buildTree_first_candidate_counterexample :
    RootCandidate (linkedZone 1 0 "A" "B") ∧ RootCandidate (linkedZone 2 0 "C" "None") ∧
      (buildTree [linkedZone 1 0 "A" "B", bareZone 5 1, linkedZone 2 0 "C" "None"]).2 =
        some 2 :=
  ⟨⟨rfl, linkTo "A" "B", by simp [linkedZone], Or.inl (by decide)⟩,
    ⟨rfl, linkTo "C" "None", by simp [linkedZone], Or.inl (by decide)⟩, by decide⟩

/-- C26, amended: for every list of zones with more than one root candidate (parentless
zone with a non-`"None"` link), `buildTree` returns the last candidate in input order:
every candidate is at or before the returned root, which is therefore not the first
one. -/
theorem buildTree_last_candidate (zones : List ZoneActor) (i j : Nat) (zi zj : ZoneActor)
    (hij : i < j) (hi : zones[i]? = some zi) (hj : zones[j]? = some zj)
    (hci : RootCandidate zi) (hcj : RootCandidate zj) :
    ∃ r z, (buildTree zones).2 = some r ∧ zones[r]? = some z ∧ RootCandidate z ∧ r ≠ i ∧
      ∀ k z', zones[k]? = some z' → RootCandidate z' → k ≤ r := by
  obtain ⟨r, hr, hjr⟩ := buildTree_root_isSome zones j ((isCand_iff zones j).mpr ⟨zj, hj, hcj⟩)
  obtain ⟨h1, h2⟩ := (buildTree_root_iff zones r).mp hr
  obtain ⟨z, hz, hcz⟩ := (isCand_iff zones r).mp h1
  refine ⟨r, z, hr, hz, hcz, by omega, fun k z' hk hc => ?_⟩
  by_contra hlt
  have hfalse := h2 k (by omega)
  rw [isCand_eq_false_iff] at hfalse
  exact hfalse z' hk hc

/-- Witness of the amended C26. -/
theorem buildTree_last_candidate_witness :
    ∃ r z, (buildTree [linkedZone 1 0 "A" "B", bareZone 5 1, linkedZone 2 0 "C" "None"]).2 =
        some r ∧
      [linkedZone 1 0 "A" "B", bareZone 5 1, linkedZone 2 0 "C" "None"][r]? = some z ∧
      RootCandidate z ∧ r ≠ 0 ∧
      ∀ k z', [linkedZone 1 0 "A" "B", bareZone 5 1, linkedZone 2 0 "C" "None"][k]? = some z' →
        RootCandidate z' → k ≤ r :=
  buildTree_last_candidate [linkedZone 1 0 "A" "B", bareZone 5 1, linkedZone 2 0 "C" "None"]
    0 2 (linkedZone 1 0 "A" "B") (linkedZone 2 0 "C" "None") (by decide) rfl rfl
    ⟨rfl, linkTo "A" "B", by simp [linkedZone], Or.inl (by decide)⟩
    ⟨rfl, linkTo "C" "None", by simp [linkedZone], Or.inl (by decide)⟩

/-! ## Order of the results of `processItems` -/

theorem rewardSpawn_ids (characterItems : List String) (rewardIdx idx : Nat) (item : Value)
    (s : LootSpawn) (h : rewardSpawn characterItems rewardIdx idx item = .ok s) :
    s.ID = idx ∧ s.RewardID = rewardIdx := by
  unfold rewardSpawn at h
  simp only [bind, Except.bind] at h
  repeat' split at h
  all_goals cases h
  all_goals exact ⟨rfl, rfl⟩

theorem spawnsLoop_indexed (characterItems : List String) (rewardIdx : Nat)
    (spawns : List Value) (idx : Nat) (acc out : List LootSpawn)
    (h : spawnsLoop characterItems rewardIdx spawns idx acc = .ok out) :
    ∃ news, out = acc ++ news ∧ news.length = spawns.length ∧
      ∀ j s, news[j]? = some s →
        ∃ spawn, spawns[j]? = some spawn ∧
          rewardSpawn characterItems rewardIdx (idx + j) spawn = .ok s := by
  induction spawns generalizing idx acc with
  | nil =>
    simp only [spawnsLoop, Except.ok.injEq] at h
    exact ⟨[], by simp [h], rfl, fun j s hj => by simp at hj⟩
  | cons v rest ih =>
    rw [spawnsLoop] at h
    simp only [bind, Except.bind] at h
    cases hs : rewardSpawn characterItems rewardIdx idx v with
    | error e => simp [hs] at h
    | ok s0 =>
      simp only [hs] at h
      obtain ⟨news, hout, hlen, hall⟩ := ih (idx + 1) (acc ++ [s0]) h
      refine ⟨s0 :: news, by simp [hout], by simp [hlen], fun j s hj => ?_⟩
      cases j with
      | zero =>
        simp only [List.getElem?_cons_zero, Option.some.injEq] at hj
        subst hj
        exact ⟨v, List.getElem?_cons_zero, hs⟩
      | succ j =>
        simp only [List.getElem?_cons_succ] at hj
        obtain ⟨spawn, hsp, hrs⟩ := hall j s hj
        refine ⟨spawn, by simpa using hsp, ?_⟩
        rw [← hrs]
        congr 1
        omega

theorem rewardsLoop_indexed (characterItems : List String) (rewards : List Value)
    (rewardIdx : Nat) (acc out : List LootSpawn)
    (h : rewardsLoop characterItems rewards rewardIdx acc = .ok out) :
    ∃ parts : List (List LootSpawn), out = acc ++ parts.flatten ∧
      parts.length = rewards.length ∧
      ∀ i part, parts[i]? = some part →
        ∃ rewardMap, rewards[i]? = some (.map rewardMap) ∧
          ((lookup rewardMap "Spawns" = none ∧ part = []) ∨
            ∃ spawns, lookup rewardMap "Spawns" = some (.array spawns) ∧
              part.length = spawns.length ∧
              ∀ j s, part[j]? = some s →
                ∃ spawn, spawns[j]? = some spawn ∧
                  rewardSpawn characterItems (rewardIdx + i) j spawn = .ok s) := by
  induction rewards generalizing rewardIdx acc with
  | nil =>
    simp only [rewardsLoop, Except.ok.injEq] at h
    exact ⟨[], by simp [h], rfl, fun i part hi => by simp at hi⟩
  | cons v rest ih =>
    rw [rewardsLoop] at h
    simp only [bind, Except.bind] at h
    cases hm : asMap (some v) with
    | error e => simp [hm] at h
    | ok rewardMap =>
      have hv : v = .map rewardMap := by
        have := (asMap_eq_ok (some v) rewardMap).mp hm
        simpa using this
      simp only [hm] at h
      have hshift : ∀ (parts : List (List LootSpawn)) (part0 : List LootSpawn),
          (∀ i part, parts[i]? = some part →
            ∃ rewardMap, rest[i]? = some (.map rewardMap) ∧
              ((lookup rewardMap "Spawns" = none ∧ part = []) ∨
                ∃ spawns, lookup rewardMap "Spawns" = some (.array spawns) ∧
                  part.length = spawns.length ∧
                  ∀ j s, part[j]? = some s →
                    ∃ spawn, spawns[j]? = some spawn ∧
                      rewardSpawn characterItems (rewardIdx + 1 + i) j spawn = .ok s)) →
          ((lookup rewardMap "Spawns" = none ∧ part0 = []) ∨
            ∃ spawns, lookup rewardMap "Spawns" = some (.array spawns) ∧
              part0.length = spawns.length ∧
              ∀ j s, part0[j]? = some s →
                ∃ spawn, spawns[j]? = some spawn ∧
                  rewardSpawn characterItems rewardIdx j spawn = .ok s) →
          ∀ i part, (part0 :: parts)[i]? = some part →
            ∃ rewardMap, (v :: rest)[i]? = some (.map rewardMap) ∧
              ((lookup rewardMap "Spawns" = none ∧ part = []) ∨
                ∃ spawns, lookup rewardMap "Spawns" = some (.array spawns) ∧
                  part.length = spawns.length ∧
                  ∀ j s, part[j]? = some s →
                    ∃ spawn, spawns[j]? = some spawn ∧
                      rewardSpawn characterItems (rewardIdx + i) j spawn = .ok s) := by
        intro parts part0 hparts h0 i part hi
        cases i with
        | zero =>
          simp only [List.getElem?_cons_zero, Option.some.injEq] at hi
          subst hi
          exact ⟨rewardMap, by simp [hv], by simpa using h0⟩
        | succ i =>
          simp only [List.getElem?_cons_succ] at hi
          obtain ⟨rm, hrm, hrest⟩ := hparts i part hi
          refine ⟨rm, by simpa using hrm, ?_⟩
          have harith : rewardIdx + 1 + i = rewardIdx + (i + 1) := by omega
          rw [harith] at hrest
          exact hrest
      cases hl : lookup rewardMap "Spawns" with
      | none =>
        simp only [hl] at h
        obtain ⟨parts, hout, hlen, hall⟩ := ih (rewardIdx + 1) acc h
        exact ⟨[] :: parts, by simp [hout], by simp [hlen],
          hshift parts [] hall (Or.inl ⟨hl, rfl⟩)⟩
      | some spawns =>
        simp only [hl] at h
        cases ha : asArray (some spawns) with
        | error e => simp [ha] at h
        | ok itemSpawns =>
          have hsp : spawns = .array itemSpawns := by
            have := (asArray_eq_ok (some spawns) itemSpawns).mp ha
            simpa using this
          simp only [ha] at h
          cases hsl : spawnsLoop characterItems rewardIdx itemSpawns 0 acc with
          | error e => simp [hsl] at h
          | ok acc' =>
            simp only [hsl] at h
            obtain ⟨news, hacc', hnlen, hnews⟩ :=
              spawnsLoop_indexed characterItems rewardIdx itemSpawns 0 acc acc' hsl
            obtain ⟨parts, hout, hlen, hall⟩ := ih (rewardIdx + 1) acc' h
            refine ⟨news :: parts, by simp [hout, hacc'], by simp [hlen],
              hshift parts news hall (Or.inr ⟨itemSpawns, by rw [hl, hsp], hnlen, ?_⟩)⟩
            intro j s hj
            obtain ⟨spawn, hspawn, hrs⟩ := hnews j s hj
            exact ⟨spawn, hspawn, by simpa using hrs⟩

theorem mkEvent_rewards_in_order (characterItems : List String) (item : ItemData) (e : Event)
    (rewards : List Value) (h : mkEvent characterItems item = .ok e)
    (hr : item.Components.Rewards = some rewards) :
    ∃ parts, e.Rewards = some parts.flatten ∧ RewardsInOrder characterItems rewards parts := by
  unfold mkEvent at h
  simp only [hr, bind, Except.bind] at h
  cases hl : rewardsLoop characterItems rewards 0 [] with
  | error e => simp [hl] at h
  | ok ls =>
    simp only [hl, Except.ok.injEq] at h
    rw [← h]
    obtain ⟨parts, hout, hlen, hall⟩ := rewardsLoop_indexed characterItems rewards 0 [] ls hl
    refine ⟨parts, by simp [hout], hlen, fun i part hi => ?_⟩
    obtain ⟨rewardMap, hrm, hcase⟩ := hall i part hi
    refine ⟨rewardMap, hrm, ?_⟩
    rcases hcase with hnone | ⟨spawns, hsp, hplen, hspawns⟩
    · exact Or.inl hnone
    · refine Or.inr ⟨spawns, hsp, hplen, fun j s hj => ?_⟩
      obtain ⟨spawn, hspawn, hrs⟩ := hspawns j s hj
      rw [Nat.zero_add] at hrs
      obtain ⟨hid, hrid⟩ := rewardSpawn_ids characterItems i j spawn s hrs
      exact ⟨hid, hrid, spawn, hspawn, hrs⟩

theorem processItems_items_in_order (items : List ItemData) (zone : ZoneActor)
    (characterItems : List String) (ri : List ItemData) (re : List Event)
    (h : processItems items zone characterItems = .ok (ri, re)) :
    List.Forall₂ (ItemOf characterItems)
      (items.filter (fun item => assigned zone item && item.Components.LootSpawns.isSome)) ri := by
  induction items generalizing ri re with
  | nil =>
    simp only [processItems_nil, Except.ok.injEq, Prod.mk.injEq] at h
    rw [← h.1]
    exact List.Forall₂.nil
  | cons item rest ih =>
    obtain ⟨a, b, c, d, hc, hr, rfl, rfl⟩ :=
      processItems_cons_ok zone characterItems item rest ri re h
    have hrest := ih c d hr
    rw [List.filter_cons]
    rcases contribution_ok zone characterItems item a b hc with
      ⟨ha, rfl, rfl⟩ | ⟨ha, spawns, item', hl, hs, rfl, rfl⟩ | ⟨ha, hl, e, he, rfl, rfl⟩
    · simpa [ha] using hrest
    · simp only [ha, hl, Option.isSome_some, Bool.and_self, if_true, List.singleton_append]
      exact List.Forall₂.cons ⟨spawns, item', hl, hs, rfl⟩ hrest
    · simpa [ha, hl] using hrest

theorem processItems_events_in_order (items : List ItemData) (zone : ZoneActor)
    (characterItems : List String) (ri : List ItemData) (re : List Event)
    (h : processItems items zone characterItems = .ok (ri, re)) :
    List.Forall₂ (fun item e => mkEvent characterItems item = .ok e)
      (items.filter (fun item => assigned zone item && item.Components.LootSpawns.isNone)) re := by
  induction items generalizing ri re with
  | nil =>
    simp only [processItems_nil, Except.ok.injEq, Prod.mk.injEq] at h
    rw [← h.2]
    exact List.Forall₂.nil
  | cons item rest ih =>
    obtain ⟨a, b, c, d, hc, hr, rfl, rfl⟩ :=
      processItems_cons_ok zone characterItems item rest ri re h
    have hrest := ih c d hr
    rw [List.filter_cons]
    rcases contribution_ok zone characterItems item a b hc with
      ⟨ha, rfl, rfl⟩ | ⟨ha, spawns, item', hl, hs, rfl, rfl⟩ | ⟨ha, hl, e, he, rfl, rfl⟩
    · simpa [ha] using hrest
    · simpa [ha, hl] using hrest
    · simp only [ha, hl, Option.isNone_none, Bool.and_self, if_true, List.singleton_append]
      exact List.Forall₂.cons he hrest

/-- C27: when `processItems` succeeds, the emitted items are, in order, the items built
from the records of the zone that have a loot-spawn list, and the emitted events are, in
order, the events built from the records of the zone that have none; the result is a
function of the input, so two runs give equal results; and the rewards of an event are
ordered by reward component and then by spawn, with `ID` the index of the spawn in its
reward and `RewardID` the index of the reward among the `Reward_` components of the
record. -/
theorem processItems_order (items : List ItemData) (zone : ZoneActor)
    (characterItems : List String) (ri : List ItemData) (re : List Event)
    (h : processItems items zone characterItems = .ok (ri, re)) :
    List.Forall₂ (ItemOf characterItems)
        (items.filter (fun item => assigned zone item && item.Components.LootSpawns.isSome))
        ri ∧
      List.Forall₂ (fun item e => mkEvent characterItems item = .ok e)
        (items.filter (fun item => assigned zone item && item.Components.LootSpawns.isNone))
        re ∧
      (∀ r, processItems items zone characterItems = .ok r → r = (ri, re)) ∧
      ∀ item e rewards, mkEvent characterItems item = .ok e →
        item.Components.Rewards = some rewards →
        ∃ parts, e.Rewards = some parts.flatten ∧
          RewardsInOrder characterItems rewards parts := by
  refine ⟨processItems_items_in_order items zone characterItems ri re h,
    processItems_events_in_order items zone characterItems ri re h, fun r hr => ?_,
    fun item e rewards he hrw => mkEvent_rewards_in_order characterItems item e rewards he hrw⟩
  rw [h, Except.ok.injEq] at hr
  exact hr.symm

/-- Witness of C27: a sword, an event with two reward components and a plain event. -/
theorem processItems_order_witness :
    List.Forall₂ (ItemOf [])
        ([swordRecord,
          rewardsRecord
            [{ ComponentKey := "Reward_0",
               Properties := [("Spawns", .array [rewardSpawnOf "Pkg.Ring"])] },
             { ComponentKey := "Reward_1",
               Properties := [("Spawns", .array [rewardSpawnOf "Pkg.Axe",
                                                 rewardSpawnOf "Pkg.Bow"])] }],
          plainRecord].filter
          (fun item => assigned (bareZone 2 1) item && item.Components.LootSpawns.isSome))
        [{ swordRecord with Name := "Sword", Quantity := 1 }] ∧
      List.Forall₂ (fun item e => mkEvent [] item = .ok e)
        ([swordRecord,
          rewardsRecord
            [{ ComponentKey := "Reward_0",
               Properties := [("Spawns", .array [rewardSpawnOf "Pkg.Ring"])] },
             { ComponentKey := "Reward_1",
               Properties := [("Spawns", .array [rewardSpawnOf "Pkg.Axe",
                                                 rewardSpawnOf "Pkg.Bow"])] }],
          plainRecord].filter
          (fun item => assigned (bareZone 2 1) item && item.Components.LootSpawns.isNone))
        [{ Name := "Quest_Event_C",
           Rewards := some [lootSpawnNamed 0 0 "Ring", lootSpawnNamed 0 1 "Axe",
                            lootSpawnNamed 1 1 "Bow"] },
         { Name := "Quest_Event_C", Rewards := none }] :=
  ⟨(processItems_order
      [swordRecord,
        rewardsRecord
          [{ ComponentKey := "Reward_0",
             Properties := [("Spawns", .array [rewardSpawnOf "Pkg.Ring"])] },
           { ComponentKey := "Reward_1",
             Properties := [("Spawns", .array [rewardSpawnOf "Pkg.Axe",
                                               rewardSpawnOf "Pkg.Bow"])] }],
        plainRecord]
      (bareZone 2 1) [] [{ swordRecord with Name := "Sword", Quantity := 1 }]
      [{ Name := "Quest_Event_C",
         Rewards := some [lootSpawnNamed 0 0 "Ring", lootSpawnNamed 0 1 "Axe",
                          lootSpawnNamed 1 1 "Bow"] },
       { Name := "Quest_Event_C", Rewards := none }] rfl).1,
    (processItems_order
      [swordRecord,
        rewardsRecord
          [{ ComponentKey := "Reward_0",
             Properties := [("Spawns", .array [rewardSpawnOf "Pkg.Ring"])] },
           { ComponentKey := "Reward_1",
             Properties := [("Spawns", .array [rewardSpawnOf "Pkg.Axe",
                                               rewardSpawnOf "Pkg.Bow"])] }],
        plainRecord]
      (bareZone 2 1) [] [{ swordRecord with Name := "Sword", Quantity := 1 }]
      [{ Name := "Quest_Event_C",
         Rewards := some [lootSpawnNamed 0 0 "Ring", lootSpawnNamed 0 1 "Axe",
                          lootSpawnNamed 1 1 "Bow"] },
       { Name := "Quest_Event_C", Rewards := none }] rfl).2.1⟩

/-! ## Blueprint strings without a separator -/

theorem lootSpawnLoop_error (spawns : List Value) (item : ItemData) (e : Fail)
    (h : lootSpawnLoop spawns item = .error e) : e = .panic := by
  induction spawns generalizing item with
  | nil => simp [lootSpawnLoop] at h
  | cons s rest ih =>
    rw [lootSpawnLoop] at h
    simp only [bind, Except.bind] at h
    repeat' split at h
    all_goals first
      | exact ih _ h
      | (simp only [Except.error.injEq] at h
         subst h
         first
           | exact asMap_error _ _ (by assumption)
           | exact asString_error _ _ (by assumption)
           | exact asInt32_error _ _ (by assumption)
           | (rename_i heq
              unfold asStruct at heq
              split at heq <;> simp_all)
           | (rename_i heq
              unfold index at heq
              split at heq <;> simp_all))

theorem lootSpawnLoop_ok_mem (spawns : List Value) (item item' : ItemData)
    (h : lootSpawnLoop spawns item = .ok item') :
    ∀ spawn ∈ spawns, ∃ actorBP name, spawnActorBP spawn = some actorBP ∧
      (stringsSplit actorBP '.')[1]? = some name := by
  induction spawns generalizing item with
  | nil =>
    intro spawn hs
    cases hs
  | cons s rest ih =>
    obtain ⟨actorBP, name, _, h1, h2, _, h4⟩ := lootSpawnLoop_cons_ok s rest item item' h
    intro spawn hs
    rcases List.mem_cons.mp hs with rfl | hs
    · exact ⟨actorBP, name, h1, h2⟩
    · exact ih _ h4 spawn hs

theorem lootSpawnLoop_no_dot (spawns : List Value) (item : ItemData) (spawn : Value)
    (actorBP : String) (hs : spawn ∈ spawns) (ha : spawnActorBP spawn = some actorBP)
    (hdot : '.' ∉ actorBP.toList) :
    lootSpawnLoop spawns item = .error .panic := by
  cases h : lootSpawnLoop spawns item with
  | error e => rw [lootSpawnLoop_error spawns item e h]
  | ok item' =>
    obtain ⟨a, name, h1, h2⟩ := lootSpawnLoop_ok_mem spawns item item' h spawn hs
    rw [ha, Option.some.injEq] at h1
    subst h1
    rw [stringsSplit_second_none actorBP hdot] at h2
    cases h2

theorem processItems_append_error (zone : ZoneActor) (characterItems : List String)
    (pre post : List ItemData) (item : ItemData) (e : Fail)
    (hc : contribution zone characterItems item = .error e)
    (r : List ItemData × List Event) (hpre : processItems pre zone characterItems = .ok r) :
    processItems (pre ++ item :: post) zone characterItems = .error e := by
  induction pre generalizing r with
  | nil =>
    rw [List.nil_append, processItems_cons, hc]
  | cons x pre ih =>
    rw [List.cons_append, processItems_cons zone characterItems x (pre ++ item :: post)]
    rw [processItems_cons zone characterItems x pre] at hpre
    cases hx : contribution zone characterItems x with
    | error e' => simp [hx] at hpre
    | ok ab =>
      obtain ⟨a, b⟩ := ab
      simp only [hx] at hpre ⊢
      cases hp : processItems pre zone characterItems with
      | error e' => simp [hp] at hpre
      | ok cd => rw [ih cd hp]

/-- The reward path accepts every well-formed spawn entry and names it by the normalized
name of its `ActorBP` string. -/
theorem rewardSpawn_accepts (characterItems : List String) (rewardIdx idx : Nat)
    (itemValue spawnProperties keyProperties : List (String × Value))
    (actorBP type containerKey : String) (quantity : Int) (persistentID : Nat)
    (h1 : lookup itemValue "SpawnEntry" = some (.struct (.map spawnProperties)))
    (h2 : lookup itemValue "Key" = some (.struct (.map keyProperties)))
    (h3 : lookup spawnProperties "ActorBP" = some (.str actorBP))
    (h4 : lookup spawnProperties "Type" = some (.enum type))
    (h5 : lookup spawnProperties "Quantity" = some (.int32 quantity))
    (h6 : lookup keyProperties "ContainerKey" = some (.str containerKey))
    (h7 : lookup keyProperties "PersistentID" = some (.uint64 persistentID)) :
    rewardSpawn characterItems rewardIdx idx (.map itemValue) =
      .ok { ID := idx, RewardID := rewardIdx, Type_ := type,
            ActorBP := normalizedRewardName actorBP, Quantity := quantity,
            PersistenceKey := { ContainerKey := containerKey, PersistentID := persistentID },
            OwnedByCharacter := characterItems.contains (normalizedRewardName actorBP) } := by
  unfold rewardSpawn
  simp only [bind, Except.bind, asMap, asStruct, asString, asEnum, asInt32, asUInt64, h1, h2,
    h3, h4, h5, h6, h7]
  by_cases hlen : 1 < (stringsSplit actorBP '.').length
  · have hdot := (stringsSplit_length actorBP).mp hlen
    have hsecond := stringsSplit_second actorBP hdot
    have hgt : (stringsSplit actorBP '.').length > 1 := hlen
    simp only [hgt, if_true, index, hsecond]
    rw [normalizedRewardName_of_split actorBP _ hlen hsecond]
  · have hgt : ¬ (stringsSplit actorBP '.').length > 1 := hlen
    simp only [hgt, if_false]
    rw [normalizedRewardName_of_no_split actorBP hlen]

theorem normalizedRewardName_no_dot (actorBP : String) (hdot : '.' ∉ actorBP.toList) :
    normalizedRewardName actorBP =
      if actorBP.utf8ByteSize < 2 then "Unknown Event Reward" else actorBP := by
  simp only [normalizedRewardName, hdot, if_false]

/-- C29, refuted as stated: the reward spawn with the `ActorBP` string `X`, which contains
no `"."`, is accepted but it is not named by the whole string: its name is the literal
`Unknown Event Reward`. -/
theorem rewardSpawn_short_name_counterexample :
    '.' ∉ "X".toList ∧
      rewardSpawn [] 0 0 (rewardSpawnOf "X") = .ok (lootSpawnNamed 0 0 "Unknown Event Reward") :=
  ⟨by decide, rfl⟩

/-- C29, amended: the item path and the reward path of `processItems` treat a blueprint
string without a `"."` differently. For a record assigned to the zone one of whose loot
spawns has an `ActorBP` containing no `"."`, `processItems` fails with a panic (index out
of range or an earlier failed assertion), not with an error return; a well-formed reward
spawn with the same `ActorBP` is accepted, and named by the whole string when it has at
least 2 bytes and by the literal `Unknown Event Reward` otherwise. -/
theorem processItems_no_dot (item : ItemData) (zone : ZoneActor)
    (characterItems : List String) (spawns : List Value) (spawn : Value) (actorBP : String)
    (hz : currentZoneID item = .ok zone.ID)
    (hl : item.Components.LootSpawns = some (.array spawns)) (hs : spawn ∈ spawns)
    (ha : spawnActorBP spawn = some actorBP) (hdot : '.' ∉ actorBP.toList) :
    processItems [item] zone characterItems = .error .panic ∧
      (∀ pre post r, processItems pre zone characterItems = .ok r →
        processItems (pre ++ item :: post) zone characterItems = .error .panic) ∧
      (∀ rewardIdx idx itemValue spawnProperties keyProperties type containerKey quantity
          persistentID,
        lookup itemValue "SpawnEntry" = some (.struct (.map spawnProperties)) →
        lookup itemValue "Key" = some (.struct (.map keyProperties)) →
        lookup spawnProperties "ActorBP" = some (.str actorBP) →
        lookup spawnProperties "Type" = some (.enum type) →
        lookup spawnProperties "Quantity" = some (.int32 quantity) →
        lookup keyProperties "ContainerKey" = some (.str containerKey) →
        lookup keyProperties "PersistentID" = some (.uint64 persistentID) →
        ∃ s, rewardSpawn characterItems rewardIdx idx (.map itemValue) = .ok s ∧
          s.ActorBP = if actorBP.utf8ByteSize < 2 then "Unknown Event Reward" else actorBP) := by
  have hc : contribution zone characterItems item = .error .panic := by
    unfold contribution
    simp only [hz, if_true, hl, asArray]
    rw [lootSpawnLoop_no_dot spawns item spawn actorBP hs ha hdot]
  refine ⟨?_, fun pre post r hpre => ?_, ?_⟩
  · rw [processItems_single, hc]
  · exact processItems_append_error zone characterItems pre post item _ hc r hpre
  · intro rewardIdx idx itemValue spawnProperties keyProperties type containerKey quantity
      persistentID h1 h2 h3 h4 h5 h6 h7
    refine ⟨_, rewardSpawn_accepts characterItems rewardIdx idx itemValue spawnProperties
      keyProperties actorBP type containerKey quantity persistentID h1 h2 h3 h4 h5 h6 h7, ?_⟩
    exact normalizedRewardName_no_dot actorBP hdot

/-- Witness of the amended C29 on the blueprint string `Sword`. -/
theorem processItems_no_dot_witness :
    processItems [lootRecord [spawnOf "Sword" 1]] (bareZone 2 1) [] = .error .panic ∧
      rewardSpawn [] 0 0 (rewardSpawnOf "Sword") = .ok (lootSpawnNamed 0 0 "Sword") :=
  ⟨(processItems_no_dot (lootRecord [spawnOf "Sword" 1]) (bareZone 2 1) []
      [spawnOf "Sword" 1] (spawnOf "Sword" 1) "Sword" rfl rfl (List.mem_singleton.mpr rfl) rfl
      (by decide)).1,
    rfl⟩

/-! ## The console copy and the backend agree -/

theorem Agree.bind_same {α β γ : Type} (R : α → β → Prop) (x : Except Fail γ)
    (f : γ → Except Fail α) (g : γ → Except Fail β) (h : ∀ a, Agree R (f a) (g a)) :
    Agree R (bind x f) (bind x g) := by
  cases x with
  | error e => exact rfl
  | ok a => exact h a

theorem Agree.bind {α β α' β' : Type} (R : α → β → Prop) (R' : α' → β' → Prop)
    (x : Except Fail α') (y : Except Fail β')
    (f : α' → Except Fail α) (g : β' → Except Fail β) (hxy : Agree R' x y)
    (h : ∀ a b, R' a b → Agree R (f a) (g b)) :
    Agree R (bind x f) (bind y g) := by
  cases x with
  | error e =>
    cases y with
    | error e' => exact hxy
    | ok b => exact hxy.elim
  | ok a =>
    cases y with
    | error e' => exact hxy.elim
    | ok b => exact h a b hxy

theorem console_currentZoneID (item : ItemData) :
    Console.currentZoneID item = currentZoneID item := rfl

theorem console_lootSpawnLoop (spawns : List Value) (item : ItemData) :
    Console.lootSpawnLoop spawns item = lootSpawnLoop spawns item := by
  induction spawns generalizing item with
  | nil => rfl
  | cons s rest ih =>
    rw [Console.lootSpawnLoop, lootSpawnLoop]
    simp only [ih]

theorem console_markOwned (characterItems : List String) (item : ItemData) :
    Console.markOwned characterItems item = markOwned characterItems item := rfl

theorem console_rewardSpawn (characterItems : List String) (rewardIdx idx : Nat)
    (item : Value) :
    Agree (SameReward characterItems) (Console.rewardSpawn characterItems item)
      (rewardSpawn characterItems rewardIdx idx item) := by
  unfold Console.rewardSpawn rewardSpawn
  refine Agree.bind_same _ _ _ _ (fun itemValue => ?_)
  refine Agree.bind_same _ _ _ _ (fun spawnEntry => ?_)
  refine Agree.bind_same _ _ _ _ (fun spawnProperties => ?_)
  refine Agree.bind_same _ _ _ _ (fun key => ?_)
  refine Agree.bind_same _ _ _ _ (fun keyProperties => ?_)
  refine Agree.bind_same _ _ _ _ (fun actorBP0 => ?_)
  dsimp only
  split
  all_goals
    refine Agree.bind_same _ _ _ _ (fun actorBP => ?_)
    refine Agree.bind_same _ _ _ _ (fun type => ?_)
    refine Agree.bind_same _ _ _ _ (fun quantity => ?_)
    refine Agree.bind_same _ _ _ _ (fun containerKey => ?_)
    refine Agree.bind_same _ _ _ _ (fun persistentID => ?_)
    show SameReward characterItems _ _
    refine ⟨rfl, rfl, rfl, fun h2 => ?_, fun h2 => ?_⟩
    · have hn : ¬ actorBP.utf8ByteSize < 2 := Nat.not_lt.mpr h2
      simp only [hn, if_false, and_self]
    · simp only [h2, if_true, and_self]

theorem console_spawnsLoop (characterItems : List String) (rewardIdx : Nat)
    (spawns : List Value) (idx : Nat) (cacc : List Console.LootSpawn) (acc : List LootSpawn)
    (hacc : List.Forall₂ (SameReward characterItems) cacc acc) :
    Agree (List.Forall₂ (SameReward characterItems))
      (Console.spawnsLoop characterItems spawns cacc)
      (spawnsLoop characterItems rewardIdx spawns idx acc) := by
  induction spawns generalizing idx cacc acc with
  | nil => exact hacc
  | cons s rest ih =>
    rw [Console.spawnsLoop, spawnsLoop]
    refine Agree.bind _ (SameReward characterItems) _ _ _ _
      (console_rewardSpawn characterItems rewardIdx idx s) (fun c b hcb => ?_)
    exact ih _ _ _ (List.rel_append hacc (List.Forall₂.cons hcb List.Forall₂.nil))

theorem console_rewardsLoop (characterItems : List String) (rewards : List Value)
    (rewardIdx : Nat) (cacc : List Console.LootSpawn) (acc : List LootSpawn)
    (hacc : List.Forall₂ (SameReward characterItems) cacc acc) :
    Agree (List.Forall₂ (SameReward characterItems))
      (Console.rewardsLoop characterItems rewards cacc)
      (rewardsLoop characterItems rewards rewardIdx acc) := by
  induction rewards generalizing rewardIdx cacc acc with
  | nil => exact hacc
  | cons r rest ih =>
    rw [Console.rewardsLoop, rewardsLoop]
    refine Agree.bind_same _ _ _ _ (fun rewardMap => ?_)
    cases lookup rewardMap "Spawns" with
    | none => exact ih _ _ _ hacc
    | some spawns =>
      refine Agree.bind_same _ _ _ _ (fun itemSpawns => ?_)
      exact Agree.bind _ (List.Forall₂ (SameReward characterItems)) _ _ _ _
        (console_spawnsLoop characterItems rewardIdx itemSpawns 0 cacc acc hacc)
        (fun c b hcb => ih _ _ _ hcb)

theorem console_mkEvent (characterItems : List String) (item : ItemData) :
    Agree (SameEvent characterItems) (Console.mkEvent characterItems item)
      (mkEvent characterItems item) := by
  unfold Console.mkEvent mkEvent
  cases item.Components.Rewards with
  | none => exact ⟨rfl, trivial⟩
  | some rewards =>
    exact Agree.bind _ (List.Forall₂ (SameReward characterItems)) _ _ _ _
      (console_rewardsLoop characterItems rewards 0 [] [] List.Forall₂.nil)
      (fun c b hcb => ⟨rfl, hcb⟩)

theorem console_processItemsLoop (zone : ZoneActor) (czone : Console.ZoneActor)
    (hid : czone.ID = zone.ID) (characterItems : List String) (items : List ItemData)
    (resultItems : List ItemData) (cevents : List Console.Event) (events : List Event)
    (hev : List.Forall₂ (SameEvent characterItems) cevents events) :
    Agree (SameResult characterItems)
      (Console.processItemsLoop czone characterItems items resultItems cevents)
      (processItemsLoop zone characterItems items resultItems events) := by
  induction items generalizing resultItems cevents events with
  | nil => exact ⟨rfl, hev⟩
  | cons item rest ih =>
    rw [Console.processItemsLoop, processItemsLoop, console_currentZoneID, hid]
    refine Agree.bind_same _ _ _ _ (fun zoneID => ?_)
    by_cases hz : zoneID = zone.ID
    · simp only [hz, if_true]
      cases item.Components.LootSpawns with
      | some lootSpawns =>
        refine Agree.bind_same _ _ _ _ (fun spawns => ?_)
        rw [console_lootSpawnLoop]
        refine Agree.bind_same _ _ _ _ (fun item' => ?_)
        rw [console_markOwned]
        exact ih _ _ _ hev
      | none =>
        refine Agree.bind _ (SameEvent characterItems) _ _ _ _
          (console_mkEvent characterItems item) (fun c b hcb => ?_)
        exact ih _ _ _ (List.rel_append hev (List.Forall₂.cons hcb List.Forall₂.nil))
    · simp only [hz, if_false]
      exact ih _ _ _ hev

theorem console_processItems (zone : ZoneActor) (czone : Console.ZoneActor)
    (hid : czone.ID = zone.ID) (characterItems : List String) (items : List ItemData) :
    Agree (SameResult characterItems) (Console.processItems items czone characterItems)
      (processItems items zone characterItems) :=
  console_processItemsLoop zone czone hid characterItems items [] [] [] List.Forall₂.nil

theorem length_le_utf8ByteSize_go (cs : List Char) :
    cs.length ≤ String.utf8ByteSize.go cs := by
  induction cs with
  | nil => exact Nat.le_refl _
  | cons c cs ih =>
    simp only [String.utf8ByteSize.go, List.length_cons]
    have hc := Char.utf8Size_pos c
    omega

/-- Go's `len` (bytes) of a string is at least its number of characters. -/
theorem length_le_utf8ByteSize (s : String) : s.length ≤ s.utf8ByteSize := by
  cases s with
  | mk cs => exact length_le_utf8ByteSize_go cs

theorem Agree.ok_right {α β : Type} (R : α → β → Prop) (x : Except Fail α)
    (y : Except Fail β) (h : Agree R x y) (b : β) (hy : y = .ok b) :
    ∃ a, x = .ok a ∧ R a b := by
  subst hy
  cases x with
  | error e => exact h.elim
  | ok a => exact ⟨a, rfl, h⟩

theorem Agree.ok_left {α β : Type} (R : α → β → Prop) (x : Except Fail α)
    (y : Except Fail β) (h : Agree R x y) (a : α) (hx : x = .ok a) :
    ∃ b, y = .ok b ∧ R a b := by
  subst hx
  cases y with
  | error e => exact h.elim
  | ok b => exact ⟨b, rfl, h⟩

theorem Agree.error_iff {α β : Type} (R : α → β → Prop) (x : Except Fail α)
    (y : Except Fail β) (h : Agree R x y) (e : Fail) :
    x = .error e ↔ y = .error e := by
  cases x with
  | error e1 =>
    cases y with
    | error e2 =>
      have h12 : e1 = e2 := h
      subst h12
      constructor
      · intro h1
        cases h1
        rfl
      · intro h1
        cases h1
        rfl
    | ok b => exact h.elim
  | ok a =>
    cases y with
    | error e2 => exact h.elim
    | ok b => exact ⟨fun h1 => (nomatch h1), fun h1 => (nomatch h1)⟩

/-- C30: the console copy of `processItems` and the backend's `processItems` agree on every
input, for zones with the same `ID`: when either succeeds so does the other, with equal
items and with events that are pairwise the same (`SameResult`): equal names, rewards equal
in `Type`, `Quantity` and `PersistenceKey`, and equal in `ActorBP` and `OwnedByCharacter`
whenever the console's normalized blueprint name has at least 2 bytes, hence whenever it
has at least 2 characters; the backend's `ID` and `RewardID` fields and its fallback name
are the only differences. They also fail alike. -/
theorem processItems_console_agrees (items : List ItemData) (zone : ZoneActor)
    (czone : Console.ZoneActor) (characterItems : List String) (hid : czone.ID = zone.ID) :
    (∀ r, processItems items zone characterItems = .ok r →
        ∃ cr, Console.processItems items czone characterItems = .ok cr ∧
          SameResult characterItems cr r) ∧
      (∀ cr, Console.processItems items czone characterItems = .ok cr →
        ∃ r, processItems items zone characterItems = .ok r ∧
          SameResult characterItems cr r) ∧
      (∀ e, Console.processItems items czone characterItems = .error e ↔
        processItems items zone characterItems = .error e) ∧
      (∀ c b, SameReward characterItems c b → 2 ≤ c.ActorBP.length →
        b.ActorBP = c.ActorBP ∧ b.OwnedByCharacter = c.OwnedByCharacter) := by
  have h := console_processItems zone czone hid characterItems items
  refine ⟨fun r hr => Agree.ok_right _ _ _ h r hr, fun cr hcr => Agree.ok_left _ _ _ h cr hcr,
    fun e => Agree.error_iff _ _ _ h e, fun c b hcb hlen => ?_⟩
  exact hcb.2.2.2.1 (Nat.le_trans hlen (length_le_utf8ByteSize c.ActorBP))

/-- Witness of C30: a loot record and an event record with the reward spawns `Pkg.Ring` and
`X` in zone 2. -/
theorem processItems_console_agrees_witness :
    (Console.bareZone 2).ID = (bareZone 2 1).ID ∧
      ∃ cr, Console.processItems
          [lootRecord [spawnOf "Pkg.Sword" 1],
            rewardsRecord [{ ComponentKey := "Reward_0",
                             Properties := [("Spawns",
                               .array [rewardSpawnOf "Pkg.Ring", rewardSpawnOf "X"])] }]]
          (Console.bareZone 2) ["Ring"] = .ok cr ∧
        SameResult ["Ring"] cr
          ([{ (lootRecord [spawnOf "Pkg.Sword" 1]) with Name := "Sword", Quantity := 1 }],
            [{ Name := "Quest_Event_C",
               Rewards := some [{ (lootSpawnNamed 0 0 "Ring") with OwnedByCharacter := true },
                                lootSpawnNamed 1 0 "Unknown Event Reward"] }]) :=
  ⟨rfl, (processItems_console_agrees _ (bareZone 2 1) (Console.bareZone 2) ["Ring"] rfl).1 _ rfl⟩

/-! ## The watch loop -/

theorem findAdventure_error_empty (biomeNames : String → String) (objects : List SaveObject)
    (characterItems : List String) (zone : ZoneInfo) (msg : String)
    (h : findAdventure biomeNames objects characterItems = .ok (zone, some msg)) :
    zone = emptyZoneInfo := by
  unfold findAdventure at h
  split at h
  · simp only [Except.ok.injEq, Prod.mk.injEq] at h
    exact h.1.symm
  · cases h
  · simp only [bind, Except.bind] at h
    repeat' split at h
    all_goals simp at h

theorem refreshSaveFile_error_empty (world : World) (fullPath : String)
    (characterData : CharacterData) (zone : ZoneInfo) (msg : String)
    (h : refreshSaveFile world fullPath characterData = .ok (zone, some msg)) :
    zone = emptyZoneInfo := by
  unfold refreshSaveFile at h
  split at h
  · cases h
  · exact findAdventure_error_empty _ _ _ zone msg h

theorem refreshSaveFile_unreadable (world : World) (fullPath : String)
    (characterData : CharacterData) (msg : String)
    (h : world.archive fullPath = .error msg) :
    refreshSaveFile world fullPath characterData = .error .fatal := by
  unfold refreshSaveFile
  rw [h]

theorem refreshProfileFile_error (world : World) (fullPath : String)
    (characters : Option (Int → Option CharacterData)) (activeCharacterID : Int)
    (msg : String)
    (h : refreshProfileFile world fullPath = .ok (characters, activeCharacterID, some msg)) :
    characters = none ∧ activeCharacterID = 0 := by
  unfold refreshProfileFile at h
  repeat' split at h
  all_goals simp at h
  all_goals exact ⟨h.1.symm, h.2.1.symm⟩

theorem refreshProfileFile_unreadable (world : World) (fullPath msg : String)
    (h : world.archive fullPath = .error msg) :
    refreshProfileFile world fullPath = .ok (none, 0, some msg) := by
  unfold refreshProfileFile
  rw [h]

theorem handleEvent_profile_eq (world : World) (s : State) (event : Notification)
    (hw : (event.HasWrite || event.HasCreate) = true)
    (hsav : stringsHasSuffix event.Name ".sav" = true)
    (hp : filepathBase event.Name = "profile.sav") :
    handleEvent world s event = handleProfile world s event.Name := by
  unfold handleEvent
  simp only [hw, if_true, hsav, Bool.not_true, Bool.false_eq_true, if_false, hp]

theorem handleEvent_save_eq (world : World) (s : State) (event : Notification)
    (hw : (event.HasWrite || event.HasCreate) = true)
    (hsav : stringsHasSuffix event.Name ".sav" = true)
    (hp : filepathBase event.Name ≠ "profile.sav")
    (hpre : stringsHasPrefix (filepathBase event.Name) "save_" = true) :
    handleEvent world s event = handleSave world s event.Name event.Name := by
  unfold handleEvent
  simp only [hw, if_true, hsav, Bool.not_true, Bool.false_eq_true, if_false, hp, hpre]

/-- Every iteration that does not reach one of the two branches leaves the state as it is
and neither publishes nor logs an error. -/
theorem handleEvent_cases (world : World) (s : State) (event : Notification) :
    handleEvent world s event = .ok { state := s, emitted := none, logged := none } ∨
      (filepathBase event.Name = "profile.sav" ∧
        handleEvent world s event = handleProfile world s event.Name) ∨
      (filepathBase event.Name ≠ "profile.sav" ∧
        handleEvent world s event = handleSave world s event.Name event.Name) := by
  unfold handleEvent
  by_cases hw : (event.HasWrite || event.HasCreate) = true
  · by_cases hsav : stringsHasSuffix event.Name ".sav" = true
    · by_cases hp : filepathBase event.Name = "profile.sav"
      · simp [hw, hsav, hp]
      · by_cases hpre : stringsHasPrefix (filepathBase event.Name) "save_" = true
        · simp [hw, hsav, hp, hpre]
        · simp [hw, hsav, hp, hpre]
    · simp [hw, hsav]
  · simp [hw]

/-- The branch for `save_`: what it does once the id is parsed and the reconstruction has
returned. -/
theorem handleSave_of_ok (world : World) (s : State) (name fullPath : String) (n : Int)
    (zone : ZoneInfo) (err : Option String) (hn : parseCharacterID name = .ok n)
    (hr : refreshSaveFile world fullPath (characterAt s.characters n) = .ok (zone, err)) :
    handleSave world s name fullPath =
      .ok { state := { s with characterZones := setZone s.characterZones n zone },
            emitted :=
              if err = none ∧ n = s.activeCharacterID then
                some (activeObject { s with characterZones := setZone s.characterZones n zone })
              else none,
            logged := err } := by
  unfold handleSave
  simp only [hn, bind, Except.bind, hr]
  cases err with
  | some msg => simp
  | none =>
    by_cases ha : n = s.activeCharacterID
    · simp [ha]
    · simp [ha]

theorem handleSave_inv (world : World) (s : State) (name fullPath : String) (step : Step)
    (h : handleSave world s name fullPath = .ok step) :
    (∃ msg, parseCharacterID name = .error (.error msg) ∧
        step = { state := s, emitted := none, logged := some msg }) ∨
      ∃ n zone err, parseCharacterID name = .ok n ∧
        refreshSaveFile world fullPath (characterAt s.characters n) = .ok (zone, err) ∧
        step = { state := { s with characterZones := setZone s.characterZones n zone },
                 emitted :=
                   if err = none ∧ n = s.activeCharacterID then
                     some (activeObject
                       { s with characterZones := setZone s.characterZones n zone })
                   else none,
                 logged := err } := by
  cases hn : parseCharacterID name with
  | error e =>
    unfold handleSave at h
    rw [hn] at h
    cases e with
    | error msg =>
      simp only [Except.ok.injEq] at h
      exact Or.inl ⟨msg, rfl, h.symm⟩
    | panic => cases h
    | fatal => cases h
  | ok n =>
    cases hr : refreshSaveFile world fullPath (characterAt s.characters n) with
    | error e =>
      unfold handleSave at h
      simp [hn, bind, Except.bind, hr] at h
    | ok ze =>
      obtain ⟨zone, err⟩ := ze
      rw [handleSave_of_ok world s name fullPath n zone err hn hr] at h
      simp only [Except.ok.injEq] at h
      exact Or.inr ⟨n, zone, err, rfl, hr, h.symm⟩

theorem handleProfile_inv (world : World) (s : State) (fullPath : String) (step : Step)
    (h : handleProfile world s fullPath = .ok step) :
    (∃ msg, refreshProfileFile world fullPath = .ok (none, 0, some msg) ∧
        step = { state := { s with characters := none, activeCharacterID := 0 },
                 emitted := none, logged := some msg }) ∨
      ∃ characters a zone err,
        refreshProfileFile world fullPath = .ok (characters, a, none) ∧
        refreshSaveFile world fullPath (characterAt characters a) = .ok (zone, err) ∧
        step = { state := { characters := characters, activeCharacterID := a,
                            characterZones := setZone s.characterZones a zone },
                 emitted :=
                   if err = none then
                     some (activeObject { characters := characters, activeCharacterID := a,
                                          characterZones := setZone s.characterZones a zone })
                   else none,
                 logged := err } := by
  unfold handleProfile at h
  cases hp : refreshProfileFile world fullPath with
  | error e => simp [hp, bind, Except.bind] at h
  | ok cae =>
    obtain ⟨characters, a, err⟩ := cae
    cases err with
    | some msg =>
      obtain ⟨hc, ha⟩ := refreshProfileFile_error world fullPath characters a msg hp
      subst hc
      subst ha
      simp only [hp, bind, Except.bind, Except.ok.injEq] at h
      exact Or.inl ⟨msg, rfl, h.symm⟩
    | none =>
      simp only [hp, bind, Except.bind] at h
      cases hr : refreshSaveFile world fullPath (characterAt characters a) with
      | error e => simp [hr] at h
      | ok ze =>
        obtain ⟨zone, err⟩ := ze
        simp only [hr] at h
        refine Or.inr ⟨characters, a, zone, err, rfl, hr, ?_⟩
        cases err with
        | some msg =>
          simp only [Except.ok.injEq] at h
          rw [← h]
          simp
        | none =>
          simp only [Except.ok.injEq] at h
          rw [← h]
          simp

/-! ## The character id of a notification -/

theorem takeWhile_append_of_all {α : Type} (p : α → Bool) (l r : List α)
    (h : ∀ c ∈ l, p c = true) : (l ++ r).takeWhile p = l ++ r.takeWhile p := by
  induction l with
  | nil => rfl
  | cons c l ih =>
    rw [List.cons_append, List.takeWhile_cons, h c (List.mem_cons_self _ _)]
    simp only [if_true, List.cons_append, List.cons.injEq, true_and]
    exact ih (fun d hd => h d (List.mem_cons_of_mem _ hd))

theorem dropWhile_append_of_all {α : Type} (p : α → Bool) (l r : List α)
    (h : ∀ c ∈ l, p c = true) : (l ++ r).dropWhile p = r.dropWhile p := by
  induction l with
  | nil => rfl
  | cons c l ih =>
    rw [List.cons_append, List.dropWhile_cons, h c (List.mem_cons_self _ _)]
    simp only [if_true]
    exact ih (fun d hd => h d (List.mem_cons_of_mem _ hd))

theorem all_ne_of_not_mem (sep : Char) (l : List Char) (h : sep ∉ l) :
    ∀ c ∈ l, (c != sep) = true := by
  intro c hc
  simp only [bne_iff_ne, ne_eq]
  intro hcs
  exact h (hcs ▸ hc)

/-- The second segment of a split when nothing follows it. -/
theorem stringsSplit_second_of_last (sep : Char) (l m : List Char) (hl : sep ∉ l)
    (hm : sep ∉ m) :
    (stringsSplit (String.mk (l ++ sep :: m)) sep)[1]? = some (String.mk m) := by
  show (List.map String.mk (splitAux sep (l ++ sep :: m) []))[1]? = _
  rw [splitAux_eq]
  have hmem : sep ∈ l ++ sep :: m := List.mem_append_right _ (List.mem_cons_self _ _)
  simp only [hmem, if_true, List.map_cons, List.getElem?_cons_succ]
  rw [dropWhile_append_of_all _ l _ (all_ne_of_not_mem sep l hl)]
  rw [List.dropWhile_cons]
  simp only [bne_self_eq_false, Bool.false_eq_true, if_false, List.drop_succ_cons, List.drop_zero]
  rw [splitAux_eq]
  have h := takeWhile_append_of_all (fun c => c != sep) m [] (all_ne_of_not_mem sep m hm)
  rw [List.append_nil] at h
  rw [h]
  simp

/-- The first segment of a split is the text before the first separator. -/
theorem stringsSplit_first_of_append (sep : Char) (l r : List Char) (hl : sep ∉ l) :
    (stringsSplit (String.mk (l ++ sep :: r)) sep)[0]? = some (String.mk l) := by
  show (List.map String.mk (splitAux sep (l ++ sep :: r) []))[0]? = _
  rw [splitAux_eq]
  rw [takeWhile_append_of_all _ l _ (all_ne_of_not_mem sep l hl)]
  simp

/-- In a folder whose path contains no `"_"`, the watch loop parses the integer part of the
file name `save_<mid>.sav`. -/
theorem parseCharacterID_clean_directory (dir mid : List Char) (hd : '_' ∉ dir)
    (hm : '_' ∉ mid) (hmd : '.' ∉ mid) :
    parseCharacterID (String.mk (dir ++ "/save_".toList ++ mid ++ ".sav".toList)) =
      strconvParseInt (String.mk mid) := by
  have hshape : dir ++ "/save_".toList ++ mid ++ ".sav".toList =
      (dir ++ "/save".toList) ++ '_' :: (mid ++ ".sav".toList) := by
    simp
  have hl : '_' ∉ dir ++ "/save".toList := by
    intro h
    rcases List.mem_append.mp h with h | h
    · exact hd h
    · revert h
      decide
  have hr : '_' ∉ mid ++ ".sav".toList := by
    intro h
    rcases List.mem_append.mp h with h | h
    · exact hm h
    · revert h
      decide
  have h1 := stringsSplit_second_of_last '_' _ _ hl hr
  have h0 : (stringsSplit (String.mk (mid ++ ".sav".toList)) '.')[0]? = some (String.mk mid) :=
    stringsSplit_first_of_append '.' mid "sav".toList hmd
  unfold parseCharacterID
  rw [hshape]
  simp only [index, h1, h0, bind, Except.bind]

/-- The handling of a notification reads no file but the one the notification names. -/
theorem handleEvent_reads_event_file (world world' : World) (s : State)
    (event : Notification) (h1 : world'.archive event.Name = world.archive event.Name)
    (h2 : world'.biomeNames = world.biomeNames) :
    handleEvent world' s event = handleEvent world s event := by
  simp only [handleEvent, handleProfile, handleSave, refreshProfileFile, refreshSaveFile, h1, h2]

/-- Routing of a `save_` notification: once the loop has parsed the id `n` and the
reconstruction has succeeded, the result is stored under `n`, nothing else changes, and an
update is published exactly when `n` is the active character id. -/
theorem handleEvent_save_routing (world : World) (s : State) (event : Notification) (n : Int)
    (zone : ZoneInfo) (hw : (event.HasWrite || event.HasCreate) = true)
    (hsav : stringsHasSuffix event.Name ".sav" = true)
    (hp : filepathBase event.Name ≠ "profile.sav")
    (hpre : stringsHasPrefix (filepathBase event.Name) "save_" = true)
    (hn : parseCharacterID event.Name = .ok n)
    (hr : refreshSaveFile world event.Name (characterAt s.characters n) = .ok (zone, none)) :
    ∃ step, handleEvent world s event = .ok step ∧
      step.state.characterZones n = some zone ∧
      (∀ k, k ≠ n → step.state.characterZones k = s.characterZones k) ∧
      step.state.characters = s.characters ∧
      step.state.activeCharacterID = s.activeCharacterID ∧
      (n = s.activeCharacterID →
        step.emitted = some { Character := characterAt s.characters n, Zone := zone }) ∧
      (n ≠ s.activeCharacterID → step.emitted = none) := by
  rw [handleEvent_save_eq world s event hw hsav hp hpre,
    handleSave_of_ok world s event.Name event.Name n zone none hn hr]
  refine ⟨_, rfl, ?_, ?_, rfl, rfl, ?_, ?_⟩
  · simp [setZone]
  · intro k hk
    simp [setZone, hk]
  · intro ha
    simp [ha, activeObject, zoneAt, setZone]
  · intro ha
    simp [ha]

/-- C21, refuted by the code: the watch loop tests the file name `filepath.Base(event.Name)`
but parses the id from the whole path `event.Name`. For the notification
`/home/john_doe/save_3.sav` the file name is `save_3.sav`, yet the text handed to
`strconv.ParseInt` is `doe/save`: the parse fails and the notification is dropped, whatever
the state. For `/data_7.x/save_3.sav` the parsed id is 7. Only in a folder without `"_"`,
such as `/saves`, the id is that of the file name. -/
theorem parseCharacterID_directory_underscore :
    filepathBase "/home/john_doe/save_3.sav" = "save_3.sav" ∧
      stringsHasPrefix (filepathBase "/home/john_doe/save_3.sav") "save_" = true ∧
      (do let second ← index (stringsSplit "/home/john_doe/save_3.sav" '_') 1
          index (stringsSplit second '.') 0) = .ok "doe/save" ∧
      parseCharacterID "/home/john_doe/save_3.sav" = .error (.error "invalid syntax") ∧
      (∀ world s, handleEvent world s (writeOf "/home/john_doe/save_3.sav") =
        .ok { state := s, emitted := none, logged := some "invalid syntax" }) ∧
      filepathBase "/data_7.x/save_3.sav" = "save_3.sav" ∧
      parseCharacterID "/data_7.x/save_3.sav" = .ok 7 ∧
      parseCharacterID "/saves/save_3.sav" = .ok 3 :=
  ⟨by decide, by decide, rfl, rfl, fun _ _ => rfl, by decide, rfl, rfl⟩

/-- C22, refuted by the code through the defect of C21: with the active id 5, the
notification `/data_7.x/save_3.sav` for the file `save_3.sav` has its reconstruction stored
under the id 7, computed with the items of character 7, and the value stored under 3 is
left as it was. In the folder `/saves` the same notification is stored under 3 and nothing
is published. -/
theorem handleEvent_save_wrong_id :
    filepathBase "/data_7.x/save_3.sav" = "save_3.sav" ∧
      handleEvent sampleWorld sampleState (writeOf "/data_7.x/save_3.sav") =
        .ok { state := { characters := sampleState.characters, activeCharacterID := 5,
                         characterZones :=
                           setZone sampleState.characterZones 7 (sampleZoneInfo false) },
              emitted := none, logged := none } ∧
      setZone sampleState.characterZones 7 (sampleZoneInfo false) 3 =
        sampleState.characterZones 3 ∧
      handleEvent sampleWorld sampleState (writeOf "/saves/save_3.sav") =
        .ok { state := { characters := sampleState.characters, activeCharacterID := 5,
                         characterZones :=
                           setZone sampleState.characterZones 3 (sampleZoneInfo true) },
              emitted := none, logged := none } :=
  ⟨by decide, rfl, rfl, rfl⟩

/-- C23, refuted by the code: on a notification for `profile.sav` the watch loop hands the
path of `profile.sav` itself to `refreshSaveFile`, where the bootstrap pass hands it
`save_<a>.sav`. In the folder `/saves`, whose profile has the active character 0 and whose
`save_0.sav` holds a session, the notification finds no session in the profile file: the
empty `ZoneInfo` is stored under 0 and nothing is published, while the bootstrap pass
publishes the session of `save_0.sav`. -/
theorem handleEvent_profile_reads_profile :
    handleEvent sampleWorld sampleState (writeOf "/saves/profile.sav") =
        .ok { state := { characters := some sampleRoster, activeCharacterID := 0,
                         characterZones := setZone sampleState.characterZones 0 emptyZoneInfo },
              emitted := none, logged := some "could not find base properties" } ∧
      bootstrap sampleWorld "/saves" =
        .ok { state := { characters := some sampleRoster, activeCharacterID := 0,
                         characterZones := setZone (fun _ => none) 0 (sampleZoneInfo true) },
              emitted := some { Character := sampleCharacter 0, Zone := sampleZoneInfo true },
              logged := none } ∧
      refreshSaveFile sampleWorld "/saves/save_0.sav" (sampleCharacter 0) =
        .ok (sampleZoneInfo true, none) :=
  ⟨rfl, rfl, rfl⟩

/-- C25, refuted by the code: `refreshSaveFile` ends the process through `log.Fatal` when
the save file cannot be read or decoded, and `findAdventure` does so on an error of
`processItems`. The notification for the unreadable `/saves/save_9.sav` and the one for
`/saves/save_4.sav`, where an event has a `Zone` component without `ZoneID`, both end the
process; an unreadable `profile.sav` is logged and the loop goes on. -/
theorem handleEvent_fatal :
    handleEvent sampleWorld sampleState (writeOf "/saves/save_9.sav") = .error .fatal ∧
      handleEvent sampleWorld sampleState (writeOf "/saves/save_4.sav") = .error .fatal ∧
      handleEvent sampleWorld sampleState (writeOf "/other/profile.sav") =
        .ok { state := { characters := none, activeCharacterID := 0,
                         characterZones := sampleState.characterZones },
              emitted := none, logged := some "open: no such file" } :=
  ⟨rfl, rfl, rfl⟩

/-- An unreadable or undecodable save file ends the process on every `save_` notification
whose id is parsed. -/
theorem handleEvent_save_unreadable (world : World) (s : State) (event : Notification)
    (n : Int) (msg : String) (hw : (event.HasWrite || event.HasCreate) = true)
    (hsav : stringsHasSuffix event.Name ".sav" = true)
    (hp : filepathBase event.Name ≠ "profile.sav")
    (hpre : stringsHasPrefix (filepathBase event.Name) "save_" = true)
    (hn : parseCharacterID event.Name = .ok n)
    (hr : world.archive event.Name = .error msg) :
    handleEvent world s event = .error .fatal := by
  rw [handleEvent_save_eq world s event hw hsav hp hpre]
  unfold handleSave
  simp only [hn, bind, Except.bind, refreshSaveFile_unreadable world event.Name _ msg hr]

/-- C24, refuted as stated: the notification for the unreadable `/other/profile.sav` fails
in the profile resolver, is logged and publishes nothing, but the roster becomes the nil
map and the active character id becomes 0, where they were a roster of three characters
and 5. -/
theorem handleEvent_resolver_error_counterexample :
    ∃ step, handleEvent sampleWorld sampleState (writeOf "/other/profile.sav") = .ok step ∧
      step.logged = some "open: no such file" ∧ step.emitted = none ∧
      step.state.characters.isNone = true ∧ sampleState.characters.isSome = true ∧
      step.state.activeCharacterID = 0 ∧ sampleState.activeCharacterID = 5 :=
  ⟨{ state := { characters := none, activeCharacterID := 0,
                characterZones := sampleState.characterZones },
     emitted := none, logged := some "open: no such file" },
    rfl, rfl, rfl, rfl, rfl, rfl, rfl⟩

/-- C24, amended: when the handling of a notification ends with a logged error, nothing is
published. For a file other than `profile.sav` the roster and the active character id are
kept, the stored `ZoneInfo` of every id other than the parsed one is kept, and the one
under the parsed id is replaced by the empty `ZoneInfo`. For `profile.sav` the stored
`ZoneInfo` of every id other than the new active one is kept, but the roster and the active
id are not: after an error of the resolver they are the nil map and 0, and after an error
of the reconstruction they are the newly resolved ones, with the empty `ZoneInfo` stored
under the new active id. -/
theorem handleEvent_failure_frame (world : World) (s : State) (event : Notification)
    (step : Step) (msg : String) (h : handleEvent world s event = .ok step)
    (hl : step.logged = some msg) :
    step.emitted = none ∧
      (filepathBase event.Name ≠ "profile.sav" →
        step.state.characters = s.characters ∧
        step.state.activeCharacterID = s.activeCharacterID ∧
        (∀ k, parseCharacterID event.Name ≠ .ok k →
          step.state.characterZones k = s.characterZones k) ∧
        (∀ n, parseCharacterID event.Name = .ok n →
          step.state.characterZones n = some emptyZoneInfo)) ∧
      (filepathBase event.Name = "profile.sav" →
        (∀ k, k ≠ step.state.activeCharacterID →
          step.state.characterZones k = s.characterZones k) ∧
        ((refreshProfileFile world event.Name = .ok (none, 0, some msg) ∧
            step.state.characters = none ∧ step.state.activeCharacterID = 0 ∧
            step.state.characterZones = s.characterZones) ∨
          ∃ characters a,
            refreshProfileFile world event.Name = .ok (characters, a, none) ∧
            step.state.characters = characters ∧ step.state.activeCharacterID = a ∧
            step.state.characterZones a = some emptyZoneInfo)) := by
  rcases handleEvent_cases world s event with h0 | ⟨hp, h1⟩ | ⟨hp, h1⟩
  · rw [h0, Except.ok.injEq] at h
    subst h
    cases hl
  · rw [h1] at h
    rcases handleProfile_inv world s event.Name step h with
      ⟨m, hpf, hstep⟩ | ⟨characters, a, zone, err, hpf, hr, hstep⟩
    · subst hstep
      simp only [Option.some.injEq] at hl
      subst hl
      exact ⟨rfl, fun hne => absurd hp hne,
        fun _ => ⟨fun _ _ => rfl, Or.inl ⟨hpf, rfl, rfl, rfl⟩⟩⟩
    · subst hstep
      have herr : err = some msg := hl
      subst herr
      have hz := refreshSaveFile_error_empty world event.Name _ zone msg hr
      subst hz
      refine ⟨by simp, fun hne => absurd hp hne, fun _ => ⟨fun k hk => ?_, Or.inr ?_⟩⟩
      · have hk' : k ≠ a := hk
        simp [setZone, hk']
      · exact ⟨characters, a, hpf, rfl, rfl, by simp [setZone]⟩
  · rw [h1] at h
    rcases handleSave_inv world s event.Name event.Name step h with
      ⟨m, hn, hstep⟩ | ⟨n, zone, err, hn, hr, hstep⟩
    · subst hstep
      refine ⟨rfl, fun _ => ⟨rfl, rfl, fun _ _ => rfl, fun n hn' => ?_⟩,
        fun heq => absurd heq hp⟩
      rw [hn] at hn'
      cases hn'
    · subst hstep
      have herr : err = some msg := hl
      subst herr
      have hz := refreshSaveFile_error_empty world event.Name _ zone msg hr
      subst hz
      refine ⟨by simp, fun _ => ⟨rfl, rfl, fun k hk => ?_, fun n' hn' => ?_⟩,
        fun heq => absurd heq hp⟩
      · have hk' : k ≠ n := by
          intro hkn
          subst hkn
          exact hk hn
        simp [setZone, hk']
      · rw [hn, Except.ok.injEq] at hn'
        subst hn'
        simp [setZone]

/-- Witness of the amended C24: the notification for `/saves/save_5.sav`, a file without a
session. -/
theorem handleEvent_failure_frame_witness :
    handleEvent sampleWorld sampleState (writeOf "/saves/save_5.sav") =
        .ok { state := { characters := sampleState.characters, activeCharacterID := 5,
                         characterZones := setZone sampleState.characterZones 5 emptyZoneInfo },
              emitted := none, logged := some "could not find base properties" } ∧
      some sampleRoster = sampleState.characters ∧
      (5 : Int) = sampleState.activeCharacterID ∧
      (∀ k, parseCharacterID "/saves/save_5.sav" ≠ .ok k →
        setZone sampleState.characterZones 5 emptyZoneInfo k = sampleState.characterZones k) ∧
      (∀ n, parseCharacterID "/saves/save_5.sav" = .ok n →
        setZone sampleState.characterZones 5 emptyZoneInfo n = some emptyZoneInfo) :=
  ⟨rfl, (handleEvent_failure_frame sampleWorld sampleState (writeOf "/saves/save_5.sav")
    { state := { characters := sampleState.characters, activeCharacterID := 5,
                 characterZones := setZone sampleState.characterZones 5 emptyZoneInfo },
      emitted := none, logged := some "could not find base properties" }
    "could not find base properties" rfl rfl).2.1 (by decide)⟩

/-- What an error overwrites, in terms of the id `n` that the loop has parsed: when the
reconstruction for a `save_` notification returns an error, the empty `ZoneInfo` (nil root,
empty biome, flag false) is stored under `n` in place of the value stored before, and
nothing is published; when the profile resolver returns an error, the roster becomes the
nil map and the active character id becomes 0. -/
theorem handleEvent_error_overwrites (world : World) (s : State) (event : Notification)
    (hw : (event.HasWrite || event.HasCreate) = true)
    (hsav : stringsHasSuffix event.Name ".sav" = true) :
    (∀ n zone msg, filepathBase event.Name ≠ "profile.sav" →
        stringsHasPrefix (filepathBase event.Name) "save_" = true →
        parseCharacterID event.Name = .ok n →
        refreshSaveFile world event.Name (characterAt s.characters n) = .ok (zone, some msg) →
        ∃ step, handleEvent world s event = .ok step ∧
          step.state.characterZones n =
            some { Zones := [], ZoneActor := none, Biome := "", BloodMoon := false } ∧
          step.emitted = none ∧ step.logged = some msg) ∧
      (∀ characters a msg, filepathBase event.Name = "profile.sav" →
        refreshProfileFile world event.Name = .ok (characters, a, some msg) →
        ∃ step, handleEvent world s event = .ok step ∧
          step.state.characters = none ∧ step.state.activeCharacterID = 0 ∧
          step.state.characterZones = s.characterZones ∧
          step.emitted = none ∧ step.logged = some msg) := by
  refine ⟨fun n zone msg hp hpre hn hr => ?_, fun characters a msg hp hpf => ?_⟩
  · have hz := refreshSaveFile_error_empty world event.Name _ zone msg hr
    subst hz
    rw [handleEvent_save_eq world s event hw hsav hp hpre,
      handleSave_of_ok world s event.Name event.Name n emptyZoneInfo (some msg) hn hr]
    refine ⟨_, rfl, ?_, ?_, rfl⟩
    · simp [setZone, emptyZoneInfo]
    · simp
  · obtain ⟨hc, ha⟩ := refreshProfileFile_error world event.Name characters a msg hpf
    subst hc
    subst ha
    rw [handleEvent_profile_eq world s event hw hsav hp]
    unfold handleProfile
    simp only [hpf, bind, Except.bind]
    exact ⟨_, rfl, rfl, rfl, rfl, rfl, rfl⟩

/-- An instance of `handleEvent_error_overwrites`: the notification for
`/saves/save_5.sav`, a file without a session, while a `ZoneInfo` is stored under 5. -/
theorem handleEvent_error_overwrites_witness :
    (sampleState.characterZones 5).isSome = true ∧
      ∃ step, handleEvent sampleWorld sampleState (writeOf "/saves/save_5.sav") = .ok step ∧
        step.state.characterZones 5 =
          some { Zones := [], ZoneActor := none, Biome := "", BloodMoon := false } ∧
        step.emitted = none ∧ step.logged = some "could not find base properties" :=
  ⟨rfl, (handleEvent_error_overwrites sampleWorld sampleState (writeOf "/saves/save_5.sav")
    rfl (by decide)).1 5 emptyZoneInfo "could not find base properties" (by decide)
    (by decide) rfl rfl⟩

/-- C28, refuted by the code through the defect of C21: the id under which the watch loop
stores the result of a reconstruction is parsed from the whole path. For the notification
`/data_7.x/save_3.sav`, whose file name is `save_3.sav` and whose reconstruction returns an
error, the `ZoneInfo` stored under 3 is kept as it was and the empty `ZoneInfo` is stored
under 7. In the folder `/saves` the same notification replaces the value under 3 by the
empty `ZoneInfo`. -/
theorem handleEvent_error_wrong_id :
    filepathBase "/data_7.x/save_3.sav" = "save_3.sav" ∧
      handleEvent emptyWorld sampleState (writeOf "/data_7.x/save_3.sav") =
        .ok { state := { characters := sampleState.characters, activeCharacterID := 5,
                         characterZones := setZone sampleState.characterZones 7 emptyZoneInfo },
              emitted := none, logged := some "could not find base properties" } ∧
      setZone sampleState.characterZones 7 emptyZoneInfo 3 =
        some { sampleZoneInfo true with Biome := "Losomn" } ∧
      setZone sampleState.characterZones 7 emptyZoneInfo 7 = some emptyZoneInfo ∧
      handleEvent emptyWorld sampleState (writeOf "/saves/save_3.sav") =
        .ok { state := { characters := sampleState.characters, activeCharacterID := 5,
                         characterZones := setZone sampleState.characterZones 3 emptyZoneInfo },
              emitted := none, logged := some "could not find base properties" } :=
  ⟨by decide, rfl, rfl, rfl, rfl⟩

/-! ## Printable names -/

/-- After a category is stripped from a one-segment list, the list is empty. -/
theorem questCategory_strips_last (key label namePrefix : String) :
    Console.questCategory key label (namePrefix, [key]) = .ok (label, []) := by
  simp [Console.questCategory, index, bind, Except.bind]

/-- On an empty segment list the access to the first element panics. -/
theorem questCategory_empty (key label namePrefix : String) :
    Console.questCategory key label (namePrefix, []) = .error .panic := rfl

theorem stringsSplit_first_isSome (s : String) (sep : Char) :
    ∃ first, index (stringsSplit s sep) 0 = .ok first := by
  unfold stringsSplit
  rw [splitAux_eq]
  simp [index]

theorem questCategory_error (key label : String) (st : String × List String) (e : Fail)
    (h : Console.questCategory key label st = .error e) : e = .panic ∧ st.2 = [] := by
  obtain ⟨p, l⟩ := st
  cases l with
  | nil =>
    cases h
    exact ⟨rfl, rfl⟩
  | cons x xs =>
    exfalso
    unfold Console.questCategory at h
    simp only [index, List.getElem?_cons_zero, bind, Except.bind] at h
    split at h <;> cases h

/-- The only failure of `getPrintableName` is a panic, and it occurs only on a name that
starts with `Quest_` and ends with `_C`. -/
theorem getPrintableName_error (name : String) (e : Fail)
    (h : Console.getPrintableName name = .error e) :
    e = .panic ∧ stringsHasSuffix name "_C" = true ∧ stringsHasPrefix name "Quest_" = true := by
  unfold Console.getPrintableName at h
  split at h
  · cases h
  rename_i hsuf
  split at h
  · cases h
  split at h
  · obtain ⟨first, hf⟩ := stringsSplit_first_isSome (stringsTrimSuffix name "_C") '_'
    simp only [hf, bind, Except.bind] at h
    cases h
  split at h
  · cases h
  split at h
  · rename_i hq
    refine ⟨?_, by simpa using hsuf, hq⟩
    simp only [bind, Except.bind] at h
    repeat' split at h
    all_goals first
      | (simp only [Except.error.injEq] at h
         subst h
         exact (questCategory_error _ _ _ _ (by assumption)).1)
      | cases h
  split at h
  · dsimp only at h
    repeat' split at h
    all_goals cases h
  · cases h

/-- The category `Miniboss` is the last one tested: stripping it is followed by no access
to the first segment, and the name is the label alone. -/
theorem getPrintableName_miniboss :
    Console.getPrintableName "Quest_Miniboss_C" = .ok "\x7bMiniboss\x7d " := rfl

/-- C31: `getPrintableName` returns its argument unchanged for every name that does not
end with `_C`, but it is not total on names ending with `_C`: for `Quest_Injectable_C`,
`Quest_SideD_C` and `Quest_OverworldPOI_C` the only segment is the category, stripping it
leaves the empty segment list, and the next access `splitted[0]` is out of range. -/
theorem getPrintableName_spec :
    (∀ name, stringsHasSuffix name "_C" = false → Console.getPrintableName name = .ok name) ∧
      stringsSplit (stringsTrimPrefix (stringsTrimSuffix "Quest_Injectable_C" "_C") "Quest_")
        '_' = ["Injectable"] ∧
      Console.questCategory "Injectable" "\x7bInjectable\x7d " ("", ["Injectable"]) =
        .ok ("\x7bInjectable\x7d ", []) ∧
      Console.questCategory "SideD" "\x7bSide Dungeon\x7d " ("\x7bInjectable\x7d ", []) =
        .error .panic ∧
      Console.getPrintableName "Quest_Injectable_C" = .error .panic ∧
      Console.getPrintableName "Quest_SideD_C" = .error .panic ∧
      Console.getPrintableName "Quest_OverworldPOI_C" = .error .panic := by
  refine ⟨fun name h => ?_, by decide, rfl, rfl, rfl, rfl, rfl⟩
  unfold Console.getPrintableName
  simp only [h, Bool.not_false, if_true]

/-- Witness of C31: the name `Sword`, which does not end with `_C`. -/
theorem getPrintableName_spec_witness :
    stringsHasSuffix "Sword" "_C" = false ∧ Console.getPrintableName "Sword" = .ok "Sword" :=
  ⟨by decide, getPrintableName_spec.1 "Sword" (by decide)⟩

end Refinder
